import Mathlib

/-!
# Billing core of the grocery back end (`src/server.js`)

A shallow embedding of the order / payment / cancellation routes of
`src/server.js`: `POST /api/orders`, `POST /api/orders/:id/pay` and
`POST /api/orders/:id/cancel`.

Modelling conventions.

* JavaScript numbers and SQL numeric columns are exact rationals (`ℚ`);
  `+(x).toFixed(2)` is `round2`, rounding to the nearest hundredth with ties
  away from zero (the `toFixed` algorithm picks the larger `n` for `x ≥ 0`
  and treats `x < 0` through `-x`).
* The MySQL database is the record `Db` of its five tables, each a list of
  rows in insertion order.
* Every callback-style `db.query` / `db.beginTransaction` / `db.commit` of a
  handler is one storage step. A handler receives `fault : Nat → Bool`; the
  `n`-th storage step it issues fails exactly when `fault n` holds. A failed
  step inside a transaction runs `db.rollback`, which gives back the database
  the handler started from.
* A handler returns the new database together with the HTTP response.
-/

namespace Billing

/-! ## Numbers -/

/-- The value of `+(x).toFixed(2)` for the exact number `x`: `x` rounded to two
decimals, ties away from zero. Amounts are exact rationals here; the source
computes them in doubles (`fl`, `toFixed2` below), and the two can differ only
where the exact amount is halfway between two hundredths (`HalfCent`) or
within the rounding error of a double of such a tie. -/
def round2 (x : ℚ) : ℚ :=
  if x < 0 then -((⌊(-x) * 100 + 1 / 2⌋ : ℤ) : ℚ) / 100
  else ((⌊x * 100 + 1 / 2⌋ : ℤ) : ℚ) / 100

/-- A number with at most two decimals (a whole number of cents). -/
def IsCents (x : ℚ) : Prop := ∃ n : ℤ, x = (n : ℚ) / 100

/-! ## Tables -/

/-- The `status` column of `orders`. -/
inductive Status
  | DRAFT
  | PAID
  | CANCELLED
deriving DecidableEq, Repr

/-- A row of `items` (the columns the billing routes read or write). -/
structure Item where
  item_id : Nat
  name : String
  cost : ℚ
  quantity : ℚ
deriving DecidableEq

/-- A row of `orders`. -/
structure Order where
  order_id : Nat
  customer_id : Option Nat
  cashier_user_id : Nat
  status : Status
  subtotal : ℚ
  discount_amount : ℚ
  tax_amount : ℚ
  total_amount : ℚ
  notes : Option String
deriving DecidableEq

/-- A row of `order_items`. -/
structure OrderItem where
  order_id : Nat
  item_id : Nat
  item_name_snapshot : String
  qty : ℚ
  unit_price : ℚ
  line_total : ℚ
deriving DecidableEq

/-- A row of `payments`. -/
structure Payment where
  order_id : Nat
  method : String
  amount : ℚ
  txn_ref : Option String
deriving DecidableEq

/-- A row of `invoices`. -/
structure Invoice where
  order_id : Nat
  invoice_number : String
deriving DecidableEq

/-- The database: the tables the billing routes touch. -/
structure Db where
  items : List Item
  orders : List Order
  order_items : List OrderItem
  payments : List Payment
  invoices : List Invoice
deriving DecidableEq

/-! ## Requests and responses -/

/-- One element of `req.body.items` of `POST /api/orders`. `item_id` is
`Number(i.item_id)`, `none` when that is `NaN`; `qty` and `unit_price` are
`none` when the field is `null` or `undefined`. -/
structure LineReq where
  item_id : Option Nat
  qty : Option ℚ
  unit_price : Option ℚ
deriving DecidableEq

/-- The body of `POST /api/orders`. `items` is `none` when the field is
missing or is not an array. -/
structure OrderBody where
  customer_id : Option Nat
  items : Option (List LineReq)
  discount_amount : Option ℚ
  tax_percent : Option ℚ
  notes : Option String
deriving DecidableEq

/-- The body of `POST /api/orders/:id/pay`. `method` is `""` when the field
is missing (both are falsy); `amount` is `none` when it is `null` or
`undefined`. -/
structure PayBody where
  method : String
  amount : Option ℚ
  txn_ref : Option String
  generate_invoice : Bool
deriving DecidableEq

/-- What a handler sends back. -/
inductive Resp
  /-- The handler called `sendError(res, message, status)`. -/
  | error (status : Nat) (message : String)
  /-- The body `{ order_id, total_amount }` sent with status 201. -/
  | created (order_id : Nat) (total_amount : ℚ)
  /-- The body `{ message, paid, due, invoice_number? }` of a payment. -/
  | paid (message : String) (paid : ℚ) (due : ℚ) (invoice_number : Option String)
  /-- The body `{ message: 'Order cancelled.' }`. -/
  | cancelled
  /-- The handler threw (a property of `undefined` was read). -/
  | thrown
deriving DecidableEq

/-- The fault assignment under which no storage step fails. -/
def noFault : Nat → Bool := fun _ => false

/-! ## Queries shared by the routes -/

/-- The row `oRows[0]` of `SELECT * FROM orders WHERE order_id = ?`. -/
def findOrder (db : Db) (id : Nat) : Option Order :=
  db.orders.find? (fun o => o.order_id = id)

/-- The rows of `SELECT item_id, qty FROM order_items WHERE order_id = ?`. -/
def orderLines (db : Db) (id : Nat) : List OrderItem :=
  db.order_items.filter (fun l => l.order_id = id)

/-- The value of `SELECT SUM(amount) AS paid FROM payments WHERE order_id = ?`
(with `paid || 0` for the empty sum). -/
def paidTotal (db : Db) (id : Nat) : ℚ :=
  ((db.payments.filter (fun p => p.order_id = id)).map Payment.amount).sum

/-- The effect of `UPDATE orders SET status = ? WHERE order_id = ?`. -/
def setStatus (orders : List Order) (id : Nat) (s : Status) : List Order :=
  orders.map (fun o => if o.order_id = id then { o with status := s } else o)

/-- The effect of `UPDATE items SET quantity = quantity + ? WHERE item_id = ?`
(a decrement is the same statement with a negative delta). -/
def adjustStock (stock : List Item) (item_id : Nat) (delta : ℚ) : List Item :=
  stock.map (fun r => if r.item_id = item_id then { r with quantity := r.quantity + delta } else r)

/-- The total quantity of item `item_id` on the lines of order `id`. -/
def lineQty (db : Db) (id : Nat) (item_id : Nat) : ℚ :=
  (((orderLines db id).filter (fun l => l.item_id = item_id)).map OrderItem.qty).sum

/-! ## `POST /api/orders` -/

/-- The array `items.map(i => Number(i.item_id)).filter(Boolean)`: the numeric,
non-zero item ids of the request. -/
def ids (items : List LineReq) : List Nat :=
  items.filterMap (fun i => i.item_id.filter (fun n => n ≠ 0))

/-- The rows of `SELECT item_id, name, cost FROM items WHERE item_id IN (ids)`. -/
def selectItems (db : Db) (idl : List Nat) : List Item :=
  db.items.filter (fun r => r.item_id ∈ idl)

/-- The lookup `info.get(k)` in `new Map(rows.map(r => [r.item_id, r]))`: a later
row replaces an earlier one with the same key. -/
def infoGet (rows : List Item) (k : Nat) : Option Item :=
  (rows.filter (fun r => r.item_id = k)).getLast?

/-- One order line before it has an order id: the object built in
`items.map(i => ...)`. -/
structure Line where
  item_id : Nat
  item_name_snapshot : String
  qty : ℚ
  unit_price : ℚ
  line_total : ℚ
deriving DecidableEq

/-- The body of `items.map(i => ...)` for one request line; `none` when `meta`
is `undefined` and reading `meta.name` throws. -/
def mkLine (rows : List Item) (i : LineReq) : Option Line :=
  match infoGet rows (i.item_id.getD 0) with
  | none => none
  | some m =>
    let unit := match i.unit_price with
      | some u => u
      | none => m.cost
    let qty := i.qty.getD 0
    some { item_id := i.item_id.getD 0, item_name_snapshot := m.name, qty := qty,
           unit_price := unit, line_total := unit * qty }

/-- The array `lines`; `none` when building some line throws. -/
def mkLines (rows : List Item) : List LineReq → Option (List Line)
  | [] => some []
  | i :: rest =>
    match mkLine rows i, mkLines rows rest with
    | some l, some ls => some (l :: ls)
    | _, _ => none

/-- The variable `subtotal` after the `items.map` loop. -/
def subtotalOf (lines : List Line) : ℚ :=
  (lines.map Line.line_total).sum

/-- The constant `discount = Math.max(0, Number(discount_amount) || 0)`. -/
def discountOf (body : OrderBody) : ℚ :=
  max 0 (body.discount_amount.getD 0)

/-- The constant `taxable = Math.max(0, subtotal - discount)`. -/
def taxableOf (subtotal discount : ℚ) : ℚ :=
  max 0 (subtotal - discount)

/-- The constant `tax_amount = +(taxable * (Number(tax_percent) || 0) / 100).toFixed(2)`,
in exact arithmetic; `taxAmountF` is the same constant in doubles, which is a
cent lower at some exact half-cent ties. -/
def taxAmountOf (taxable : ℚ) (body : OrderBody) : ℚ :=
  round2 (taxable * (body.tax_percent.getD 0) / 100)

/-- The constant `total_amount = +(taxable + tax_amount).toFixed(2)`. -/
def totalAmountOf (taxable tax_amount : ℚ) : ℚ :=
  round2 (taxable + tax_amount)

/-- The `insertId` of `INSERT INTO orders`: the auto-increment key, one more
than the largest order id in the table. -/
def nextOrderId (db : Db) : Nat :=
  (db.orders.map Order.order_id).foldr max 0 + 1

/-- The object `orderRow` with its key. -/
def orderRow (order_id userId : Nat) (body : OrderBody) (lines : List Line) : Order :=
  let subtotal := subtotalOf lines
  let discount := discountOf body
  let taxable := taxableOf subtotal discount
  let tax_amount := taxAmountOf taxable body
  { order_id := order_id
    customer_id := body.customer_id.filter (fun c => c ≠ 0)
    cashier_user_id := userId
    status := Status.DRAFT
    subtotal := round2 subtotal
    discount_amount := round2 discount
    tax_amount := tax_amount
    total_amount := totalAmountOf taxable tax_amount
    notes := body.notes.filter (fun n => n ≠ "") }

/-- The rows `values` inserted into `order_items`. -/
def lineRows (order_id : Nat) (lines : List Line) : List OrderItem :=
  lines.map (fun l => { order_id := order_id, item_id := l.item_id,
                        item_name_snapshot := l.item_name_snapshot, qty := l.qty,
                        unit_price := l.unit_price, line_total := l.line_total })

/-- The handler of `POST /api/orders` for the authenticated user `userId`.
Storage steps: 0 the catalog `SELECT`, 1 `beginTransaction`, 2 `INSERT INTO
orders`, 3 `INSERT INTO order_items`, 4 `commit`. -/
def createOrder (db : Db) (fault : Nat → Bool) (userId : Nat) (body : OrderBody) : Db × Resp :=
  match body.items with
  | none => (db, Resp.error 400 "Order must contain at least one item.")
  | some items =>
    if items.length = 0 then (db, Resp.error 400 "Order must contain at least one item.")
    else if (ids items).length ≠ items.length then (db, Resp.error 400 "Invalid item_id(s).")
    else if fault 0 then (db, Resp.error 500 "DB error")
    else
      let rows := selectItems db (ids items)
      if rows.length ≠ (ids items).length then (db, Resp.error 400 "Some items not found.")
      else
        match mkLines rows items with
        | none => (db, Resp.thrown)
        | some lines =>
          if fault 1 then (db, Resp.error 500 "TX start failed")
          else if fault 2 then (db, Resp.error 500 "Insert order failed")
          else if fault 3 then (db, Resp.error 500 "Insert items failed")
          else if fault 4 then (db, Resp.error 500 "Commit failed")
          else
            let order_id := nextOrderId db
            let row := orderRow order_id userId body lines
            ({ db with orders := db.orders ++ [row],
                       order_items := db.order_items ++ lineRows order_id lines },
             Resp.created order_id row.total_amount)

/-! ## `POST /api/orders/:id/pay` -/

/-- The loop `step(k)` of `finalizeIfPaid`: one `UPDATE items SET quantity =
quantity - ?` per order line, starting at storage step `n`; `none` when an
update fails, else the stock and the next storage step. -/
def step (fault : Nat → Bool) : List OrderItem → Nat → List Item → Option (List Item × Nat)
  | [], n, stock => some (stock, n)
  | it :: rest, n, stock =>
    if fault n then none
    else step fault rest (n + 1) (adjustStock stock it.item_id (-it.qty))

/-- The function `finalizeIfPaid`, starting at storage step `n`: nothing when
`due > 0`, else the status update, the read of the lines and the stock loop.
`none` is the callback called with an error. -/
def finalizeIfPaid (db : Db) (fault : Nat → Bool) (n : Nat) (id : Nat) (due : ℚ) :
    Option (Db × Nat) :=
  if due > 0 then some (db, n)
  else if fault n then none
  else if fault (n + 1) then none
  else
    match step fault (orderLines db id) (n + 2) db.items with
    | none => none
    | some (stock, m) =>
      some ({ db with orders := setStatus db.orders id Status.PAID, items := stock }, m)

/-- The invoice number built in `maybeInvoice`, for the date `ymd` (the
`YYYYMMDD` digits of `new Date().toISOString()`) and the route parameter. -/
def invNo (ymd : String) (id : Nat) : String :=
  "INV-" ++ ymd ++ "-" ++ toString id

/-- Modelled from the spec: the table declaration of `invoices` is not in the
repository; its order reference is unique ("at most one invoice per order"), so
`INSERT IGNORE INTO invoices` adds the row unless the order already has one. -/
def insertIgnoreInvoice (invoices : List Invoice) (id : Nat) (number : String) : List Invoice :=
  if invoices.any (fun v => v.order_id = id) then invoices
  else invoices ++ [{ order_id := id, invoice_number := number }]

/-- The `message` field of a payment response. -/
def payMessage (due : ℚ) : String :=
  if due > 0 then "Payment added (partial)." else "Paid in full."

/-- The handler of `POST /api/orders/:id/pay` on the date `ymd`. Storage steps:
0 `beginTransaction`, 1 the order `SELECT ... FOR UPDATE`, 2 `INSERT INTO
payments`, 3 `SELECT SUM(amount)`, then those of `finalizeIfPaid`, then the
invoice insert when requested and settled, then `commit`. -/
def payOrder (db : Db) (fault : Nat → Bool) (ymd : String) (id : Nat) (body : PayBody) :
    Db × Resp :=
  if body.method = "" then (db, Resp.error 400 "method and amount are required.")
  else
    match body.amount with
    | none => (db, Resp.error 400 "method and amount are required.")
    | some amount =>
      if fault 0 then (db, Resp.error 500 "TX start failed")
      else if fault 1 then (db, Resp.error 500 "DB error")
      else
        match findOrder db id with
        | none => (db, Resp.error 404 "Order not found")
        | some ord =>
          if ord.status = Status.PAID then (db, Resp.error 400 "Order already PAID.")
          else if ord.status = Status.CANCELLED then (db, Resp.error 400 "Order is CANCELLED.")
          else if fault 2 then (db, Resp.error 500 "Add payment failed")
          else
            let db1 : Db := { db with payments := db.payments ++
              [{ order_id := id, method := body.method, amount := amount,
                 txn_ref := body.txn_ref.filter (fun t => t ≠ "") }] }
            if fault 3 then (db, Resp.error 500 "Sum payments failed")
            else
              let paid := paidTotal db1 id
              let due := round2 (ord.total_amount - paid)
              match finalizeIfPaid db1 fault 4 id due with
              | none => (db, Resp.error 500 "Finalize failed")
              | some (db2, n) =>
                if body.generate_invoice = true ∧ due ≤ 0 then
                  if fault n then (db, Resp.error 500 "Invoice failed")
                  else if fault (n + 1) then (db, Resp.error 500 "Commit failed")
                  else
                    ({ db2 with invoices := insertIgnoreInvoice db2.invoices id (invNo ymd id) },
                     Resp.paid (payMessage due) paid due (some (invNo ymd id)))
                else if fault n then (db, Resp.error 500 "Commit failed")
                else (db2, Resp.paid (payMessage due) paid due none)

/-! ## `POST /api/orders/:id/cancel` -/

/-- The loop `addBack(k)`: one `UPDATE items SET quantity = quantity + ?` per
order line, starting at storage step `n`; `none` when an update fails. -/
def addBack (fault : Nat → Bool) : List OrderItem → Nat → List Item → Option (List Item × Nat)
  | [], n, stock => some (stock, n)
  | it :: rest, n, stock =>
    if fault n then none
    else addBack fault rest (n + 1) (adjustStock stock it.item_id it.qty)

/-- The function `setCancelled`, starting at storage step `n` on the
transaction state `db`; `db0` is the database the rollback gives back. -/
def setCancelled (db0 db : Db) (fault : Nat → Bool) (n : Nat) (id : Nat) : Db × Resp :=
  if fault n then (db0, Resp.error 500 "Cancel failed")
  else if fault (n + 1) then (db0, Resp.error 500 "Commit failed")
  else ({ db with orders := setStatus db.orders id Status.CANCELLED }, Resp.cancelled)

/-- The handler of `POST /api/orders/:id/cancel`. Storage steps: 0
`beginTransaction`, 1 the status `SELECT ... FOR UPDATE`, then for a PAID order
the read of the lines and the `addBack` loop, then those of `setCancelled`. -/
def cancelOrder (db : Db) (fault : Nat → Bool) (id : Nat) : Db × Resp :=
  if fault 0 then (db, Resp.error 500 "TX start failed")
  else if fault 1 then (db, Resp.error 500 "DB error")
  else
    match findOrder db id with
    | none => (db, Resp.error 404 "Order not found")
    | some ord =>
      if ord.status = Status.PAID then
        if fault 2 then (db, Resp.error 500 "Fetch lines failed")
        else
          match addBack fault (orderLines db id) 3 db.items with
          | none => (db, Resp.error 500 "Stock restore failed")
          | some (stock, n) => setCancelled db { db with items := stock } fault n id
      else setCancelled db db fault 2 id

end Billing

namespace Billing

/-! ## Auxiliary definitions for the statements -/

/-- The stock table after every row moved by `c` times the quantity its item
has on the lines of order `id`. -/
def shiftStock (db : Db) (id : Nat) (c : ℚ) : List Item :=
  db.items.map (fun r => { r with quantity := r.quantity + c * lineQty db id r.item_id })

/-- The payment row that `payOrder` inserts. -/
def paymentRow (id : Nat) (body : PayBody) (amount : ℚ) : Payment :=
  { order_id := id, method := body.method, amount := amount,
    txn_ref := body.txn_ref.filter (fun t => t ≠ "") }

/-- The status of order `id` as the routes read it, `none` when there is no
such order. -/
def statusOf (db : Db) (id : Nat) : Option Status :=
  (findOrder db id).map Order.status

/-- A catalog of two items, A (cost 50, stock 10) and B (cost 30, stock 5). -/
def shopDb : Db :=
  { items := [{ item_id := 1, name := "A", cost := 50, quantity := 10 },
              { item_id := 2, name := "B", cost := 30, quantity := 5 }],
    orders := [], order_items := [], payments := [], invoices := [] }

/-- The order request of the worked example: 2 of A at 50.00, 1 of B at 30.00,
discount 10.00, tax 5 percent. -/
def shopBody : OrderBody :=
  { customer_id := none,
    items := some [{ item_id := some 1, qty := some 2, unit_price := some 50 },
                   { item_id := some 2, qty := some 1, unit_price := some 30 }],
    discount_amount := some 10, tax_percent := some 5, notes := none }

/-- The order row of the worked example (subtotal 130, total 126). -/
def shopOrder : Order :=
  { order_id := 1, customer_id := none, cashier_user_id := 7, status := Status.DRAFT,
    subtotal := 130, discount_amount := 10, tax_amount := 6, total_amount := 126,
    notes := none }

/-- The database after the worked example's order was created by user 7. -/
def shopDb1 : Db :=
  (createOrder shopDb noFault 7 shopBody).1

/-- A cash payment of `a` without an invoice request. -/
def cash (a : ℚ) : PayBody :=
  { method := "CASH", amount := some a, txn_ref := none, generate_invoice := false }

/-- The worked example's database after the order was paid in full. -/
def shopDb2 : Db :=
  (payOrder shopDb1 noFault "20240101" 1 (cash 126)).1

/-- A catalog whose only item has one unit in stock, with a DRAFT order for
two units of it (total 100). -/
def lowDb : Db :=
  { items := [{ item_id := 1, name := "A", cost := 50, quantity := 1 }],
    orders := [{ order_id := 1, customer_id := none, cashier_user_id := 7,
                 status := Status.DRAFT, subtotal := 100, discount_amount := 0,
                 tax_amount := 0, total_amount := 100, notes := none }],
    order_items := [{ order_id := 1, item_id := 1, item_name_snapshot := "A", qty := 2,
                      unit_price := 50, line_total := 100 }],
    payments := [], invoices := [] }

/-- The order row of `lowDb`. -/
def lowOrder : Order :=
  { order_id := 1, customer_id := none, cashier_user_id := 7, status := Status.DRAFT,
    subtotal := 100, discount_amount := 0, tax_amount := 0, total_amount := 100,
    notes := none }

/-- A catalog with one item sold by weight, and the request for 0.375 of it at
10.50 with 5 percent tax. -/
def weighDb : Db :=
  { items := [{ item_id := 1, name := "Rice", cost := 21 / 2, quantity := 40 }],
    orders := [], order_items := [], payments := [], invoices := [] }

/-- The request for 0.375 of item 1 at its catalog price, no discount, 5 percent
tax. -/
def weighBody : OrderBody :=
  { customer_id := none,
    items := some [{ item_id := some 1, qty := some (3 / 8), unit_price := none }],
    discount_amount := none, tax_percent := some 5, notes := none }

/-- The cart of the billing page after the same item was added in two pack
variants: two lines with the same `item_id` and different unit prices. -/
def variantBody : OrderBody :=
  { customer_id := none,
    items := some [{ item_id := some 1, qty := some 1, unit_price := some 6 },
                   { item_id := some 1, qty := some 1, unit_price := some 11 }],
    discount_amount := some 0, tax_percent := some 0, notes := none }

/-- A database with a PAID order 1 and a CANCELLED order 2 (and no order 3). -/
def mixedDb : Db :=
  { items := [{ item_id := 1, name := "A", cost := 50, quantity := 8 }],
    orders := [{ order_id := 1, customer_id := none, cashier_user_id := 7,
                 status := Status.PAID, subtotal := 100, discount_amount := 0,
                 tax_amount := 0, total_amount := 100, notes := none },
               { order_id := 2, customer_id := none, cashier_user_id := 7,
                 status := Status.CANCELLED, subtotal := 50, discount_amount := 0,
                 tax_amount := 0, total_amount := 50, notes := none }],
    order_items := [{ order_id := 1, item_id := 1, item_name_snapshot := "A", qty := 2,
                      unit_price := 50, line_total := 100 },
                    { order_id := 2, item_id := 1, item_name_snapshot := "A", qty := 1,
                      unit_price := 50, line_total := 50 }],
    payments := [{ order_id := 1, method := "CASH", amount := 100, txn_ref := none }],
    invoices := [] }

/-- The request lines of `shopBody`. -/
def shopItems : List LineReq :=
  [{ item_id := some 1, qty := some 2, unit_price := some 50 },
   { item_id := some 2, qty := some 1, unit_price := some 30 }]

/-- The lines built from `shopItems`. -/
def shopLines : List Line :=
  [{ item_id := 1, item_name_snapshot := "A", qty := 2, unit_price := 50, line_total := 100 },
   { item_id := 2, item_name_snapshot := "B", qty := 1, unit_price := 30, line_total := 30 }]

/-- The request lines of `weighBody`. -/
def weighItems : List LineReq :=
  [{ item_id := some 1, qty := some (3 / 8), unit_price := none }]

/-- The lines built from `weighItems`. -/
def weighLines : List Line :=
  [{ item_id := 1, item_name_snapshot := "Rice", qty := 3 / 8, unit_price := 21 / 2,
     line_total := 63 / 16 }]

/-- The PAID order row of `mixedDb`. -/
def mixedPaid : Order :=
  { order_id := 1, customer_id := none, cashier_user_id := 7, status := Status.PAID,
    subtotal := 100, discount_amount := 0, tax_amount := 0, total_amount := 100,
    notes := none }

/-- The CANCELLED order row of `mixedDb`. -/
def mixedCancelled : Order :=
  { order_id := 2, customer_id := none, cashier_user_id := 7, status := Status.CANCELLED,
    subtotal := 50, discount_amount := 0, tax_amount := 0, total_amount := 50,
    notes := none }

/-- One call of the billing interface, with the fault assignment of its storage
steps. -/
inductive Call
  | create (fault : Nat → Bool) (userId : Nat) (body : OrderBody)
  | pay (fault : Nat → Bool) (ymd : String) (id : Nat) (body : PayBody)
  | cancel (fault : Nat → Bool) (id : Nat)

/-- The database after one call. -/
def exec (db : Db) : Call → Db
  | Call.create f u b => (createOrder db f u b).1
  | Call.pay f y i b => (payOrder db f y i b).1
  | Call.cancel f i => (cancelOrder db f i).1

/-- The databases a sequence of calls goes through, the initial one first. -/
def run (db : Db) : List Call → List Db
  | [] => [db]
  | c :: cs => db :: run (exec db c) cs

/-- The status changes of the order state machine (with "no change"): an order
appears in DRAFT, DRAFT goes to PAID or CANCELLED, PAID goes to CANCELLED. -/
def Allowed (a b : Option Status) : Prop :=
  a = b ∨ (a = none ∧ b = some Status.DRAFT) ∨
  (a = some Status.DRAFT ∧ b = some Status.PAID) ∨
  (a = some Status.DRAFT ∧ b = some Status.CANCELLED) ∨
  (a = some Status.PAID ∧ b = some Status.CANCELLED)

/-- How many times a sequence of statuses enters PAID from another status. -/
def entersPaid : List (Option Status) → Nat
  | a :: b :: rest =>
    (if a ≠ some Status.PAID ∧ b = some Status.PAID then 1 else 0) + entersPaid (b :: rest)
  | _ => 0

/-- The payment requests `bs` made one after the other on order `id`, no storage
step failing: the final database and the responses in order. -/
def payAll (db : Db) (ymd : String) (id : Nat) : List PayBody → Db × List Resp
  | [] => (db, [])
  | b :: bs =>
    ((payAll (payOrder db noFault ymd id b).1 ymd id bs).1,
     (payOrder db noFault ymd id b).2 :: (payAll (payOrder db noFault ymd id b).1 ymd id bs).2)

/-- The amount `Number(amount)` of a payment request (0 when none is given). -/
def amountOf (b : PayBody) : ℚ :=
  b.amount.getD 0

/-- A catalog with one item costing 0.01 and a DRAFT order for one unit of it,
created through `createOrder` (total 0.01). -/
def centDb : Db :=
  (createOrder
    { items := [{ item_id := 1, name := "Candy", cost := 1 / 100, quantity := 100 }],
      orders := [], order_items := [], payments := [], invoices := [] }
    noFault 7
    { customer_id := none,
      items := some [{ item_id := some 1, qty := some 1, unit_price := none }],
      discount_amount := none, tax_percent := none, notes := none }).1

/-- The order row of `centDb`. -/
def centOrder : Order :=
  { order_id := 1, customer_id := none, cashier_user_id := 7, status := Status.DRAFT,
    subtotal := 1 / 100, discount_amount := 0, tax_amount := 0, total_amount := 1 / 100,
    notes := none }

/-- What `createOrder` persists for the request line `i` in order `oid`: a line
for a catalog item `m` with the request's item id, carrying the catalog name,
the explicit unit price if there is one and the catalog cost otherwise, the
requested qty (0 when none is given) and `line_total = unit_price * qty`. -/
def PricedFrom (db : Db) (oid : Nat) (i : LineReq) (l : OrderItem) : Prop :=
  ∃ m ∈ db.items, i.item_id = some m.item_id ∧
    l.order_id = oid ∧ l.item_id = m.item_id ∧ l.item_name_snapshot = m.name ∧
    l.unit_price = (match i.unit_price with
      | some u => u
      | none => m.cost) ∧
    l.qty = i.qty.getD 0 ∧
    l.line_total = l.unit_price * l.qty

/-- A request for minus one unit of item 1 at its catalog cost. -/
def negQtyBody : OrderBody :=
  { customer_id := none,
    items := some [{ item_id := some 1, qty := some (-1), unit_price := none }],
    discount_amount := none, tax_percent := none, notes := none }

/-- The worked example's request with a tax of minus 200 percent. -/
def negTaxBody : OrderBody :=
  { shopBody with tax_percent := some (-200) }

/-- A request with one line without qty and one line with qty -2. -/
def noQtyBody : OrderBody :=
  { customer_id := none,
    items := some [{ item_id := some 1, qty := none, unit_price := none },
                   { item_id := some 2, qty := some (-2), unit_price := none }],
    discount_amount := none, tax_percent := none, notes := none }

/-- A catalog with one item at 1.29, and the request for 0.375 of it with 28
percent tax. -/
def gstDb : Db :=
  { items := [{ item_id := 1, name := "Salt", cost := 129 / 100, quantity := 40 }],
    orders := [], order_items := [], payments := [], invoices := [] }

/-- The request for 0.375 of item 1 of `gstDb` at its catalog price with 28
percent tax. -/
def gstBody : OrderBody :=
  { customer_id := none,
    items := some [{ item_id := some 1, qty := some (3 / 8), unit_price := none }],
    discount_amount := none, tax_percent := some 28, notes := none }

/-- The order row `createOrder` stores for `gstBody`: subtotal 0.48 (from
0.48375), tax 0.14, total 0.62. -/
def gstOrder : Order :=
  { order_id := 1, customer_id := none, cashier_user_id := 7, status := Status.DRAFT,
    subtotal := 48 / 100, discount_amount := 0, tax_amount := 14 / 100,
    total_amount := 62 / 100, notes := none }

/-- A catalog with one item and a DRAFT order of total 0 (one unit at 50 with a
discount of 50). -/
def freeDb : Db :=
  (createOrder
    { items := [{ item_id := 1, name := "A", cost := 50, quantity := 10 }],
      orders := [], order_items := [], payments := [], invoices := [] }
    noFault 7
    { customer_id := none,
      items := some [{ item_id := some 1, qty := some 1, unit_price := none }],
      discount_amount := some 50, tax_percent := none, notes := none }).1

/-- An initial database: a catalog and no orders, lines, payments or
invoices. -/
def Fresh (db : Db) : Prop :=
  db.orders = [] ∧ db.order_items = [] ∧ db.payments = [] ∧ db.invoices = []

/-- The invoice invariant: every order id has at most one invoice row, and an
order id with an invoice row belongs to a PAID or CANCELLED order. -/
def InvoiceInv (db : Db) : Prop :=
  ∀ id, (db.invoices.filter (fun v => v.order_id = id)).length ≤ 1 ∧
    ((∃ v ∈ db.invoices, v.order_id = id) →
      statusOf db id = some Status.PAID ∨ statusOf db id = some Status.CANCELLED)

/-- The payment invariant: order ids are distinct, every payment belongs to an
existing order, every total is in whole cents, a PAID order has
`round2 (total_amount - paid) ≤ 0`, and a DRAFT order has no payment or has
`round2 (total_amount - paid) > 0`. -/
def PaymentInv (db : Db) : Prop :=
  (db.orders.map Order.order_id).Nodup ∧
  (∀ p ∈ db.payments, ∃ o ∈ db.orders, o.order_id = p.order_id) ∧
  (∀ o ∈ db.orders, IsCents o.total_amount) ∧
  (∀ o ∈ db.orders, o.status = Status.PAID →
    round2 (o.total_amount - paidTotal db o.order_id) ≤ 0) ∧
  (∀ o ∈ db.orders, o.status = Status.DRAFT →
    (∀ p ∈ db.payments, p.order_id ≠ o.order_id) ∨
    0 < round2 (o.total_amount - paidTotal db o.order_id))

/-- The calls of the worked example with an invoice request: create the order,
then pay 126.00 in cash asking for the invoice. -/
def invoiceCalls : List Call :=
  [Call.create noFault 7 shopBody,
   Call.pay noFault "20240101" 1 { cash 126 with generate_invoice := true }]

/-- The database after `invoiceCalls`. -/
def shopDbInv : Db :=
  (payOrder shopDb1 noFault "20240101" 1 { cash 126 with generate_invoice := true }).1

/-- A catalog with one item costing 0.01. -/
def candyDb : Db :=
  { items := [{ item_id := 1, name := "Candy", cost := 1 / 100, quantity := 100 }],
    orders := [], order_items := [], payments := [], invoices := [] }

/-- The request for one unit of item 1 of `candyDb` (total 0.01). -/
def candyBody : OrderBody :=
  { customer_id := none,
    items := some [{ item_id := some 1, qty := some 1, unit_price := none }],
    discount_amount := none, tax_percent := none, notes := none }

/-- Create the order of `candyBody`, then pay 0.006 in cash. -/
def candyCalls : List Call :=
  [Call.create noFault 7 candyBody, Call.pay noFault "20240101" 1 (cash (6 / 1000))]

/-- The database after `candyCalls`. -/
def candyPaidDb : Db :=
  (payOrder (createOrder candyDb noFault 7 candyBody).1 noFault "20240101" 1
    (cash (6 / 1000))).1

/-- A cash payment of `a` that asks for the invoice. -/
def cashInvoice (a : ℚ) : PayBody :=
  { method := "CASH", amount := some a, txn_ref := none, generate_invoice := true }

/-- The number of storage steps `createOrder` issues when none of them fails. -/
def createSteps (db : Db) (body : OrderBody) : Nat :=
  match body.items with
  | none => 0
  | some items =>
    if items.length = 0 then 0
    else if (ids items).length ≠ items.length then 0
    else if (selectItems db (ids items)).length ≠ (ids items).length then 1
    else
      match mkLines (selectItems db (ids items)) items with
      | none => 1
      | some _ => 5

/-- The number of storage steps `payOrder` issues when none of them fails. -/
def paySteps (db : Db) (id : Nat) (body : PayBody) : Nat :=
  if body.method = "" then 0
  else
    match body.amount with
    | none => 0
    | some amount =>
      match findOrder db id with
      | none => 2
      | some ord =>
        if ord.status = Status.PAID then 2
        else if ord.status = Status.CANCELLED then 2
        else if 0 < round2 (ord.total_amount - (paidTotal db id + amount)) then 5
        else 6 + (orderLines db id).length + (if body.generate_invoice = true then 2 else 1)

/-- The number of storage steps `cancelOrder` issues when none of them fails. -/
def cancelSteps (db : Db) (id : Nat) : Nat :=
  match findOrder db id with
  | none => 2
  | some ord =>
    if ord.status = Status.PAID then 3 + (orderLines db id).length + 2
    else 4

/-- The fault assignment under which exactly storage step 7 fails: in a full
payment of an order, the stock update of the second line. -/
def secondUpdateFails : Nat → Bool := fun n => n == 7

/-- Two order rows that agree in every column but, possibly, `status`. -/
def SameButStatus (o o' : Order) : Prop :=
  o' = { o with status := o'.status }

/-- Every stock quantity of the database is at least zero. -/
def NonNegStock (db : Db) : Prop :=
  ∀ r ∈ db.items, 0 ≤ r.quantity

/-- The stock on hand covers the call: the order a payment is made on has, of
each item, at most the stock on hand on its lines, and the order a cancellation
is made on has no negative total line quantity. -/
def Covered (db : Db) : Call → Prop
  | Call.create _ _ _ => True
  | Call.pay _ _ i _ => ∀ r ∈ db.items, lineQty db i r.item_id ≤ r.quantity
  | Call.cancel _ i => ∀ r ∈ db.items, 0 ≤ lineQty db i r.item_id

/-- Every call of the sequence is covered in the database it is made on. -/
def CoveredRun : Db → List Call → Prop
  | _, [] => True
  | db, c :: cs => Covered db c ∧ CoveredRun (exec db c) cs

/-- A catalog whose only item has one unit in stock, and no orders. -/
def tightDb : Db :=
  { items := [{ item_id := 1, name := "A", cost := 50, quantity := 1 }],
    orders := [], order_items := [], payments := [], invoices := [] }

/-- A request for `q` units of item 1 at 50.00, no discount, no tax. -/
def unitsBody (q : ℚ) : OrderBody :=
  { customer_id := none,
    items := some [{ item_id := some 1, qty := some q, unit_price := some 50 }],
    discount_amount := none, tax_percent := none, notes := none }

/-- Two units of the item are ordered and the order is paid in full. -/
def tightCalls : List Call :=
  [Call.create noFault 7 (unitsBody 2), Call.pay noFault "20240101" 1 (cash 100)]

/-- An order for minus one unit is settled with a payment of 0, an order for two
units is paid in full, then the first order is cancelled. -/
def returnCalls : List Call :=
  [Call.create noFault 7 (unitsBody (-1)), Call.pay noFault "20240101" 1 (cash 0),
   Call.create noFault 7 (unitsBody 2), Call.pay noFault "20240101" 2 (cash 100),
   Call.cancel noFault 1]

/-- The stock quantities of the database, in table order. -/
def stockList (db : Db) : List ℚ :=
  db.items.map Item.quantity

/-- The total quantity of item `i` on the lines of the orders whose status is
PAID. -/
def paidQty (db : Db) (i : Nat) : ℚ :=
  ((db.order_items.filter
    (fun l => l.item_id = i ∧ statusOf db l.order_id = some Status.PAID)).map OrderItem.qty).sum

/-- The stock accounting invariant with respect to the initial database `db0`:
every stock row is the initial row less the quantity of its item on the lines of
PAID orders, and every line's order id is below the next order id. -/
def StockInv (db0 db : Db) : Prop :=
  db.items = db0.items.map (fun r => { r with quantity := r.quantity - paidQty db r.item_id }) ∧
  ∀ l ∈ db.order_items, l.order_id < nextOrderId db

/-! ## The billing page: `escapeHtml` -/

/-- The double quote character. -/
def quot : Char := Char.ofNat 34

/-- The apostrophe character. -/
def apos : Char := Char.ofNat 39

/-- The characters of `&amp;`. -/
def ampEntity : List Char := ['&', 'a', 'm', 'p', ';']

/-- The characters of `&lt;`. -/
def ltEntity : List Char := ['&', 'l', 't', ';']

/-- The characters of `&gt;`. -/
def gtEntity : List Char := ['&', 'g', 't', ';']

/-- The characters of `&quot;`. -/
def quotEntity : List Char := ['&', 'q', 'u', 'o', 't', ';']

/-- The characters of `&#39;`. -/
def aposEntity : List Char := ['&', '#', '3', '9', ';']

/-- The five entities `escapeHtml` writes. -/
def entities : List (List Char) :=
  [ampEntity, ltEntity, gtEntity, quotEntity, aposEntity]

/-- The method `replaceAll` for a pattern of one character, on the characters of
a string: every occurrence of `c` is replaced by `r`. -/
def replaceAll (c : Char) (r : List Char) (s : List Char) : List Char :=
  s.flatMap (fun x => if x = c then r else [x])

/-- The function `escapeHtml` of the billing page, on the characters of
`String(s)`: the five `replaceAll` calls in the order of the source. -/
def escapeHtml (s : List Char) : List Char :=
  replaceAll apos aposEntity
    (replaceAll quot quotEntity
      (replaceAll '>' gtEntity
        (replaceAll '<' ltEntity
          (replaceAll '&' ampEntity s))))

/-- What `escapeHtml` writes for one character. -/
def escapeChar (c : Char) : List Char :=
  if c = '&' then ampEntity
  else if c = '<' then ltEntity
  else if c = '>' then gtEntity
  else if c = quot then quotEntity
  else if c = apos then aposEntity
  else [c]

/-- The text after an `&` read as an entity: the character the entity stands for
and the text after the entity, `none` when no entity starts there. -/
def readEntity : List Char → Option (Char × List Char)
  | 'a' :: 'm' :: 'p' :: ';' :: rest => some ('&', rest)
  | 'l' :: 't' :: ';' :: rest => some ('<', rest)
  | 'g' :: 't' :: ';' :: rest => some ('>', rest)
  | 'q' :: 'u' :: 'o' :: 't' :: ';' :: rest => some (quot, rest)
  | '#' :: '3' :: '9' :: ';' :: rest => some (apos, rest)
  | _ => none

/-- The five entities replaced back by their characters, reading at most `fuel`
characters from left to right. -/
def unescapeAux : Nat → List Char → List Char
  | 0, _ => []
  | _, [] => []
  | fuel + 1, c :: rest =>
    if c = '&' then
      match readEntity rest with
      | some (x, rest') => x :: unescapeAux fuel rest'
      | none => c :: unescapeAux fuel rest
    else c :: unescapeAux fuel rest

/-- The five entities replaced back by their characters, in one pass from left
to right. -/
def unescapeHtml (s : List Char) : List Char :=
  unescapeAux s.length s

/-! ## Dates and invoice numbers -/

/-- The decimal digit character of `k mod 10`. -/
def digit (k : Nat) : Char := Char.ofNat (48 + k % 10)

/-- The last two decimal digits of `n`, zero-padded. -/
def pad2 (n : Nat) : List Char := [digit (n / 10), digit n]

/-- The last four decimal digits of `n`, zero-padded. -/
def pad4 (n : Nat) : List Char := [digit (n / 1000), digit (n / 100), digit (n / 10), digit n]

/-- The last six decimal digits of `n`, zero-padded. -/
def pad6 (n : Nat) : List Char := pad2 (n / 10000) ++ pad4 n

/-- The characters of `toISOString()` for the UTC date `y`-`m`-`d` with the time
part `time` (`HH:mm:ss.sssZ`): a four-digit year through 9999, an expanded year
(`+` and six digits) beyond. -/
def toISOString (y m d : Nat) (time : List Char) : List Char :=
  (if y ≤ 9999 then pad4 y else '+' :: pad6 y) ++ '-' :: pad2 m ++ '-' :: pad2 d ++ 'T' :: time

/-- The string `ymd`: the first ten characters of `iso` (`slice(0, 10)`) with
every hyphen removed (`replace` with the global hyphen pattern). -/
def ymdOf (iso : List Char) : String :=
  String.mk ((iso.take 10).filter (fun c => c ≠ '-'))

/-- The eight digits `YYYYMMDD` of a date. -/
def yyyymmdd (y m d : Nat) : List Char :=
  pad4 y ++ pad2 m ++ pad2 d

/-- The function `makeInvoiceLike` of the billing page, for the characters `iso`
of `new Date().toISOString()`. -/
def makeInvoiceLike (iso : List Char) (orderId : Nat) : String :=
  "INV-" ++ ymdOf iso ++ "-" ++ toString orderId

/-- The time part of the worked example's payment. -/
def quarterPastTen : List Char := "10:15:30.000Z".toList

/-! ## The authorization gate -/

/-- The value of a property read on `roleMap`: a rank, or a property that the
object inherits from `Object.prototype` (a function or an object). -/
inductive RoleVal
  | rank (n : Nat)
  | inherited
deriving DecidableEq

/-- The property names every plain object inherits from `Object.prototype`. -/
def inheritedKeys : List String :=
  ["constructor", "__defineGetter__", "__defineSetter__", "hasOwnProperty",
   "__lookupGetter__", "__lookupSetter__", "isPrototypeOf", "propertyIsEnumerable",
   "toString", "valueOf", "__proto__", "toLocaleString"]

/-- The property read `roleMap[k]` on the object literal `{ Admin: 3, 'Grocery
Keeper': 2, Viewer: 1 }`; `none` is `undefined`. -/
def roleMapGet (k : String) : Option RoleVal :=
  if k = "Admin" then some (RoleVal.rank 3)
  else if k = "Grocery Keeper" then some (RoleVal.rank 2)
  else if k = "Viewer" then some (RoleVal.rank 1)
  else if k ∈ inheritedKeys then some RoleVal.inherited
  else none

/-- The expression `v ?? 0`. -/
def orZero : Option RoleVal → RoleVal
  | some v => v
  | none => RoleVal.rank 0

/-- The comparison `have < required`: a function or an object converts to `NaN`,
and every comparison with `NaN` is false. -/
def jsLess : RoleVal → RoleVal → Bool
  | RoleVal.rank a, RoleVal.rank b => decide (a < b)
  | _, _ => false

/-- What `authenticateRole` gets from the request: no `Authorization` header, a
token that `jwt.verify` rejects, or a verified token with its `roleName` field
(`none` when the payload has none). -/
inductive Caller
  | noHeader
  | badToken
  | verified (roleName : Option String)
deriving DecidableEq

/-- The property key and the text that `decoded.roleName` converts to. -/
def roleKey : Option String → String
  | some s => s
  | none => "undefined"

/-- The middleware `authenticateRole(requiredRoleName)`: the response it sends,
or `none` when it calls `next()`. -/
def authenticateRole (requiredRoleName : String) : Caller → Option Resp
  | Caller.noHeader => some (Resp.error 401 "Authentication required.")
  | Caller.badToken => some (Resp.error 401 "Invalid or expired token.")
  | Caller.verified roleName =>
    if jsLess (orZero (roleMapGet (roleKey roleName))) (orZero (roleMapGet requiredRoleName))
    then some (Resp.error 403
      ("Access Denied: " ++ roleKey roleName ++ " cannot perform this action."))
    else none

/-- The billing routes. -/
inductive Route
  | createOrder
  | fetchOrder
  | addPayment
  | cancelOrder
deriving DecidableEq

/-- The role name each route passes to `authenticateRole`. -/
def requiredRole : Route → String
  | Route.createOrder => "Grocery Keeper"
  | Route.fetchOrder => "Grocery Keeper"
  | Route.addPayment => "Grocery Keeper"
  | Route.cancelOrder => "Admin"

/-- The route `POST /api/orders` behind its gate. -/
def gatedCreate (caller : Caller) (db : Db) (fault : Nat → Bool) (userId : Nat)
    (body : OrderBody) : Db × Resp :=
  match authenticateRole (requiredRole Route.createOrder) caller with
  | some r => (db, r)
  | none => createOrder db fault userId body

/-- The route `POST /api/orders/:id/pay` behind its gate. -/
def gatedPay (caller : Caller) (db : Db) (fault : Nat → Bool) (ymd : String) (id : Nat)
    (body : PayBody) : Db × Resp :=
  match authenticateRole (requiredRole Route.addPayment) caller with
  | some r => (db, r)
  | none => payOrder db fault ymd id body

/-- The route `POST /api/orders/:id/cancel` behind its gate. -/
def gatedCancel (caller : Caller) (db : Db) (fault : Nat → Bool) (id : Nat) : Db × Resp :=
  match authenticateRole (requiredRole Route.cancelOrder) caller with
  | some r => (db, r)
  | none => cancelOrder db fault id

/-- The rank of a role as the specification states it: Viewer 1, Grocery Keeper
2, Admin 3, every other role 0. -/
def specRank (role : String) : Nat :=
  if role = "Admin" then 3
  else if role = "Grocery Keeper" then 2
  else if role = "Viewer" then 1
  else 0

/-! ## The billing page: cart totals and checkout -/

/-- A line of the billing page's `cart`. -/
structure CartLine where
  item_id : Nat
  name : String
  qty : ℚ
  unit_price : ℚ
deriving DecidableEq

/-- The four amounts `recalcTotals` writes to the page. -/
structure Totals where
  subtotal : ℚ
  discount : ℚ
  taxAmt : ℚ
  total : ℚ
deriving DecidableEq

/-- The function `recalcTotals` of the billing page; `discountInput` and
`taxInput` are the numbers the two inputs hold (0 when empty). -/
def recalcTotals (cart : List CartLine) (discountInput taxInput : ℚ) : Totals :=
  let discount := max 0 discountInput
  let taxPct := max 0 taxInput
  let subtotal := cart.foldl (fun s l => s + l.unit_price * l.qty) 0
  let taxable := max 0 (subtotal - discount)
  let taxAmt := round2 (taxable * (taxPct / 100))
  let total := round2 (taxable + taxAmt)
  { subtotal := subtotal, discount := discount, taxAmt := taxAmt, total := total }

/-- The object `orderPayload` that `checkout` posts to `/api/orders`. -/
def checkoutPayload (cart : List CartLine) (discountInput taxInput : ℚ)
    (customerName : String) : OrderBody :=
  { customer_id := none
    items := some (cart.map (fun l =>
      { item_id := some l.item_id, qty := some l.qty, unit_price := some l.unit_price }))
    discount_amount := some (max 0 discountInput)
    tax_percent := some (max 0 taxInput)
    notes := if customerName = "" then none else some ("Customer: " ++ customerName) }

/-- The body `checkout` posts to `/api/orders/:id/pay`. -/
def checkoutPay (method : String) (totalAmount : ℚ) : PayBody :=
  { method := method, amount := some totalAmount, txn_ref := none, generate_invoice := true }

/-- The cart after item 1 was added in two pack variants, at 6.00 and at
11.00. -/
def variantCart : List CartLine :=
  [{ item_id := 1, name := "Rice (1 kg)", qty := 1, unit_price := 6 },
   { item_id := 1, name := "Rice (2 kg)", qty := 1, unit_price := 11 }]

/-! ## Double-precision arithmetic -/

/-- The power `2 ^ e` for an integer exponent. -/
def pow2 (e : ℤ) : ℚ :=
  if 0 ≤ e then ((2 ^ e.toNat : ℕ) : ℚ) else 1 / ((2 ^ (-e).toNat : ℕ) : ℚ)

/-- The number of binary digits of `n`, counted with at most `fuel` halvings
(`fuel = n` is always enough). -/
def bitLength : Nat → Nat → Nat
  | 0, _ => 0
  | fuel + 1, n => if n = 0 then 0 else bitLength fuel (n / 2) + 1

/-- The integer `k` with `2 ^ k ≤ x < 2 ^ (k + 1)`, for `x > 0`. -/
def ilog2 (x : ℚ) : ℤ :=
  let k : ℤ := (bitLength x.num.natAbs x.num.natAbs : ℤ) - (bitLength x.den x.den : ℤ)
  if pow2 k ≤ x then k else k - 1

/-- The integer nearest to `s ≥ 0`, a tie going to the even one. -/
def roundEven (s : ℚ) : ℤ :=
  let f : ℤ := ⌊s⌋
  let r : ℚ := s - f
  if r < 1 / 2 then f
  else if 1 / 2 < r then f + 1
  else if f % 2 = 0 then f
  else f + 1

/-- The IEEE 754 double nearest to `x` (round to nearest, ties to even): a
significand of 53 bits, exponents down to the subnormal range; `x` is taken
below the overflow threshold. -/
def fl (x : ℚ) : ℚ :=
  if x = 0 then 0
  else
    let a : ℚ := if x < 0 then -x else x
    let e : ℤ := max (ilog2 a - 52) (-1074)
    let m : ℤ := roundEven (a / pow2 e)
    if x < 0 then -((m : ℚ) * pow2 e) else (m : ℚ) * pow2 e

/-- The product `a * b` of two doubles. -/
def fmul (a b : ℚ) : ℚ := fl (a * b)

/-- The quotient `a / b` of two doubles. -/
def fdiv (a b : ℚ) : ℚ := fl (a / b)

/-- The sum `a + b` of two doubles. -/
def fadd (a b : ℚ) : ℚ := fl (a + b)

/-- The expression `+(x).toFixed(2)` on a double: `toFixed` picks the hundredth
nearest to the exact value of `x` (the larger one in magnitude at a tie), and
the unary plus reads the decimal text back as the nearest double. -/
def toFixed2 (x : ℚ) : ℚ := fl (round2 x)

/-- The constant `tax_amount = +(taxable * (Number(tax_percent) || 0) / 100).toFixed(2)`
of `POST /api/orders`, in double arithmetic. -/
def taxAmountF (taxable tax_percent : ℚ) : ℚ :=
  toFixed2 (fdiv (fmul taxable tax_percent) 100)

/-- The constant `total_amount = +(taxable + tax_amount).toFixed(2)` of
`POST /api/orders`, in double arithmetic. -/
def totalAmountF (taxable tax_amount : ℚ) : ℚ :=
  toFixed2 (fadd taxable tax_amount)

/-- The constant `taxAmt = +(taxable * (taxPct / 100)).toFixed(2)` of the billing
page's `recalcTotals`, in double arithmetic. -/
def pageTaxF (taxable taxPct : ℚ) : ℚ :=
  toFixed2 (fmul taxable (fdiv taxPct 100))

/-- The number `x` lies exactly halfway between two hundredths: rounding it to
two decimals is a tie. -/
def HalfCent (x : ℚ) : Prop := ∃ n : ℤ, x * 100 = (n : ℚ) + 1 / 2

/-- A catalog with one item at 1.99. -/
def penDb : Db :=
  { items := [{ item_id := 1, name := "Pen", cost := 199 / 100, quantity := 30 }],
    orders := [], order_items := [], payments := [], invoices := [] }

/-- The request lines for one pen at its catalog price. -/
def penItems : List LineReq :=
  [{ item_id := some 1, qty := some 1, unit_price := none }]

/-- The request for one pen, no discount, 18 percent tax. -/
def penBody : OrderBody :=
  { customer_id := none, items := some penItems, discount_amount := none,
    tax_percent := some 18, notes := none }

/-- The lines built from `penItems`. -/
def penLines : List Line :=
  [{ item_id := 1, item_name_snapshot := "Pen", qty := 1, unit_price := 199 / 100,
     line_total := 199 / 100 }]

/-- The database after the pen order was created by user 7. -/
def penDb1 : Db :=
  (createOrder penDb noFault 7 penBody).1

/-- The constants `subtotal`, `discount`, `taxable`, `tax_amount` and
`total_amount` of `POST /api/orders` in double arithmetic, for lines given by
their unit price and qty and for the numbers `discount_amount` and
`tax_percent` of the request. -/
def orderTotalsF (lines : List (ℚ × ℚ)) (discount_amount tax_percent : ℚ) :
    ℚ × ℚ × ℚ × ℚ × ℚ :=
  let subtotal := lines.foldl (fun s l => fadd s (fmul l.1 l.2)) 0
  let discount := max 0 discount_amount
  let taxable := max 0 (fl (subtotal - discount))
  let tax_amount := taxAmountF taxable tax_percent
  (subtotal, discount, taxable, tax_amount, totalAmountF taxable tax_amount)

/-! ## Lemmas on the storage queries -/

theorem adjustStock_foldl (c : ℚ) (ls : List OrderItem) (stock : List Item) :
    ls.foldl (fun s it => adjustStock s it.item_id (c * it.qty)) stock
      = stock.map (fun r => { r with quantity := r.quantity
          + c * ((ls.filter (fun l => l.item_id = r.item_id)).map OrderItem.qty).sum }) := by
  induction ls generalizing stock with
  | nil => simp
  | cons it rest ih =>
    rw [List.foldl_cons, ih]
    simp only [adjustStock, List.map_map]
    apply List.map_congr_left
    intro r _
    by_cases h : r.item_id = it.item_id
    · simp [h, List.filter_cons, mul_add, add_assoc]
    · have h' : ¬ it.item_id = r.item_id := fun e => h e.symm
      simp [h, h', List.filter_cons]

theorem step_noFault (ls : List OrderItem) (n : Nat) (stock : List Item) :
    step noFault ls n stock
      = some (ls.foldl (fun s it => adjustStock s it.item_id ((-1) * it.qty)) stock,
              n + ls.length) := by
  induction ls generalizing n stock with
  | nil => simp [step]
  | cons it rest ih =>
    simp only [step, noFault, Bool.false_eq_true, if_false, List.foldl_cons, List.length_cons]
    have := ih (n + 1) (adjustStock stock it.item_id (-it.qty))
    simp only [noFault] at this
    rw [this]
    simp [Nat.add_assoc, Nat.add_comm 1]

theorem addBack_noFault (ls : List OrderItem) (n : Nat) (stock : List Item) :
    addBack noFault ls n stock
      = some (ls.foldl (fun s it => adjustStock s it.item_id (1 * it.qty)) stock,
              n + ls.length) := by
  induction ls generalizing n stock with
  | nil => simp [addBack]
  | cons it rest ih =>
    simp only [addBack, noFault, Bool.false_eq_true, if_false, List.foldl_cons, List.length_cons]
    have := ih (n + 1) (adjustStock stock it.item_id it.qty)
    simp only [noFault] at this
    rw [this]
    simp [Nat.add_assoc, Nat.add_comm 1]

theorem paidTotal_insert (db : Db) (id : Nat) (p : Payment) (h : p.order_id = id) :
    paidTotal { db with payments := db.payments ++ [p] } id = paidTotal db id + p.amount := by
  simp [paidTotal, List.filter_append, List.filter_cons, h]

theorem findOrder_setStatus (db : Db) (id : Nat) (s : Status) (ord : Order)
    (h : findOrder db id = some ord) :
    (setStatus db.orders id s).find? (fun o => o.order_id = id)
      = some { ord with status := s } := by
  unfold findOrder at h
  generalize db.orders = os at h
  induction os with
  | nil => simp at h
  | cons o rest ih =>
    by_cases ho : o.order_id = id
    · simp [List.find?_cons, ho] at h
      subst h
      simp [setStatus, List.find?_cons, ho]
    · simp [List.find?_cons, ho] at h
      have := ih h
      simp only [setStatus] at this
      simp [setStatus, List.find?_cons, ho, this]

/-- The result of a payment on a DRAFT order when no storage step fails. -/
theorem payOrder_draft (db : Db) (ymd : String) (id : Nat) (body : PayBody)
    (ord : Order) (amount : ℚ)
    (hfind : findOrder db id = some ord) (hst : ord.status = Status.DRAFT)
    (hm : body.method ≠ "") (ha : body.amount = some amount) :
    payOrder db noFault ymd id body =
      if 0 < round2 (ord.total_amount - (paidTotal db id + amount)) then
        ({ db with payments := db.payments ++ [paymentRow id body amount] },
         Resp.paid (payMessage (round2 (ord.total_amount - (paidTotal db id + amount))))
           (paidTotal db id + amount)
           (round2 (ord.total_amount - (paidTotal db id + amount))) none)
      else
        ({ db with payments := db.payments ++ [paymentRow id body amount],
                   orders := setStatus db.orders id Status.PAID,
                   items := shiftStock db id (-1),
                   invoices := if body.generate_invoice = true
                     then insertIgnoreInvoice db.invoices id (invNo ymd id)
                     else db.invoices },
         Resp.paid (payMessage (round2 (ord.total_amount - (paidTotal db id + amount))))
           (paidTotal db id + amount)
           (round2 (ord.total_amount - (paidTotal db id + amount)))
           (if body.generate_invoice = true then some (invNo ymd id) else none)) := by
  have hp : paidTotal { db with payments := db.payments ++
      [{ order_id := id, method := body.method, amount := amount,
         txn_ref := body.txn_ref.filter (fun t => t ≠ "") }] } id
      = paidTotal db id + amount := paidTotal_insert db id _ rfl
  unfold payOrder
  simp only [hm, if_false, ha, hfind, hst]
  simp only [noFault, Bool.false_eq_true, if_false, hp]
  by_cases hd : 0 < round2 (ord.total_amount - (paidTotal db id + amount))
  · have hnle : ¬ round2 (ord.total_amount - (paidTotal db id + amount)) ≤ 0 := not_le.mpr hd
    simp [finalizeIfPaid, hd, hnle, paymentRow]
  · have hle : round2 (ord.total_amount - (paidTotal db id + amount)) ≤ 0 := not_lt.mp hd
    simp only [finalizeIfPaid, gt_iff_lt, hd, if_false, noFault, Bool.false_eq_true]
    have hs := step_noFault (orderLines db id) (4 + 2) db.items
    simp only [noFault] at hs
    simp only [orderLines] at hs ⊢
    rw [hs]
    simp only [adjustStock_foldl, hle, and_true]
    by_cases hg : body.generate_invoice = true
    · simp [hg, shiftStock, lineQty, orderLines, paymentRow]
    · simp [hg, shiftStock, lineQty, orderLines, paymentRow]

/-- The result of a cancellation of an existing order when no storage step
fails. -/
theorem cancelOrder_found (db : Db) (id : Nat) (ord : Order)
    (hfind : findOrder db id = some ord) :
    cancelOrder db noFault id =
      ({ db with orders := setStatus db.orders id Status.CANCELLED,
                 items := if ord.status = Status.PAID then shiftStock db id 1 else db.items },
       Resp.cancelled) := by
  unfold cancelOrder
  simp only [noFault, Bool.false_eq_true, if_false, hfind]
  by_cases hp : ord.status = Status.PAID
  · have hs := addBack_noFault (orderLines db id) 3 db.items
    simp only [noFault] at hs
    simp only [hp, if_true, hs, adjustStock_foldl]
    simp [setCancelled, shiftStock, lineQty, noFault]
  · simp [hp, setCancelled, noFault]

/-! ## Lemmas on rounding -/

theorem floor_int_add_half (n : ℤ) : ⌊(n : ℚ) + 1 / 2⌋ = n := by
  rw [Int.floor_int_add]
  have : ⌊(1 / 2 : ℚ)⌋ = 0 := by
    rw [Int.floor_eq_iff]; norm_num
  rw [this, add_zero]

theorem round2_cents (n : ℤ) : round2 ((n : ℚ) / 100) = (n : ℚ) / 100 := by
  unfold round2
  split_ifs with h
  · have e : -((n : ℚ) / 100) * 100 + 1 / 2 = ((-n : ℤ) : ℚ) + 1 / 2 := by
      push_cast; ring
    rw [e, floor_int_add_half]
    push_cast; ring
  · have e : (n : ℚ) / 100 * 100 + 1 / 2 = (n : ℚ) + 1 / 2 := by ring
    rw [e, floor_int_add_half]

theorem round2_of_isCents {x : ℚ} (h : IsCents x) : round2 x = x := by
  obtain ⟨n, rfl⟩ := h
  exact round2_cents n

theorem round2_nonneg {x : ℚ} (h : 0 ≤ x) : 0 ≤ round2 x := by
  unfold round2
  rw [if_neg (not_lt.mpr h)]
  apply div_nonneg _ (by norm_num)
  have : (0 : ℤ) ≤ ⌊x * 100 + 1 / 2⌋ := Int.floor_nonneg.mpr (by positivity)
  exact_mod_cast this

theorem isCents_round2 (x : ℚ) : IsCents (round2 x) := by
  unfold round2
  split_ifs
  · exact ⟨-⌊-x * 100 + 1 / 2⌋, by push_cast; ring⟩
  · exact ⟨⌊x * 100 + 1 / 2⌋, rfl⟩

theorem isCents_add {x y : ℚ} (hx : IsCents x) (hy : IsCents y) : IsCents (x + y) := by
  obtain ⟨n, rfl⟩ := hx
  obtain ⟨m, rfl⟩ := hy
  exact ⟨n + m, by push_cast; ring⟩

theorem isCents_sub {x y : ℚ} (hx : IsCents x) (hy : IsCents y) : IsCents (x - y) := by
  obtain ⟨n, rfl⟩ := hx
  obtain ⟨m, rfl⟩ := hy
  exact ⟨n - m, by push_cast; ring⟩

theorem round2_cents_add {t x : ℚ} (ht : IsCents t) (h0 : 0 ≤ t) (hx : 0 ≤ x) :
    round2 (t + x) = t + round2 x := by
  obtain ⟨n, rfl⟩ := ht
  unfold round2
  rw [if_neg (not_lt.mpr (add_nonneg h0 hx)), if_neg (not_lt.mpr hx)]
  have e : ((n : ℚ) / 100 + x) * 100 + 1 / 2 = (n : ℚ) + (x * 100 + 1 / 2) := by ring
  rw [e, Int.floor_int_add]
  push_cast; ring

/-- The two roundings of `createOrder` (the tax, then the sum) agree with one
rounding of the product when the taxable amount is in whole cents and the tax
percent is not negative. -/
theorem round2_two_step {t p : ℚ} (hc : IsCents t) (ht : 0 ≤ t) (hp : 0 ≤ p) :
    round2 (t + round2 (t * p / 100)) = round2 (t * (1 + p / 100)) := by
  have hx : 0 ≤ t * p / 100 := by positivity
  have e : t * (1 + p / 100) = t + t * p / 100 := by ring
  rw [e, round2_cents_add hc ht hx, round2_cents_add hc ht (round2_nonneg hx),
    round2_of_isCents (isCents_round2 _)]

/-! ## Lemmas on order creation -/

/-- What a successful order creation did. -/
theorem createOrder_created (db : Db) (fault : Nat → Bool) (userId : Nat) (body : OrderBody)
    (db' : Db) (oid : Nat) (total : ℚ)
    (h : createOrder db fault userId body = (db', Resp.created oid total)) :
    ∃ items lines, body.items = some items ∧ items ≠ [] ∧
      (ids items).length = items.length ∧
      (selectItems db (ids items)).length = (ids items).length ∧
      mkLines (selectItems db (ids items)) items = some lines ∧
      oid = nextOrderId db ∧
      total = (orderRow oid userId body lines).total_amount ∧
      db' = { db with orders := db.orders ++ [orderRow oid userId body lines],
                      order_items := db.order_items ++ lineRows oid lines } := by
  unfold createOrder at h
  cases hitems : body.items with
  | none =>
    rw [hitems] at h
    simp at h
  | some items =>
    rw [hitems] at h
    by_cases h1 : items.length = 0
    · simp [h1] at h
    by_cases h2 : (ids items).length = items.length
    swap
    · simp [h1, h2] at h
    by_cases h3 : fault 0 = true
    · simp [h1, h2, h3] at h
    by_cases h4 : (selectItems db (ids items)).length = (ids items).length
    swap
    · have h4' : ¬ (selectItems db (ids items)).length = items.length := by
        rw [← h2]
        exact h4
      simp [h1, h2, h3, h4'] at h
    have h4' : (selectItems db (ids items)).length = items.length := by
      rw [← h2]
      exact h4
    cases hlines : mkLines (selectItems db (ids items)) items with
    | none => simp [h1, h2, h3, h4', hlines] at h
    | some lines =>
      by_cases h5 : fault 1 = true
      · simp [h1, h2, h3, h4', hlines, h5] at h
      by_cases h6 : fault 2 = true
      · simp [h1, h2, h3, h4', hlines, h5, h6] at h
      by_cases h7 : fault 3 = true
      · simp [h1, h2, h3, h4', hlines, h5, h6, h7] at h
      by_cases h8 : fault 4 = true
      · simp [h1, h2, h3, h4', hlines, h5, h6, h7, h8] at h
      simp only [h1, h2, h3, h4', hlines, h5, h6, h7, h8, if_false, ne_eq, not_true_eq_false,
        Prod.mk.injEq, Resp.created.injEq] at h
      obtain ⟨rfl, rfl, rfl⟩ := h
      refine ⟨items, lines, rfl, ?_, h2, h4, hlines, rfl, rfl, rfl⟩
      intro e
      exact h1 (by simp [e])

theorem mkLines_line_total (rows : List Item) (items : List LineReq) (lines : List Line)
    (h : mkLines rows items = some lines) :
    ∀ l ∈ lines, l.line_total = l.unit_price * l.qty := by
  induction items generalizing lines with
  | nil =>
    simp [mkLines] at h
    subst h
    simp
  | cons i rest ih =>
    simp only [mkLines] at h
    split at h
    · rename_i l ls hl hls
      simp only [Option.some.injEq] at h
      subst h
      intro l' hl'
      rcases List.mem_cons.mp hl' with e | e
      · subst e
        unfold mkLine at hl
        split at hl
        · simp at hl
        · simp only [Option.some.injEq] at hl
          subst hl
          rfl
      · exact ih ls hls l' e
    · simp at h

theorem subtotalOf_eq (rows : List Item) (items : List LineReq) (lines : List Line)
    (h : mkLines rows items = some lines) :
    subtotalOf lines = (lines.map (fun l => l.unit_price * l.qty)).sum := by
  unfold subtotalOf
  congr 1
  apply List.map_congr_left
  exact mkLines_line_total rows items lines h

theorem ids_length_lt (items : List LineReq)
    (h : ∃ i ∈ items, i.item_id = none ∨ i.item_id = some 0) :
    (ids items).length < items.length := by
  induction items with
  | nil => simp at h
  | cons i rest ih =>
    obtain ⟨j, hj, hbad⟩ := h
    have hle : (ids rest).length ≤ rest.length := List.length_filterMap_le _ _
    rcases List.mem_cons.mp hj with e | e
    · subst e
      have : (ids (j :: rest)) = ids rest := by
        rcases hbad with hb | hb <;> simp [ids, List.filterMap_cons, hb, Option.filter]
      rw [this, List.length_cons]
      omega
    · have := ih ⟨j, e, hbad⟩
      have hc : (ids (i :: rest)).length ≤ (ids rest).length + 1 := by
        simp only [ids, List.filterMap_cons]
        split <;> simp
      rw [List.length_cons]
      omega

theorem selectItems_length_lt (db : Db) (idl : List Nat) (k : Nat)
    (hkey : (db.items.map Item.item_id).Nodup) (hk : k ∈ idl)
    (habs : ∀ r ∈ db.items, r.item_id ≠ k) :
    (selectItems db idl).length < idl.length := by
  have hsub : ((selectItems db idl).map Item.item_id).Sublist (db.items.map Item.item_id) :=
    (List.filter_sublist _).map _
  have hnd : ((selectItems db idl).map Item.item_id).Nodup := hkey.sublist hsub
  have hss : (selectItems db idl).map Item.item_id ⊆ idl.erase k := by
    intro y hy
    obtain ⟨r, hr, rfl⟩ := List.mem_map.mp hy
    simp only [selectItems, List.mem_filter, decide_eq_true_eq] at hr
    exact (List.mem_erase_of_ne (habs r hr.1)).mpr hr.2
  have hlen := (hnd.subperm hss).length_le
  rw [List.length_map, List.length_erase_of_mem hk] at hlen
  have : 0 < idl.length := List.length_pos_of_mem hk
  omega

/-! ## Lemmas on the shape of the results -/

theorem finalizeIfPaid_some (db : Db) (fault : Nat → Bool) (n id : Nat) (due : ℚ)
    (db2 : Db) (m : Nat) (h : finalizeIfPaid db fault n id due = some (db2, m)) :
    (0 < due ∧ db2 = db) ∨
    (due ≤ 0 ∧ ∃ stock, db2 = { db with orders := setStatus db.orders id Status.PAID,
                                        items := stock }) := by
  unfold finalizeIfPaid at h
  by_cases hd : due > 0
  · simp only [hd, if_true, Option.some.injEq, Prod.mk.injEq] at h
    exact Or.inl ⟨hd, h.1.symm⟩
  · right
    refine ⟨not_lt.mp hd, ?_⟩
    by_cases h1 : fault n = true
    · simp [hd, h1] at h
    by_cases h2 : fault (n + 1) = true
    · simp [hd, h1, h2] at h
    cases hs : step fault (orderLines db id) (n + 2) db.items with
    | none => simp [hd, h1, h2, hs] at h
    | some r =>
      obtain ⟨stock, k⟩ := r
      simp [hd, h1, h2, hs] at h
      exact ⟨stock, h.1.symm⟩

/-- The steps of a payment after the order was found in DRAFT and the payment
row and the sum query went through. -/
theorem payOrder_eq (db : Db) (fault : Nat → Bool) (ymd : String) (id : Nat)
    (body : PayBody) (ord : Order) (amount : ℚ)
    (hm : body.method ≠ "") (ha : body.amount = some amount)
    (h0 : fault 0 = false) (h1 : fault 1 = false)
    (hfind : findOrder db id = some ord) (hst : ord.status = Status.DRAFT)
    (h2 : fault 2 = false) (h3 : fault 3 = false) :
    payOrder db fault ymd id body =
      match finalizeIfPaid { db with payments := db.payments ++ [paymentRow id body amount] }
          fault 4 id (round2 (ord.total_amount - (paidTotal db id + amount))) with
      | none => (db, Resp.error 500 "Finalize failed")
      | some (db2, n) =>
        if body.generate_invoice = true
            ∧ round2 (ord.total_amount - (paidTotal db id + amount)) ≤ 0 then
          if fault n then (db, Resp.error 500 "Invoice failed")
          else if fault (n + 1) then (db, Resp.error 500 "Commit failed")
          else
            ({ db2 with invoices := insertIgnoreInvoice db2.invoices id (invNo ymd id) },
             Resp.paid (payMessage (round2 (ord.total_amount - (paidTotal db id + amount))))
               (paidTotal db id + amount)
               (round2 (ord.total_amount - (paidTotal db id + amount)))
               (some (invNo ymd id)))
        else if fault n then (db, Resp.error 500 "Commit failed")
        else (db2, Resp.paid (payMessage (round2 (ord.total_amount - (paidTotal db id + amount))))
               (paidTotal db id + amount)
               (round2 (ord.total_amount - (paidTotal db id + amount))) none) := by
  have hp : paidTotal { db with payments := db.payments ++ [paymentRow id body amount] } id
      = paidTotal db id + amount := paidTotal_insert db id _ rfl
  unfold payOrder
  rw [if_neg hm]
  simp only [ha, h0, h1, hfind, hst, h2, h3, Bool.false_eq_true, if_false]
  rw [if_neg (by decide), if_neg (by decide)]
  simp only [paymentRow] at hp ⊢
  rw [hp]

/-- The database a payment leaves: the one before, or that with the payment
row added, or that with the payment row added and the order settled. -/
theorem payOrder_shape (db : Db) (fault : Nat → Bool) (ymd : String) (id : Nat)
    (body : PayBody) :
    (payOrder db fault ymd id body).1 = db ∨
    ∃ ord amount, findOrder db id = some ord ∧ ord.status = Status.DRAFT ∧
      body.method ≠ "" ∧ body.amount = some amount ∧
      ((payOrder db fault ymd id body).1
          = { db with payments := db.payments ++ [paymentRow id body amount] } ∨
       ∃ stock inv, (payOrder db fault ymd id body).1
          = { db with payments := db.payments ++ [paymentRow id body amount],
                      orders := setStatus db.orders id Status.PAID,
                      items := stock, invoices := inv }) := by
  by_cases hm : body.method = ""
  · left
    simp [payOrder, hm]
  cases ha : body.amount with
  | none =>
    left
    simp [payOrder, hm, ha]
  | some amount =>
    cases h0 : fault 0 with
    | true =>
      left
      simp [payOrder, hm, ha, h0]
    | false =>
    cases h1 : fault 1 with
    | true =>
      left
      simp [payOrder, hm, ha, h0, h1]
    | false =>
    cases hfind : findOrder db id with
    | none =>
      left
      simp [payOrder, hm, ha, h0, h1, hfind]
    | some ord =>
    cases hst : ord.status with
    | PAID =>
      left
      simp [payOrder, hm, ha, h0, h1, hfind, hst]
    | CANCELLED =>
      left
      simp [payOrder, hm, ha, h0, h1, hfind, hst]
    | DRAFT =>
    cases h2 : fault 2 with
    | true =>
      left
      simp [payOrder, hm, ha, h0, h1, hfind, hst, h2]
    | false =>
    cases h3 : fault 3 with
    | true =>
      left
      simp [payOrder, hm, ha, h0, h1, hfind, hst, h2, h3]
    | false =>
    rw [payOrder_eq db fault ymd id body ord amount hm ha h0 h1 hfind hst h2 h3]
    cases hfin : finalizeIfPaid { db with payments := db.payments ++ [paymentRow id body amount] }
          fault 4 id (round2 (ord.total_amount - (paidTotal db id + amount))) with
    | none => exact Or.inl rfl
    | some r =>
      obtain ⟨db2, n⟩ := r
      have hshape := finalizeIfPaid_some _ fault 4 id _ db2 n hfin
      simp only []
      rcases hshape with ⟨hpos, rfl⟩ | ⟨_, stock, rfl⟩
      · split_ifs with hg
        all_goals first
          | exact absurd hpos (not_lt.mpr hg.2)
          | exact Or.inl rfl
          | exact Or.inr ⟨ord, amount, rfl, hst, hm, rfl, Or.inl rfl⟩
      · split_ifs
        all_goals first
          | exact Or.inl rfl
          | exact Or.inr ⟨ord, amount, rfl, hst, hm, rfl, Or.inr ⟨_, _, rfl⟩⟩

/-- The database a cancellation leaves: the one before, or that with the order
CANCELLED and some stock table. -/
theorem cancelOrder_shape (db : Db) (fault : Nat → Bool) (id : Nat) :
    (cancelOrder db fault id).1 = db ∨
    ∃ ord stock, findOrder db id = some ord ∧
      (cancelOrder db fault id).1
        = { db with orders := setStatus db.orders id Status.CANCELLED, items := stock } := by
  cases h0 : fault 0 with
  | true =>
    left
    simp [cancelOrder, h0]
  | false =>
  cases h1 : fault 1 with
  | true =>
    left
    simp [cancelOrder, h0, h1]
  | false =>
  cases hfind : findOrder db id with
  | none =>
    left
    simp [cancelOrder, h0, h1, hfind]
  | some ord =>
    unfold cancelOrder
    simp only [h0, h1, hfind, Bool.false_eq_true, if_false]
    by_cases hp : ord.status = Status.PAID
    · rw [if_pos hp]
      cases h2 : fault 2 with
      | true => exact Or.inl rfl
      | false =>
        simp only [Bool.false_eq_true, if_false]
        cases hs : addBack fault (orderLines db id) 3 db.items with
        | none => exact Or.inl rfl
        | some r =>
          obtain ⟨stock, n⟩ := r
          simp only [setCancelled]
          split_ifs
          all_goals first
            | exact Or.inl rfl
            | exact Or.inr ⟨ord, stock, rfl, rfl⟩
    · rw [if_neg hp]
      simp only [setCancelled]
      split_ifs
      all_goals first
        | exact Or.inl rfl
        | exact Or.inr ⟨ord, db.items, rfl, rfl⟩

/-- The database an order creation leaves: the one before, or that with one
DRAFT order row and its lines added. -/
theorem createOrder_shape (db : Db) (fault : Nat → Bool) (userId : Nat) (body : OrderBody) :
    (createOrder db fault userId body).1 = db ∨
    ∃ lines, (createOrder db fault userId body).1
      = { db with orders := db.orders ++ [orderRow (nextOrderId db) userId body lines],
                  order_items := db.order_items ++ lineRows (nextOrderId db) lines } := by
  unfold createOrder
  cases hitems : body.items with
  | none => exact Or.inl rfl
  | some items =>
    simp only []
    by_cases h1 : items.length = 0
    · simp [h1]
    by_cases h2 : (ids items).length = items.length
    swap
    · simp [h1, h2]
    by_cases h3 : fault 0 = true
    · simp [h1, h2, h3]
    by_cases h4 : (selectItems db (ids items)).length = items.length
    swap
    · simp [h1, h2, h3, h4]
    cases hlines : mkLines (selectItems db (ids items)) items with
    | none => simp [h1, h2, h3, h4]
    | some lines =>
      simp only [h1, h2, h3, h4, if_false, ne_eq, not_true_eq_false]
      split_ifs
      all_goals first
        | exact Or.inl rfl
        | exact Or.inr ⟨lines, rfl⟩

/-! ## Lemmas on the order status -/

theorem statusOf_setStatus (os : List Order) (i j : Nat) (s : Status) :
    ((setStatus os i s).find? (fun o => o.order_id = j)).map Order.status
      = if j = i then ((os.find? (fun o => o.order_id = j)).map Order.status).map (fun _ => s)
        else (os.find? (fun o => o.order_id = j)).map Order.status := by
  induction os with
  | nil => simp [setStatus]
  | cons o rest ih =>
    simp only [setStatus] at ih
    by_cases hoi : o.order_id = i
    · by_cases hji : j = i
      · simp [setStatus, List.find?_cons, hoi, hji]
      · have hoj : ¬ i = j := fun e => hji e.symm
        simp only [setStatus, List.map_cons, hoi, if_true, List.find?_cons, hoj,
          decide_False, hji, if_false]
        simpa [hji] using ih
    · by_cases hoj : o.order_id = j
      · by_cases hji : j = i
        · exact absurd (hoj.trans hji) hoi
        · simp [setStatus, List.find?_cons, hoi, hoj, hji]
      · simp only [setStatus, List.map_cons, hoi, if_false, List.find?_cons, hoj, decide_False]
        exact ih

theorem exec_allowed (db : Db) (c : Call) (j : Nat) :
    Allowed (statusOf db j) (statusOf (exec db c) j) := by
  cases c with
  | create f u b =>
    rcases createOrder_shape db f u b with h | ⟨lines, h⟩
    · simp only [exec, h]
      exact Or.inl rfl
    · simp only [exec, h, statusOf, findOrder, List.find?_append]
      cases hf : db.orders.find? (fun o => o.order_id = j) with
      | some o => exact Or.inl (by simp)
      | none =>
        by_cases hj : nextOrderId db = j
        · right; left
          simp [List.find?_cons, orderRow, hj]
        · left
          simp [List.find?_cons, orderRow, hj]
  | pay f y i b =>
    rcases payOrder_shape db f y i b with h | ⟨ord, amount, hfind, hst, _, _, h | ⟨stock, inv, h⟩⟩
    · simp only [exec, h]
      exact Or.inl rfl
    · simp only [exec, h, statusOf, findOrder]
      exact Or.inl rfl
    · simp only [exec, h, statusOf, findOrder, statusOf_setStatus]
      by_cases hji : j = i
      · subst hji
        simp only [findOrder] at hfind
        right; right; left
        simp [hfind, hst]
      · simp only [hji, if_false]
        exact Or.inl rfl
  | cancel f i =>
    rcases cancelOrder_shape db f i with h | ⟨ord, stock, hfind, h⟩
    · simp only [exec, h]
      exact Or.inl rfl
    · simp only [exec, h, statusOf, findOrder, statusOf_setStatus]
      by_cases hji : j = i
      · subst hji
        simp only [findOrder] at hfind
        cases hs : ord.status with
        | DRAFT =>
          right; right; right; left
          simp [hfind, hs]
        | PAID =>
          right; right; right; right
          simp [hfind, hs]
        | CANCELLED =>
          left
          simp [hfind, hs]
      · simp only [hji, if_false]
        exact Or.inl rfl

theorem run_head (db : Db) (calls : List Call) : (run db calls).head? = some db := by
  cases calls <;> simp [run]

theorem run_chain (db : Db) (calls : List Call) (j : Nat) :
    List.Chain' Allowed ((run db calls).map (fun d => statusOf d j)) := by
  induction calls generalizing db with
  | nil => simp [run]
  | cons c cs ih =>
    simp only [run, List.map_cons]
    rw [List.chain'_cons']
    refine ⟨?_, ih (exec db c)⟩
    intro y hy
    rw [List.head?_map, run_head] at hy
    simp only [Option.map_some', Option.mem_def, Option.some.injEq] at hy
    subst hy
    exact exec_allowed db c j

theorem entersPaid_chain (l : List (Option Status)) (h : List.Chain' Allowed l) :
    entersPaid l ≤ 1 ∧
    (∀ a rest, l = a :: rest → (a = some Status.PAID ∨ a = some Status.CANCELLED) →
      entersPaid l = 0) := by
  induction l with
  | nil => simp [entersPaid]
  | cons a l' ih =>
    cases l' with
    | nil => simp [entersPaid]
    | cons b rest =>
      rw [List.chain'_cons] at h
      obtain ⟨hab, hrest⟩ := h
      obtain ⟨ih1, ih2⟩ := ih hrest
      by_cases hin : a ≠ some Status.PAID ∧ b = some Status.PAID
      · have hz := ih2 b rest rfl (Or.inl hin.2)
        have e1 : entersPaid (a :: b :: rest) = 1 + entersPaid (b :: rest) := by
          simp only [entersPaid, hin, ne_eq, not_false_eq_true, and_self, if_true]
        refine ⟨by omega, ?_⟩
        intro a' rest' e ha'
        simp only [List.cons.injEq] at e
        obtain ⟨rfl, _⟩ := e
        rcases ha' with ha' | ha'
        · exact absurd ha' hin.1
        · subst ha'
          rcases hab with hab | hab | hab | hab | hab <;> simp_all
      · have e : entersPaid (a :: b :: rest) = entersPaid (b :: rest) := by
          simp only [entersPaid, hin, if_false, zero_add]
        rw [e]
        refine ⟨ih1, ?_⟩
        intro a' rest' e' ha'
        simp only [List.cons.injEq] at e'
        obtain ⟨rfl, _⟩ := e'
        apply ih2 b rest rfl
        rcases ha' with ha' | ha'
        · subst ha'
          rcases hab with hab | hab | hab | hab | hab
          · exact Or.inl hab.symm
          · simp at hab
          · simp at hab
          · simp at hab
          · exact Or.inr hab.2
        · subst ha'
          rcases hab with hab | hab | hab | hab | hab
          · exact Or.inr hab.symm
          · simp at hab
          · simp at hab
          · simp at hab
          · simp at hab

/-! ## Lemmas on sequences of payments -/

theorem payAll_append (db : Db) (ymd : String) (id : Nat) (pre post : List PayBody) :
    payAll db ymd id (pre ++ post)
      = ((payAll (payAll db ymd id pre).1 ymd id post).1,
         (payAll db ymd id pre).2 ++ (payAll (payAll db ymd id pre).1 ymd id post).2) := by
  induction pre generalizing db with
  | nil => simp [payAll]
  | cons b bs ih => simp [payAll, ih]

theorem amountOf_sum_nonneg (bs : List PayBody) (h : ∀ b ∈ bs, 0 < amountOf b) :
    0 ≤ (bs.map amountOf).sum := by
  apply List.sum_nonneg
  intro x hx
  obtain ⟨b, hb, rfl⟩ := List.mem_map.mp hx
  exact le_of_lt (h b hb)

/-- Payments in whole cents that stay below the total leave the order in DRAFT
and the stock untouched. -/
theorem payAll_partial (ymd : String) (id : Nat) (ord : Order) (bs : List PayBody) :
    ∀ db : Db, findOrder db id = some ord → ord.status = Status.DRAFT →
      (∀ b ∈ bs, b.method ≠ "" ∧ b.amount ≠ none ∧ 0 < amountOf b ∧ IsCents (amountOf b)) →
      IsCents (ord.total_amount - paidTotal db id) →
      paidTotal db id + (bs.map amountOf).sum < ord.total_amount →
      (payAll db ymd id bs).1.orders = db.orders ∧
      (payAll db ymd id bs).1.items = db.items ∧
      (payAll db ymd id bs).1.order_items = db.order_items ∧
      paidTotal (payAll db ymd id bs).1 id = paidTotal db id + (bs.map amountOf).sum ∧
      (bs ≠ [] → (payAll db ymd id bs).2.getLast?
        = some (Resp.paid "Payment added (partial)." (paidTotal db id + (bs.map amountOf).sum)
            (ord.total_amount - (paidTotal db id + (bs.map amountOf).sum)) none)) := by
  induction bs with
  | nil =>
    intro db _ _ _ _ _
    simp [payAll]
  | cons b rest ih =>
    intro db hfind hst hvalid hc hlt
    obtain ⟨hm, hsome, hpos, hbc⟩ := hvalid b (List.mem_cons_self _ _)
    have hrestv : ∀ b' ∈ rest, b'.method ≠ "" ∧ b'.amount ≠ none ∧ 0 < amountOf b' ∧
        IsCents (amountOf b') := fun b' hb' => hvalid b' (List.mem_cons_of_mem _ hb')
    have ha : b.amount = some (amountOf b) := by
      cases hb : b.amount with
      | none => exact absurd hb hsome
      | some a => simp [amountOf, hb]
    have hrest0 : 0 ≤ (rest.map amountOf).sum :=
      amountOf_sum_nonneg rest (fun b' hb' => (hrestv b' hb').2.2.1)
    simp only [List.map_cons, List.sum_cons] at hlt
    have hc1 : IsCents (ord.total_amount - (paidTotal db id + amountOf b)) := by
      have := isCents_sub hc hbc
      have e : ord.total_amount - paidTotal db id - amountOf b
          = ord.total_amount - (paidTotal db id + amountOf b) := by ring
      rwa [e] at this
    have hdue : 0 < round2 (ord.total_amount - (paidTotal db id + amountOf b)) := by
      rw [round2_of_isCents hc1]
      linarith
    have hrun := payOrder_draft db ymd id b ord (amountOf b) hfind hst hm ha
    rw [if_pos hdue, round2_of_isCents hc1] at hrun
    have hmsg : payMessage (ord.total_amount - (paidTotal db id + amountOf b))
        = "Payment added (partial)." := by
      have : ord.total_amount - (paidTotal db id + amountOf b) > 0 := by linarith
      simp [payMessage, this]
    rw [hmsg] at hrun
    have hp1 : paidTotal { db with payments := db.payments ++ [paymentRow id b (amountOf b)] } id
        = paidTotal db id + amountOf b := paidTotal_insert db id _ rfl
    have hlt1 : paidTotal { db with payments := db.payments ++ [paymentRow id b (amountOf b)] } id
        + (rest.map amountOf).sum < ord.total_amount := by
      rw [hp1]
      linarith
    have hc1' : IsCents (ord.total_amount
        - paidTotal { db with payments := db.payments ++ [paymentRow id b (amountOf b)] } id) := by
      rw [hp1]
      exact hc1
    obtain ⟨i1, i2, i3, i4, i5⟩ :=
      ih { db with payments := db.payments ++ [paymentRow id b (amountOf b)] }
        hfind hst hrestv hc1' hlt1
    simp only [payAll, hrun, List.map_cons, List.sum_cons]
    refine ⟨i1, i2, i3, ?_, ?_⟩
    · rw [i4, hp1]
      ring
    · intro _
      rw [List.getLast?_cons]
      by_cases hr : rest = []
      · subst hr
        simp [payAll]
      · rw [i5 hr, hp1]
        simp [add_assoc]

/-! ## Lemmas on the persisted lines -/

theorem round2_zero : round2 0 = 0 := by
  have := round2_cents 0
  simpa using this

theorem infoGet_some (rows : List Item) (k : Nat) (m : Item) (h : infoGet rows k = some m) :
    m ∈ rows ∧ m.item_id = k := by
  have hm := List.mem_of_getLast?_eq_some h
  simpa using List.mem_filter.mp hm

theorem ids_all_some (items : List LineReq) (h : (ids items).length = items.length) :
    ∀ i ∈ items, ∃ k, i.item_id = some k ∧ k ≠ 0 := by
  induction items with
  | nil => simp
  | cons i rest ih =>
    have hle : (ids rest).length ≤ rest.length := List.length_filterMap_le _ _
    cases hi : i.item_id.filter (fun n => n ≠ 0) with
    | none =>
      have e : ids (i :: rest) = ids rest := by
        simp only [ids, List.filterMap_cons, hi]
      rw [e, List.length_cons] at h
      omega
    | some k =>
      have e : ids (i :: rest) = k :: ids rest := by
        simp only [ids, List.filterMap_cons, hi]
      rw [e, List.length_cons, List.length_cons] at h
      intro j hj
      rcases List.mem_cons.mp hj with rfl | hj
      · cases hid : j.item_id with
        | none => simp [hid, Option.filter] at hi
        | some k' =>
          refine ⟨k', rfl, ?_⟩
          intro h0
          simp [hid, Option.filter, h0] at hi
      · exact ih (by omega) j hj

/-- Every line built by `mkLines` comes from its request line and the catalog
row found for it. -/
theorem mkLines_forall2 (rows : List Item) (items : List LineReq) (lines : List Line)
    (h : mkLines rows items = some lines) :
    List.Forall₂ (fun i l => ∃ m, infoGet rows (i.item_id.getD 0) = some m ∧
      l.item_id = i.item_id.getD 0 ∧ l.item_name_snapshot = m.name ∧
      l.unit_price = (match i.unit_price with
        | some u => u
        | none => m.cost) ∧
      l.qty = i.qty.getD 0 ∧ l.line_total = l.unit_price * l.qty) items lines := by
  induction items generalizing lines with
  | nil =>
    simp [mkLines] at h
    subst h
    exact List.Forall₂.nil
  | cons i rest ih =>
    simp only [mkLines] at h
    split at h
    · rename_i l ls hl hls
      simp only [Option.some.injEq] at h
      subst h
      refine List.Forall₂.cons ?_ (ih ls hls)
      unfold mkLine at hl
      split at hl
      · simp at hl
      · rename_i m hm
        simp only [Option.some.injEq] at hl
        subst hl
        exact ⟨m, hm, rfl, rfl, rfl, rfl, rfl⟩
    · simp at h

theorem lineRows_pricedFrom (db : Db) (rows : List Item) (oid : Nat)
    (hrows : ∀ m ∈ rows, m ∈ db.items) (items : List LineReq) (lines : List Line)
    (hall : ∀ i ∈ items, ∃ k, i.item_id = some k ∧ k ≠ 0)
    (hf : List.Forall₂ (fun i l => ∃ m, infoGet rows (i.item_id.getD 0) = some m ∧
      l.item_id = i.item_id.getD 0 ∧ l.item_name_snapshot = m.name ∧
      l.unit_price = (match i.unit_price with
        | some u => u
        | none => m.cost) ∧
      l.qty = i.qty.getD 0 ∧ l.line_total = l.unit_price * l.qty) items lines) :
    List.Forall₂ (PricedFrom db oid) items (lineRows oid lines) := by
  induction hf with
  | nil => exact List.Forall₂.nil
  | @cons i l is ls hil _ ih =>
    simp only [lineRows, List.map_cons]
    refine List.Forall₂.cons ?_ (ih (fun j hj => hall j (List.mem_cons_of_mem _ hj)))
    obtain ⟨m, hm, h1, h2, h3, h4, h5⟩ := hil
    obtain ⟨k, hk, _⟩ := hall i (List.mem_cons_self _ _)
    obtain ⟨hmem, hmk⟩ := infoGet_some _ _ m hm
    rw [hk, Option.getD_some] at hmk h1
    refine ⟨m, hrows m hmem, ?_, rfl, ?_, h2, h3, h4, h5⟩
    · rw [hk, hmk]
    · simp only [h1, hmk]

/-- The rows a successful `createOrder` adds to `order_items`, line by line. -/
theorem createOrder_lines (db : Db) (fault : Nat → Bool) (userId : Nat) (body : OrderBody)
    (db' : Db) (oid : Nat) (total : ℚ)
    (h : createOrder db fault userId body = (db', Resp.created oid total)) :
    ∃ items lines, body.items = some items ∧
      mkLines (selectItems db (ids items)) items = some lines ∧
      db'.orders = db.orders ++ [orderRow oid userId body lines] ∧
      db'.order_items = db.order_items ++ lineRows oid lines ∧
      List.Forall₂ (PricedFrom db oid) items (lineRows oid lines) := by
  obtain ⟨items, lines, hi, _, hlen, _, hl, _, _, hdb⟩ :=
    createOrder_created db fault userId body db' oid total h
  refine ⟨items, lines, hi, hl, by rw [hdb], by rw [hdb], ?_⟩
  exact lineRows_pricedFrom db _ oid (fun m hm => (List.mem_filter.mp hm).1) items lines
    (ids_all_some items hlen) (mkLines_forall2 _ items lines hl)

/-! ## Lemmas on cancellation and invoices -/

theorem setStatus_eq_self (os : List Order) (id : Nat) (s : Status)
    (h : ∀ o ∈ os, o.order_id = id → o.status = s) : setStatus os id s = os := by
  unfold setStatus
  conv_rhs => rw [← List.map_id os]
  apply List.map_congr_left
  intro o ho
  by_cases hid : o.order_id = id
  · have hs := h o ho hid
    simp only [hid, if_true, id_eq]
    cases o
    simp_all
  · simp [hid]

theorem setStatus_idem (os : List Order) (id : Nat) (s : Status) :
    setStatus (setStatus os id s) id s = setStatus os id s := by
  apply setStatus_eq_self
  intro o ho hid
  simp only [setStatus, List.mem_map] at ho
  obtain ⟨o', _, rfl⟩ := ho
  by_cases h' : o'.order_id = id
  · simp [h']
  · simp only [h', if_false] at hid

theorem find_unique (os : List Order) (id : Nat) (ord : Order)
    (hkey : (os.map Order.order_id).Nodup)
    (hfind : os.find? (fun o => o.order_id = id) = some ord) :
    ∀ o ∈ os, o.order_id = id → o = ord := by
  induction os with
  | nil => simp
  | cons x rest ih =>
    simp only [List.map_cons, List.nodup_cons, List.mem_map, not_exists, not_and] at hkey
    intro o ho hid
    by_cases hx : x.order_id = id
    · simp only [List.find?_cons, hx, decide_True, Option.some.injEq] at hfind
      rcases List.mem_cons.mp ho with rfl | ho'
      · exact hfind
      · exact absurd (hid.trans hx.symm) (hkey.1 o ho')
    · simp only [List.find?_cons, hx, decide_False] at hfind
      rcases List.mem_cons.mp ho with rfl | ho'
      · exact absurd hid hx
      · exact ih hkey.2 hfind o ho' hid

theorem cancelOrder_missing (db : Db) (id : Nat) (h : findOrder db id = none) :
    cancelOrder db noFault id = (db, Resp.error 404 "Order not found") := by
  simp [cancelOrder, noFault, h]

/-! ## Lemmas on reachable states -/

/-- The database a payment leaves, with the condition on `due` of each case. -/
theorem payOrder_cases (db : Db) (fault : Nat → Bool) (ymd : String) (id : Nat)
    (body : PayBody) :
    (payOrder db fault ymd id body).1 = db ∨
    ∃ ord amount, findOrder db id = some ord ∧ ord.status = Status.DRAFT ∧
      body.method ≠ "" ∧ body.amount = some amount ∧
      ((0 < round2 (ord.total_amount - (paidTotal db id + amount)) ∧
        (payOrder db fault ymd id body).1
          = { db with payments := db.payments ++ [paymentRow id body amount] }) ∨
       (round2 (ord.total_amount - (paidTotal db id + amount)) ≤ 0 ∧
        ∃ stock, (payOrder db fault ymd id body).1
            = { db with payments := db.payments ++ [paymentRow id body amount],
                        orders := setStatus db.orders id Status.PAID,
                        items := stock } ∨
          (payOrder db fault ymd id body).1
            = { db with payments := db.payments ++ [paymentRow id body amount],
                        orders := setStatus db.orders id Status.PAID,
                        items := stock,
                        invoices := insertIgnoreInvoice db.invoices id (invNo ymd id) })) := by
  by_cases hm : body.method = ""
  · left
    simp [payOrder, hm]
  cases ha : body.amount with
  | none =>
    left
    simp [payOrder, hm, ha]
  | some amount =>
    cases h0 : fault 0 with
    | true =>
      left
      simp [payOrder, hm, ha, h0]
    | false =>
    cases h1 : fault 1 with
    | true =>
      left
      simp [payOrder, hm, ha, h0, h1]
    | false =>
    cases hfind : findOrder db id with
    | none =>
      left
      simp [payOrder, hm, ha, h0, h1, hfind]
    | some ord =>
    cases hst : ord.status with
    | PAID =>
      left
      simp [payOrder, hm, ha, h0, h1, hfind, hst]
    | CANCELLED =>
      left
      simp [payOrder, hm, ha, h0, h1, hfind, hst]
    | DRAFT =>
    cases h2 : fault 2 with
    | true =>
      left
      simp [payOrder, hm, ha, h0, h1, hfind, hst, h2]
    | false =>
    cases h3 : fault 3 with
    | true =>
      left
      simp [payOrder, hm, ha, h0, h1, hfind, hst, h2, h3]
    | false =>
    rw [payOrder_eq db fault ymd id body ord amount hm ha h0 h1 hfind hst h2 h3]
    cases hfin : finalizeIfPaid { db with payments := db.payments ++ [paymentRow id body amount] }
          fault 4 id (round2 (ord.total_amount - (paidTotal db id + amount))) with
    | none => exact Or.inl rfl
    | some r =>
      obtain ⟨db2, n⟩ := r
      have hshape := finalizeIfPaid_some _ fault 4 id _ db2 n hfin
      simp only []
      rcases hshape with ⟨hpos, rfl⟩ | ⟨hle, stock, rfl⟩
      · split_ifs with hg
        all_goals first
          | exact absurd hpos (not_lt.mpr hg.2)
          | exact Or.inl rfl
          | exact Or.inr ⟨ord, amount, rfl, hst, hm, rfl, Or.inl ⟨hpos, rfl⟩⟩
      · split_ifs
        all_goals first
          | exact Or.inl rfl
          | exact Or.inr ⟨ord, amount, rfl, hst, hm, rfl, Or.inr ⟨hle, stock, Or.inl rfl⟩⟩
          | exact Or.inr ⟨ord, amount, rfl, hst, hm, rfl, Or.inr ⟨hle, stock, Or.inr rfl⟩⟩

/-- A property of the initial database that every call preserves holds in
every database of a run. -/
theorem run_invariant (P : Db → Prop) (hstep : ∀ db c, P db → P (exec db c))
    (calls : List Call) : ∀ db0, P db0 → ∀ db ∈ run db0 calls, P db := by
  induction calls with
  | nil =>
    intro db0 h0 db hdb
    simp only [run, List.mem_singleton] at hdb
    exact hdb ▸ h0
  | cons c cs ih =>
    intro db0 h0 db hdb
    simp only [run, List.mem_cons] at hdb
    rcases hdb with rfl | hdb
    · exact h0
    · exact ih (exec db0 c) (hstep db0 c h0) db hdb

theorem statusOf_append_of_some (db : Db) (row : Order) (j : Nat) (s : Status)
    (h : statusOf db j = some s) (oi : List OrderItem) :
    statusOf { db with orders := db.orders ++ [row], order_items := oi } j = some s := by
  simp only [statusOf, findOrder, List.find?_append] at h ⊢
  cases hf : db.orders.find? (fun o => o.order_id = j) with
  | none => simp [hf] at h
  | some o =>
    simp only [hf, Option.map_some', Option.some.injEq] at h
    simp [h]

theorem invoiceInv_exec (db : Db) (c : Call) (h : InvoiceInv db) : InvoiceInv (exec db c) := by
  cases c with
  | create f u b =>
    rcases createOrder_shape db f u b with e | ⟨lines, e⟩
    · simp only [exec, e]
      exact h
    · simp only [exec, e]
      intro j
      refine ⟨(h j).1, ?_⟩
      intro hv
      rcases (h j).2 hv with hs | hs
      · exact Or.inl (statusOf_append_of_some db _ j _ hs _)
      · exact Or.inr (statusOf_append_of_some db _ j _ hs _)
  | pay f y i b =>
    rcases payOrder_cases db f y i b with e | ⟨ord, amount, hfind, hst, _, _, ⟨_, e⟩ |
      ⟨_, stock, e | e⟩⟩
    · simp only [exec, e]
      exact h
    · simp only [exec, e]
      exact h
    · simp only [exec, e]
      intro j
      refine ⟨(h j).1, ?_⟩
      intro hv
      simp only [statusOf, findOrder, statusOf_setStatus]
      by_cases hji : j = i
      · subst hji
        left
        simp only [findOrder] at hfind
        simp [hfind]
      · simp only [hji, if_false]
        exact (h j).2 hv
    · simp only [exec, e]
      intro j
      by_cases hji : j = i
      · subst hji
        refine ⟨?_, ?_⟩
        · unfold insertIgnoreInvoice
          split_ifs with hany
          · exact (h j).1
          · have hnone : db.invoices.filter (fun v => v.order_id = j) = [] := by
              rw [List.filter_eq_nil_iff]
              intro v hv hvj
              apply hany
              rw [List.any_eq_true]
              exact ⟨v, hv, hvj⟩
            simp [List.filter_append, hnone]
        · intro _
          left
          simp only [statusOf, findOrder, statusOf_setStatus, if_true]
          simp only [findOrder] at hfind
          simp [hfind]
      · have hfilter : (insertIgnoreInvoice db.invoices i (invNo y i)).filter
            (fun v => v.order_id = j) = db.invoices.filter (fun v => v.order_id = j) := by
          unfold insertIgnoreInvoice
          split_ifs
          · rfl
          · have hij : ¬ i = j := fun e' => hji e'.symm
            simp [List.filter_append, List.filter_cons, hij]
        refine ⟨?_, ?_⟩
        · simp only [hfilter]
          exact (h j).1
        · intro hv
          simp only [statusOf, findOrder, statusOf_setStatus, hji, if_false]
          apply (h j).2
          obtain ⟨v, hv1, hv2⟩ := hv
          have hvf : v ∈ (insertIgnoreInvoice db.invoices i (invNo y i)).filter
              (fun v => v.order_id = j) := List.mem_filter.mpr ⟨hv1, by simpa using hv2⟩
          rw [hfilter] at hvf
          exact ⟨v, (List.mem_filter.mp hvf).1, hv2⟩
  | cancel f i =>
    rcases cancelOrder_shape db f i with e | ⟨ord, stock, hfind, e⟩
    · simp only [exec, e]
      exact h
    · simp only [exec, e]
      intro j
      refine ⟨(h j).1, ?_⟩
      intro hv
      simp only [statusOf, findOrder, statusOf_setStatus]
      by_cases hji : j = i
      · subst hji
        right
        simp only [findOrder] at hfind
        simp [hfind]
      · simp only [hji, if_false]
        exact (h j).2 hv

theorem invoiceInv_fresh (db : Db) (h : Fresh db) : InvoiceInv db := by
  obtain ⟨_, _, _, hi⟩ := h
  intro j
  simp [hi]

theorem paidTotal_eq (db db' : Db) (j : Nat) (h : db'.payments = db.payments) :
    paidTotal db' j = paidTotal db j := by
  simp [paidTotal, h]

theorem paidTotal_append_ne (db db' : Db) (p : Payment) (j : Nat)
    (h : db'.payments = db.payments ++ [p]) (hne : p.order_id ≠ j) :
    paidTotal db' j = paidTotal db j := by
  simp [paidTotal, h, List.filter_append, List.filter_cons, hne]

theorem paidTotal_append_eq (db db' : Db) (p : Payment) (j : Nat)
    (h : db'.payments = db.payments ++ [p]) (he : p.order_id = j) :
    paidTotal db' j = paidTotal db j + p.amount := by
  simp [paidTotal, h, List.filter_append, List.filter_cons, he]

theorem findOrder_mem (db : Db) (id : Nat) (ord : Order) (h : findOrder db id = some ord) :
    ord ∈ db.orders ∧ ord.order_id = id := by
  unfold findOrder at h
  refine ⟨List.mem_of_find?_eq_some h, ?_⟩
  simpa using List.find?_some h

theorem setStatus_ids (os : List Order) (id : Nat) (s : Status) :
    (setStatus os id s).map Order.order_id = os.map Order.order_id := by
  simp only [setStatus, List.map_map]
  apply List.map_congr_left
  intro o _
  by_cases h : o.order_id = id <;> simp [h]

theorem mem_setStatus (os : List Order) (id : Nat) (s : Status) (o' : Order)
    (h : o' ∈ setStatus os id s) :
    ∃ o ∈ os, o'.order_id = o.order_id ∧ o'.total_amount = o.total_amount ∧
      ((o.order_id = id ∧ o'.status = s) ∨ (o.order_id ≠ id ∧ o' = o)) := by
  simp only [setStatus, List.mem_map] at h
  obtain ⟨o, ho, rfl⟩ := h
  refine ⟨o, ho, ?_⟩
  by_cases hid : o.order_id = id
  · simp [hid]
  · simp [hid]

theorem setStatus_mem (os : List Order) (id : Nat) (s : Status) (o : Order) (h : o ∈ os) :
    ∃ o' ∈ setStatus os id s, o'.order_id = o.order_id := by
  refine ⟨if o.order_id = id then { o with status := s } else o, ?_, ?_⟩
  · simp only [setStatus, List.mem_map]
    exact ⟨o, h, rfl⟩
  · by_cases hid : o.order_id = id <;> simp [hid]

theorem lt_nextOrderId (db : Db) (o : Order) (h : o ∈ db.orders) :
    o.order_id < nextOrderId db := by
  unfold nextOrderId
  generalize db.orders = os at h
  induction os with
  | nil => simp at h
  | cons x rest ih =>
    simp only [List.map_cons, List.foldr_cons]
    rcases List.mem_cons.mp h with rfl | h'
    · omega
    · have := ih h'
      omega

/-- A partial payment keeps the payment invariant. -/
theorem paymentInv_partial (db db' : Db) (id : Nat) (ord : Order) (p : Payment)
    (h : PaymentInv db) (hfind : findOrder db id = some ord)
    (hst : ord.status = Status.DRAFT) (hpid : p.order_id = id)
    (hpos : 0 < round2 (ord.total_amount - (paidTotal db id + p.amount)))
    (ho : db'.orders = db.orders) (hp : db'.payments = db.payments ++ [p]) :
    PaymentInv db' := by
  obtain ⟨hk, hpay, hc, hP, hD⟩ := h
  obtain ⟨hmem, hoid⟩ := findOrder_mem db id ord hfind
  have huniq := find_unique db.orders id ord hk hfind
  unfold PaymentInv
  rw [ho, hp]
  refine ⟨hk, ?_, hc, ?_, ?_⟩
  · intro q hq
    rcases List.mem_append.mp hq with hq | hq
    · exact hpay q hq
    · rw [List.mem_singleton] at hq
      subst hq
      exact ⟨ord, hmem, hoid.trans hpid.symm⟩
  · intro o ho' hs
    have e : p.order_id ≠ o.order_id := by
      intro e'
      have := huniq o ho' (e'.symm.trans hpid)
      subst this
      rw [hst] at hs
      cases hs
    rw [paidTotal_append_ne db db' p o.order_id hp e]
    exact hP o ho' hs
  · intro o ho' hs
    by_cases e : p.order_id = o.order_id
    · right
      have := huniq o ho' (e.symm.trans hpid)
      subst this
      rw [paidTotal_append_eq db db' p o.order_id hp e, ← e, hpid]
      exact hpos
    · rcases hD o ho' hs with hl | hr
      · left
        intro q hq
        rcases List.mem_append.mp hq with hq | hq
        · exact hl q hq
        · rw [List.mem_singleton] at hq
          subst hq
          exact e
      · right
        rw [paidTotal_append_ne db db' p o.order_id hp e]
        exact hr

/-- A settling payment keeps the payment invariant. -/
theorem paymentInv_settle (db db' : Db) (id : Nat) (ord : Order) (p : Payment)
    (h : PaymentInv db) (hfind : findOrder db id = some ord)
    (hpid : p.order_id = id)
    (hle : round2 (ord.total_amount - (paidTotal db id + p.amount)) ≤ 0)
    (ho : db'.orders = setStatus db.orders id Status.PAID)
    (hp : db'.payments = db.payments ++ [p]) :
    PaymentInv db' := by
  obtain ⟨hk, hpay, hc, hP, hD⟩ := h
  obtain ⟨hmem, hoid⟩ := findOrder_mem db id ord hfind
  have huniq := find_unique db.orders id ord hk hfind
  unfold PaymentInv
  rw [ho, hp]
  refine ⟨?_, ?_, ?_, ?_, ?_⟩
  · rw [setStatus_ids]
    exact hk
  · intro q hq
    rcases List.mem_append.mp hq with hq | hq
    · obtain ⟨o, ho', hoq⟩ := hpay q hq
      obtain ⟨o', ho'', hid'⟩ := setStatus_mem db.orders id Status.PAID o ho'
      exact ⟨o', ho'', hid'.trans hoq⟩
    · rw [List.mem_singleton] at hq
      subst hq
      obtain ⟨o', ho'', hid'⟩ := setStatus_mem db.orders id Status.PAID ord hmem
      exact ⟨o', ho'', hid'.trans (hoid.trans hpid.symm)⟩
  · intro o' ho'
    obtain ⟨o, hom, _, htot, _⟩ := mem_setStatus db.orders id Status.PAID o' ho'
    rw [htot]
    exact hc o hom
  · intro o' ho' hs
    obtain ⟨o, hom, hid', htot, hcase⟩ := mem_setStatus db.orders id Status.PAID o' ho'
    rw [hid', htot]
    rcases hcase with ⟨e, _⟩ | ⟨e, rfl⟩
    · have := huniq o hom e
      subst this
      rw [paidTotal_append_eq db db' p o.order_id hp (hpid.trans e.symm), e]
      exact hle
    · rw [paidTotal_append_ne db db' p o'.order_id hp (fun e' => e (e'.symm.trans hpid))]
      exact hP o' hom hs
  · intro o' ho' hs
    obtain ⟨o, hom, hid', htot, hcase⟩ := mem_setStatus db.orders id Status.PAID o' ho'
    rcases hcase with ⟨_, e2⟩ | ⟨e, rfl⟩
    · rw [e2] at hs
      cases hs
    · have hne : p.order_id ≠ o'.order_id := fun e' => e (e'.symm.trans hpid)
      rcases hD o' hom hs with hl | hr
      · left
        intro q hq
        rcases List.mem_append.mp hq with hq | hq
        · exact hl q hq
        · rw [List.mem_singleton] at hq
          subst hq
          exact hne
      · right
        rw [paidTotal_append_ne db db' p o'.order_id hp hne]
        exact hr

/-- A cancellation keeps the payment invariant. -/
theorem paymentInv_cancel (db db' : Db) (id : Nat)
    (h : PaymentInv db)
    (ho : db'.orders = setStatus db.orders id Status.CANCELLED)
    (hp : db'.payments = db.payments) :
    PaymentInv db' := by
  obtain ⟨hk, hpay, hc, hP, hD⟩ := h
  unfold PaymentInv
  rw [ho, hp]
  refine ⟨?_, ?_, ?_, ?_, ?_⟩
  · rw [setStatus_ids]
    exact hk
  · intro q hq
    obtain ⟨o, ho', hoq⟩ := hpay q hq
    obtain ⟨o', ho'', hid'⟩ := setStatus_mem db.orders id Status.CANCELLED o ho'
    exact ⟨o', ho'', hid'.trans hoq⟩
  · intro o' ho'
    obtain ⟨o, hom, _, htot, _⟩ := mem_setStatus db.orders id Status.CANCELLED o' ho'
    rw [htot]
    exact hc o hom
  · intro o' ho' hs
    obtain ⟨o, hom, hid', htot, hcase⟩ := mem_setStatus db.orders id Status.CANCELLED o' ho'
    rcases hcase with ⟨_, e2⟩ | ⟨_, rfl⟩
    · rw [e2] at hs
      cases hs
    · rw [paidTotal_eq db db' o'.order_id hp]
      exact hP o' hom hs
  · intro o' ho' hs
    obtain ⟨o, hom, hid', htot, hcase⟩ := mem_setStatus db.orders id Status.CANCELLED o' ho'
    rcases hcase with ⟨_, e2⟩ | ⟨_, rfl⟩
    · rw [e2] at hs
      cases hs
    · rw [paidTotal_eq db db' o'.order_id hp]
      exact hD o' hom hs

/-- An order creation keeps the payment invariant. -/
theorem paymentInv_create (db db' : Db) (row : Order)
    (h : PaymentInv db) (hid : row.order_id = nextOrderId db)
    (hrow : row.status = Status.DRAFT) (hcents : IsCents row.total_amount)
    (ho : db'.orders = db.orders ++ [row]) (hp : db'.payments = db.payments) :
    PaymentInv db' := by
  obtain ⟨hk, hpay, hc, hP, hD⟩ := h
  have hfreshp : ∀ q ∈ db.payments, q.order_id ≠ row.order_id := by
    intro q hq e
    obtain ⟨o, ho', hoq⟩ := hpay q hq
    have := lt_nextOrderId db o ho'
    omega
  unfold PaymentInv
  rw [ho, hp]
  refine ⟨?_, ?_, ?_, ?_, ?_⟩
  · rw [List.map_append, List.nodup_append]
    refine ⟨hk, by simp, ?_⟩
    intro a ha hb
    simp only [List.map_cons, List.map_nil, List.mem_singleton] at hb
    obtain ⟨o, ho', rfl⟩ := List.mem_map.mp ha
    have := lt_nextOrderId db o ho'
    omega
  · intro q hq
    obtain ⟨o, ho', hoq⟩ := hpay q hq
    exact ⟨o, List.mem_append_left _ ho', hoq⟩
  · intro o ho'
    rcases List.mem_append.mp ho' with ho' | ho'
    · exact hc o ho'
    · rw [List.mem_singleton] at ho'
      subst ho'
      exact hcents
  · intro o ho' hs
    rcases List.mem_append.mp ho' with ho' | ho'
    · rw [paidTotal_eq db db' o.order_id hp]
      exact hP o ho' hs
    · rw [List.mem_singleton] at ho'
      subst ho'
      rw [hrow] at hs
      cases hs
  · intro o ho' hs
    rcases List.mem_append.mp ho' with ho' | ho'
    · rw [paidTotal_eq db db' o.order_id hp]
      exact hD o ho' hs
    · rw [List.mem_singleton] at ho'
      subst ho'
      exact Or.inl hfreshp

theorem paymentInv_exec (db : Db) (c : Call) (h : PaymentInv db) : PaymentInv (exec db c) := by
  cases c with
  | create f u b =>
    rcases createOrder_shape db f u b with e | ⟨lines, e⟩
    · simp only [exec, e]
      exact h
    · simp only [exec, e]
      exact paymentInv_create db _ (orderRow (nextOrderId db) u b lines) h rfl rfl
        (isCents_round2 _) rfl rfl
  | pay f y i b =>
    rcases payOrder_cases db f y i b with e | ⟨ord, amount, hfind, hst, _, _, ⟨hpos, e⟩ |
      ⟨hle, stock, e | e⟩⟩
    · simp only [exec, e]
      exact h
    · simp only [exec, e]
      exact paymentInv_partial db _ i ord (paymentRow i b amount) h hfind hst rfl hpos rfl rfl
    · simp only [exec, e]
      exact paymentInv_settle db _ i ord (paymentRow i b amount) h hfind rfl hle rfl rfl
    · simp only [exec, e]
      exact paymentInv_settle db _ i ord (paymentRow i b amount) h hfind rfl hle rfl rfl
  | cancel f i =>
    rcases cancelOrder_shape db f i with e | ⟨ord, stock, hfind, e⟩
    · simp only [exec, e]
      exact h
    · simp only [exec, e]
      exact paymentInv_cancel db _ i h rfl rfl

theorem paymentInv_fresh (db : Db) (h : Fresh db) : PaymentInv db := by
  obtain ⟨ho, _, hp, _⟩ := h
  simp [PaymentInv, ho, hp]

theorem round2_pos_imp {x : ℚ} (h : 0 < round2 x) : 0 < x := by
  by_contra hx
  have hx' : x ≤ 0 := not_lt.mp hx
  rcases lt_or_eq_of_le hx' with hneg | hzero
  · unfold round2 at h
    rw [if_pos hneg] at h
    have hf : (0 : ℤ) ≤ ⌊-x * 100 + 1 / 2⌋ := Int.floor_nonneg.mpr (by linarith)
    have hq : (0 : ℚ) ≤ ((⌊-x * 100 + 1 / 2⌋ : ℤ) : ℚ) := by exact_mod_cast hf
    have : -((⌊-x * 100 + 1 / 2⌋ : ℤ) : ℚ) / 100 ≤ 0 := by
      apply div_nonpos_of_nonpos_of_nonneg <;> linarith
    linarith
  · rw [hzero, round2_zero] at h
    exact lt_irrefl 0 h

theorem round2_nonpos_imp {x : ℚ} (h : round2 x ≤ 0) : x < 1 / 200 := by
  by_contra hx
  have hx' : 1 / 200 ≤ x := not_lt.mp hx
  have h0 : ¬ x < 0 := by linarith
  unfold round2 at h
  rw [if_neg h0] at h
  have hf : (1 : ℤ) ≤ ⌊x * 100 + 1 / 2⌋ := by
    rw [Int.le_floor]
    push_cast
    linarith
  have hq : (1 : ℚ) ≤ ((⌊x * 100 + 1 / 2⌋ : ℤ) : ℚ) := by exact_mod_cast hf
  have : (0 : ℚ) < ((⌊x * 100 + 1 / 2⌋ : ℤ) : ℚ) / 100 := by
    apply div_pos <;> linarith
  linarith

/-- A well-formed payment on a PAID order whose lookup succeeds is answered 400
"Order already PAID." and changes nothing. -/
theorem payOrder_paid (db : Db) (fault : Nat → Bool) (ymd : String) (id : Nat)
    (body : PayBody) (o : Order) (a : ℚ) (hfind : findOrder db id = some o)
    (hs : o.status = Status.PAID) (hm : body.method ≠ "") (ha : body.amount = some a)
    (h0 : fault 0 = false) (h1 : fault 1 = false) :
    payOrder db fault ymd id body = (db, Resp.error 400 "Order already PAID.") := by
  simp [payOrder, hm, ha, h0, h1, hfind, hs]

/-- A payment on an order that is not DRAFT is answered with an error and
changes nothing. -/
theorem payOrder_not_draft (db : Db) (fault : Nat → Bool) (ymd : String) (id : Nat)
    (body : PayBody) (o : Order) (hfind : findOrder db id = some o)
    (hs : o.status ≠ Status.DRAFT) :
    ∃ st msg, payOrder db fault ymd id body = (db, Resp.error st msg) := by
  by_cases hm : body.method = ""
  · exact ⟨400, "method and amount are required.", by simp [payOrder, hm]⟩
  cases ha : body.amount with
  | none => exact ⟨400, "method and amount are required.", by simp [payOrder, hm, ha]⟩
  | some amount =>
    cases h0 : fault 0 with
    | true => exact ⟨500, "TX start failed", by simp [payOrder, hm, ha, h0]⟩
    | false =>
    cases h1 : fault 1 with
    | true => exact ⟨500, "DB error", by simp [payOrder, hm, ha, h0, h1]⟩
    | false =>
    cases hst : o.status with
    | DRAFT => exact absurd hst hs
    | PAID => exact ⟨400, "Order already PAID.", by simp [payOrder, hm, ha, h0, h1, hfind, hst]⟩
    | CANCELLED =>
      exact ⟨400, "Order is CANCELLED.", by simp [payOrder, hm, ha, h0, h1, hfind, hst]⟩

/-! ## Lemmas on storage faults -/

theorem step_cases (fault : Nat → Bool) (ls : List OrderItem) (n : Nat) (stock : List Item) :
    step fault ls n stock = none ∨ step fault ls n stock = step noFault ls n stock := by
  induction ls generalizing n stock with
  | nil => exact Or.inr rfl
  | cons it rest ih =>
    cases hf : fault n with
    | true =>
      left
      simp [step, hf]
    | false =>
      rcases ih (n + 1) (adjustStock stock it.item_id (-it.qty)) with h | h
      · left
        simp [step, hf, h]
      · right
        simp [step, hf, h, noFault]

theorem addBack_cases (fault : Nat → Bool) (ls : List OrderItem) (n : Nat) (stock : List Item) :
    addBack fault ls n stock = none ∨ addBack fault ls n stock = addBack noFault ls n stock := by
  induction ls generalizing n stock with
  | nil => exact Or.inr rfl
  | cons it rest ih =>
    cases hf : fault n with
    | true =>
      left
      simp [addBack, hf]
    | false =>
      rcases ih (n + 1) (adjustStock stock it.item_id it.qty) with h | h
      · left
        simp [addBack, hf, h]
      · right
        simp [addBack, hf, h, noFault]

theorem finalizeIfPaid_cases (db : Db) (fault : Nat → Bool) (n id : Nat) (due : ℚ) :
    finalizeIfPaid db fault n id due = none ∨
    finalizeIfPaid db fault n id due = finalizeIfPaid db noFault n id due := by
  unfold finalizeIfPaid
  by_cases hd : due > 0
  · right
    simp [hd]
  · cases h1 : fault n with
    | true =>
      left
      simp [hd, h1]
    | false =>
      cases h2 : fault (n + 1) with
      | true =>
        left
        simp [hd, h1, h2]
      | false =>
        rcases step_cases fault (orderLines db id) (n + 2) db.items with h | h
        · left
          simp [hd, h1, h2, h]
        · right
          simp [hd, h1, h2, h, noFault]

theorem step_some_faults (fault : Nat → Bool) (ls : List OrderItem) (n : Nat)
    (stock : List Item) (h : step fault ls n stock ≠ none) :
    ∀ k, k < ls.length → fault (n + k) = false := by
  induction ls generalizing n stock with
  | nil =>
    intro k hk
    simp at hk
  | cons it rest ih =>
    cases hf : fault n with
    | true => simp [step, hf] at h
    | false =>
      simp only [step, hf, Bool.false_eq_true, if_false] at h
      intro k hk
      cases k with
      | zero => simpa using hf
      | succ j =>
        have := ih (n + 1) _ h j (by simpa using hk)
        rwa [show n + 1 + j = n + (j + 1) by omega] at this

theorem addBack_some_faults (fault : Nat → Bool) (ls : List OrderItem) (n : Nat)
    (stock : List Item) (h : addBack fault ls n stock ≠ none) :
    ∀ k, k < ls.length → fault (n + k) = false := by
  induction ls generalizing n stock with
  | nil =>
    intro k hk
    simp at hk
  | cons it rest ih =>
    cases hf : fault n with
    | true => simp [addBack, hf] at h
    | false =>
      simp only [addBack, hf, Bool.false_eq_true, if_false] at h
      intro k hk
      cases k with
      | zero => simpa using hf
      | succ j =>
        have := ih (n + 1) _ h j (by simpa using hk)
        rwa [show n + 1 + j = n + (j + 1) by omega] at this

theorem finalizeIfPaid_some_faults (db : Db) (fault : Nat → Bool) (n id : Nat) (due : ℚ)
    (hd : ¬ 0 < due) (h : finalizeIfPaid db fault n id due ≠ none) :
    ∀ k, k < 2 + (orderLines db id).length → fault (n + k) = false := by
  unfold finalizeIfPaid at h
  simp only [gt_iff_lt, hd, if_false] at h
  cases h1 : fault n with
  | true => simp [h1] at h
  | false =>
    cases h2 : fault (n + 1) with
    | true => simp [h1, h2] at h
    | false =>
      have hs : step fault (orderLines db id) (n + 2) db.items ≠ none := by
        intro hs
        simp [h1, h2, hs] at h
      have hloop := step_some_faults fault _ _ _ hs
      intro k hk
      rcases Nat.lt_or_ge k 2 with hk2 | hk2
      · interval_cases k
        · simpa using h1
        · exact h2
      · have := hloop (k - 2) (by omega)
        rwa [show n + 2 + (k - 2) = n + k by omega] at this

/-- The step counter and the database `finalizeIfPaid` ends with when no storage
step fails. -/
theorem finalizeIfPaid_noFault (db : Db) (n id : Nat) (due : ℚ) :
    finalizeIfPaid db noFault n id due =
      if 0 < due then some (db, n)
      else some ({ db with orders := setStatus db.orders id Status.PAID,
                           items := shiftStock db id (-1) },
                 n + 2 + (orderLines db id).length) := by
  unfold finalizeIfPaid
  by_cases hd : 0 < due
  · simp [hd]
  · have hs := step_noFault (orderLines db id) (n + 2) db.items
    rw [adjustStock_foldl (-1) (orderLines db id) db.items] at hs
    simp only [gt_iff_lt, hd, if_false, noFault, Bool.false_eq_true] at hs ⊢
    rw [hs]
    simp [shiftStock, lineQty]

/-- A payment under storage faults answers with a 500 error and leaves the
database unchanged, or none of the steps it issues fails and it does what it
does without faults. -/
theorem payOrder_fault_spec (db : Db) (fault : Nat → Bool) (ymd : String) (id : Nat)
    (body : PayBody) :
    (∃ msg, payOrder db fault ymd id body = (db, Resp.error 500 msg)) ∨
    ((∀ k, k < paySteps db id body → fault k = false) ∧
      payOrder db fault ymd id body = payOrder db noFault ymd id body) := by
  by_cases hm : body.method = ""
  · right
    refine ⟨?_, by simp [payOrder, hm]⟩
    intro k hk
    simp [paySteps, hm] at hk
  cases ha : body.amount with
  | none =>
    right
    refine ⟨?_, by simp [payOrder, hm, ha]⟩
    intro k hk
    simp [paySteps, hm, ha] at hk
  | some amount =>
    cases h0 : fault 0 with
    | true =>
      left
      exact ⟨"TX start failed", by simp [payOrder, hm, ha, h0]⟩
    | false =>
    cases h1 : fault 1 with
    | true =>
      left
      exact ⟨"DB error", by simp [payOrder, hm, ha, h0, h1]⟩
    | false =>
    have h01 : ∀ k, k < 2 → fault k = false := by
      intro k hk
      interval_cases k
      · exact h0
      · exact h1
    cases hfind : findOrder db id with
    | none =>
      right
      refine ⟨?_, by simp [payOrder, hm, ha, h0, h1, hfind, noFault]⟩
      intro k hk
      simp only [paySteps, hm, if_false, ha, hfind] at hk
      exact h01 k hk
    | some ord =>
    cases hst : ord.status with
    | PAID =>
      right
      refine ⟨?_, by simp [payOrder, hm, ha, h0, h1, hfind, hst, noFault]⟩
      intro k hk
      simp only [paySteps, hm, if_false, ha, hfind, hst, if_true] at hk
      exact h01 k hk
    | CANCELLED =>
      right
      refine ⟨?_, by simp [payOrder, hm, ha, h0, h1, hfind, hst, noFault]⟩
      intro k hk
      simp [paySteps, hm, ha, hfind, hst] at hk
      exact h01 k hk
    | DRAFT =>
    cases h2 : fault 2 with
    | true =>
      left
      exact ⟨"Add payment failed", by simp [payOrder, hm, ha, h0, h1, hfind, hst, h2]⟩
    | false =>
    cases h3 : fault 3 with
    | true =>
      left
      exact ⟨"Sum payments failed", by simp [payOrder, hm, ha, h0, h1, hfind, hst, h2, h3]⟩
    | false =>
    have h03 : ∀ k, k < 4 → fault k = false := by
      intro k hk
      interval_cases k
      · exact h0
      · exact h1
      · exact h2
      · exact h3
    rw [payOrder_eq db fault ymd id body ord amount hm ha h0 h1 hfind hst h2 h3,
      payOrder_eq db noFault ymd id body ord amount hm ha rfl rfl hfind hst rfl rfl]
    have hlen : (orderLines
        { db with payments := db.payments ++ [paymentRow id body amount] } id).length
        = (orderLines db id).length := rfl
    rcases finalizeIfPaid_cases { db with payments := db.payments ++ [paymentRow id body amount] }
        fault 4 id (round2 (ord.total_amount - (paidTotal db id + amount))) with hf | hf
    · left
      rw [hf]
      exact ⟨"Finalize failed", rfl⟩
    · by_cases hd : 0 < round2 (ord.total_amount - (paidTotal db id + amount))
      · rw [hf, finalizeIfPaid_noFault]
        have hnle : ¬ (body.generate_invoice = true
            ∧ round2 (ord.total_amount - (paidTotal db id + amount)) ≤ 0) :=
          fun h => absurd hd (not_lt.mpr h.2)
        simp only [hd, if_true, hnle, if_false]
        cases h4 : fault 4 with
        | true =>
          left
          exact ⟨"Commit failed", by simp⟩
        | false =>
          right
          refine ⟨?_, by simp [noFault]⟩
          intro k hk
          simp [paySteps, hm, ha, hfind, hst, hd] at hk
          rcases Nat.lt_or_ge k 4 with hk4 | hk4
          · exact h03 k hk4
          · have : k = 4 := by omega
            subst this
            exact h4
      · have hsome : finalizeIfPaid
            { db with payments := db.payments ++ [paymentRow id body amount] } fault 4 id
            (round2 (ord.total_amount - (paidTotal db id + amount))) ≠ none := by
          rw [hf, finalizeIfPaid_noFault]
          simp [hd]
        have hloop := finalizeIfPaid_some_faults _ fault 4 id _ hd hsome
        rw [hlen] at hloop
        have hpre : ∀ k, k < 6 + (orderLines db id).length → fault k = false := by
          intro k hk
          rcases Nat.lt_or_ge k 4 with hk4 | hk4
          · exact h03 k hk4
          · have := hloop (k - 4) (by omega)
            rwa [show 4 + (k - 4) = k by omega] at this
        rw [hf, finalizeIfPaid_noFault]
        simp only [hd, if_false, hlen]
        by_cases hg : body.generate_invoice = true
        · have hgd : body.generate_invoice = true
              ∧ round2 (ord.total_amount - (paidTotal db id + amount)) ≤ 0 :=
            ⟨hg, not_lt.mp hd⟩
          simp only [hgd, and_self, if_true]
          cases h5 : fault (4 + 2 + (orderLines db id).length) with
          | true =>
            left
            exact ⟨"Invoice failed", by simp⟩
          | false =>
            cases h6 : fault (4 + 2 + (orderLines db id).length + 1) with
            | true =>
              left
              exact ⟨"Commit failed", by simp⟩
            | false =>
              right
              refine ⟨?_, by simp [noFault]⟩
              intro k hk
              simp [paySteps, hm, ha, hfind, hst, hd, hg] at hk
              rcases Nat.lt_or_ge k (6 + (orderLines db id).length) with hk6 | hk6
              · exact hpre k hk6
              · rcases Nat.lt_or_ge k (6 + (orderLines db id).length + 1) with hk7 | hk7
                · have : k = 4 + 2 + (orderLines db id).length := by omega
                  subst this
                  exact h5
                · have : k = 4 + 2 + (orderLines db id).length + 1 := by omega
                  subst this
                  exact h6
        · have hgd : ¬ (body.generate_invoice = true
              ∧ round2 (ord.total_amount - (paidTotal db id + amount)) ≤ 0) :=
            fun h => hg h.1
          simp only [hgd, if_false]
          cases h5 : fault (4 + 2 + (orderLines db id).length) with
          | true =>
            left
            exact ⟨"Commit failed", by simp⟩
          | false =>
            right
            refine ⟨?_, by simp [noFault]⟩
            intro k hk
            simp [paySteps, hm, ha, hfind, hst, hd, hg] at hk
            rcases Nat.lt_or_ge k (6 + (orderLines db id).length) with hk6 | hk6
            · exact hpre k hk6
            · have : k = 4 + 2 + (orderLines db id).length := by omega
              subst this
              exact h5

/-- A payment under storage faults either does what it does without faults or
answers with a 500 error and leaves the database unchanged. -/
theorem payOrder_fault_cases (db : Db) (fault : Nat → Bool) (ymd : String) (id : Nat)
    (body : PayBody) :
    payOrder db fault ymd id body = payOrder db noFault ymd id body ∨
    ∃ msg, payOrder db fault ymd id body = (db, Resp.error 500 msg) := by
  rcases payOrder_fault_spec db fault ymd id body with h | ⟨_, h⟩
  · exact Or.inr h
  · exact Or.inl h

/-- The database a payment leaves under any storage faults: the one before, or
that with the payment row, or that with the payment row and the settlement. -/
theorem payOrder_exact (db : Db) (fault : Nat → Bool) (ymd : String) (id : Nat)
    (body : PayBody) :
    (payOrder db fault ymd id body).1 = db ∨
    ∃ ord amount, findOrder db id = some ord ∧ ord.status = Status.DRAFT ∧
      body.method ≠ "" ∧ body.amount = some amount ∧
      ((0 < round2 (ord.total_amount - (paidTotal db id + amount)) ∧
        (payOrder db fault ymd id body).1
          = { db with payments := db.payments ++ [paymentRow id body amount] }) ∨
       (round2 (ord.total_amount - (paidTotal db id + amount)) ≤ 0 ∧
        (payOrder db fault ymd id body).1
          = { db with payments := db.payments ++ [paymentRow id body amount],
                      orders := setStatus db.orders id Status.PAID,
                      items := shiftStock db id (-1),
                      invoices := if body.generate_invoice = true
                        then insertIgnoreInvoice db.invoices id (invNo ymd id)
                        else db.invoices })) := by
  rcases payOrder_fault_cases db fault ymd id body with h | ⟨msg, h⟩
  swap
  · left
    rw [h]
  rw [h]
  by_cases hm : body.method = ""
  · left
    simp [payOrder, hm]
  cases ha : body.amount with
  | none =>
    left
    simp [payOrder, hm, ha]
  | some amount =>
    cases hfind : findOrder db id with
    | none =>
      left
      simp [payOrder, hm, ha, hfind, noFault]
    | some ord =>
      cases hst : ord.status with
      | PAID =>
        left
        simp [payOrder, hm, ha, hfind, hst, noFault]
      | CANCELLED =>
        left
        simp [payOrder, hm, ha, hfind, hst, noFault]
      | DRAFT =>
        right
        refine ⟨ord, amount, rfl, hst, hm, rfl, ?_⟩
        rw [payOrder_draft db ymd id body ord amount hfind hst hm ha]
        by_cases hd : 0 < round2 (ord.total_amount - (paidTotal db id + amount))
        · left
          rw [if_pos hd]
          exact ⟨hd, rfl⟩
        · right
          rw [if_neg hd]
          exact ⟨not_lt.mp hd, rfl⟩

/-- A cancellation under storage faults answers with a 500 error and leaves the
database unchanged, or none of the steps it issues fails and it does what it
does without faults. -/
theorem cancelOrder_fault_spec (db : Db) (fault : Nat → Bool) (id : Nat) :
    (∃ msg, cancelOrder db fault id = (db, Resp.error 500 msg)) ∨
    ((∀ k, k < cancelSteps db id → fault k = false) ∧
      cancelOrder db fault id = cancelOrder db noFault id) := by
  cases h0 : fault 0 with
  | true =>
    left
    exact ⟨"TX start failed", by simp [cancelOrder, h0]⟩
  | false =>
  cases h1 : fault 1 with
  | true =>
    left
    exact ⟨"DB error", by simp [cancelOrder, h0, h1]⟩
  | false =>
  have h01 : ∀ k, k < 2 → fault k = false := by
    intro k hk
    interval_cases k
    · exact h0
    · exact h1
  cases hfind : findOrder db id with
  | none =>
    right
    refine ⟨?_, by simp [cancelOrder, h0, h1, hfind, noFault]⟩
    intro k hk
    simp only [cancelSteps, hfind] at hk
    exact h01 k hk
  | some ord =>
    unfold cancelOrder
    simp only [h0, h1, hfind, noFault, Bool.false_eq_true, if_false]
    by_cases hp : ord.status = Status.PAID
    · simp only [hp, if_true]
      cases h2 : fault 2 with
      | true =>
        left
        exact ⟨"Fetch lines failed", by simp⟩
      | false =>
        simp only [Bool.false_eq_true, if_false]
        rcases addBack_cases fault (orderLines db id) 3 db.items with hc | hc
        · left
          rw [hc]
          exact ⟨"Stock restore failed", rfl⟩
        · have hloop := addBack_some_faults fault (orderLines db id) 3 db.items
            (by rw [hc, addBack_noFault]; simp)
          rw [hc, addBack_noFault]
          simp only [setCancelled]
          cases h3 : fault (3 + (orderLines db id).length) with
          | true =>
            left
            exact ⟨"Cancel failed", by simp⟩
          | false =>
            cases h4 : fault (3 + (orderLines db id).length + 1) with
            | true =>
              left
              exact ⟨"Commit failed", by simp⟩
            | false =>
              right
              refine ⟨?_, by simp [noFault]⟩
              intro k hk
              simp only [cancelSteps, hfind, hp, if_true] at hk
              rcases Nat.lt_or_ge k 2 with hk2 | hk2
              · exact h01 k hk2
              rcases Nat.lt_or_ge k 3 with hk3 | hk3
              · have : k = 2 := by omega
                subst this
                exact h2
              rcases Nat.lt_or_ge k (3 + (orderLines db id).length) with hk4 | hk4
              · have := hloop (k - 3) (by omega)
                rwa [show 3 + (k - 3) = k by omega] at this
              rcases Nat.lt_or_ge k (3 + (orderLines db id).length + 1) with hk5 | hk5
              · have : k = 3 + (orderLines db id).length := by omega
                subst this
                exact h3
              · have : k = 3 + (orderLines db id).length + 1 := by omega
                subst this
                exact h4
    · simp only [hp, if_false, setCancelled]
      cases h2 : fault 2 with
      | true =>
        left
        exact ⟨"Cancel failed", by simp⟩
      | false =>
        cases h3 : fault (2 + 1) with
        | true =>
          left
          exact ⟨"Commit failed", by simp [h3]⟩
        | false =>
          right
          refine ⟨?_, by simp [h3, noFault]⟩
          intro k hk
          simp only [cancelSteps, hfind, hp, if_false] at hk
          interval_cases k
          · exact h0
          · exact h1
          · exact h2
          · exact h3

/-- A cancellation under storage faults either does what it does without faults
or answers with a 500 error and leaves the database unchanged. -/
theorem cancelOrder_fault_cases (db : Db) (fault : Nat → Bool) (id : Nat) :
    cancelOrder db fault id = cancelOrder db noFault id ∨
    ∃ msg, cancelOrder db fault id = (db, Resp.error 500 msg) := by
  rcases cancelOrder_fault_spec db fault id with h | ⟨_, h⟩
  · exact Or.inr h
  · exact Or.inl h

/-- The database a cancellation leaves under any storage faults. -/
theorem cancelOrder_exact (db : Db) (fault : Nat → Bool) (id : Nat) :
    (cancelOrder db fault id).1 = db ∨
    ∃ ord, findOrder db id = some ord ∧
      (cancelOrder db fault id).1
        = { db with orders := setStatus db.orders id Status.CANCELLED,
                    items := if ord.status = Status.PAID then shiftStock db id 1
                      else db.items } := by
  rcases cancelOrder_fault_cases db fault id with h | ⟨msg, h⟩
  swap
  · left
    rw [h]
  rw [h]
  cases hfind : findOrder db id with
  | none =>
    left
    rw [cancelOrder_missing db id hfind]
  | some ord =>
    right
    refine ⟨ord, rfl, ?_⟩
    rw [cancelOrder_found db id ord hfind]

/-- Creating an order under storage faults answers with a 500 error and leaves
the database unchanged, or none of the steps it issues fails and it does what it
does without faults. -/
theorem createOrder_fault_spec (db : Db) (fault : Nat → Bool) (userId : Nat)
    (body : OrderBody) :
    (∃ msg, createOrder db fault userId body = (db, Resp.error 500 msg)) ∨
    ((∀ k, k < createSteps db body → fault k = false) ∧
      createOrder db fault userId body = createOrder db noFault userId body) := by
  unfold createOrder
  cases hitems : body.items with
  | none =>
    right
    refine ⟨?_, rfl⟩
    intro k hk
    simp [createSteps, hitems] at hk
  | some items =>
    simp only []
    by_cases h1 : items.length = 0
    · right
      refine ⟨?_, by simp [h1]⟩
      intro k hk
      simp [createSteps, hitems, h1] at hk
    by_cases h2 : (ids items).length = items.length
    swap
    · right
      refine ⟨?_, by simp [h1, h2]⟩
      intro k hk
      simp [createSteps, hitems, h1, h2] at hk
    cases h3 : fault 0 with
    | true =>
      left
      exact ⟨"DB error", by simp [h1, h2]⟩
    | false =>
    by_cases h4 : (selectItems db (ids items)).length = items.length
    swap
    · right
      refine ⟨?_, by simp [h1, h2, h4, noFault]⟩
      intro k hk
      simp [createSteps, hitems, h1, h2, h4] at hk
      subst hk
      exact h3
    cases hlines : mkLines (selectItems db (ids items)) items with
    | none =>
      right
      refine ⟨?_, by simp [h1, h2, h4, noFault]⟩
      intro k hk
      simp [createSteps, hitems, h1, h2, h4, hlines] at hk
      subst hk
      exact h3
    | some lines =>
      simp only [h1, h2, h4, noFault, Bool.false_eq_true, if_false, ne_eq, not_true_eq_false]
      cases h5 : fault 1 with
      | true =>
        left
        exact ⟨"TX start failed", by simp⟩
      | false =>
      cases h6 : fault 2 with
      | true =>
        left
        exact ⟨"Insert order failed", by simp⟩
      | false =>
      cases h7 : fault 3 with
      | true =>
        left
        exact ⟨"Insert items failed", by simp⟩
      | false =>
      cases h8 : fault 4 with
      | true =>
        left
        exact ⟨"Commit failed", by simp⟩
      | false =>
        right
        refine ⟨?_, by simp⟩
        intro k hk
        simp [createSteps, hitems, h1, h2, h4, hlines] at hk
        interval_cases k
        · exact h3
        · exact h5
        · exact h6
        · exact h7
        · exact h8

/-- Creating an order under storage faults either does what it does without
faults or answers with a 500 error and leaves the database unchanged. -/
theorem createOrder_fault_cases (db : Db) (fault : Nat → Bool) (userId : Nat)
    (body : OrderBody) :
    createOrder db fault userId body = createOrder db noFault userId body ∨
    ∃ msg, createOrder db fault userId body = (db, Resp.error 500 msg) := by
  rcases createOrder_fault_spec db fault userId body with h | ⟨_, h⟩
  · exact Or.inr h
  · exact Or.inl h

/-- The loop `step(k)` stops at the first update that fails. -/
theorem step_fails (fault : Nat → Bool) (ls : List OrderItem) :
    ∀ (n k : Nat) (stock : List Item), k < ls.length →
      (∀ j, j < k → fault (n + j) = false) → fault (n + k) = true →
      step fault ls n stock = none := by
  induction ls with
  | nil =>
    intro n k stock hk
    simp at hk
  | cons it rest ih =>
    intro n k stock hk hpre hf
    cases k with
    | zero =>
      simp only [Nat.add_zero] at hf
      simp [step, hf]
    | succ k =>
      have h0 : fault n = false := by
        have := hpre 0 (Nat.succ_pos k)
        simpa using this
      simp only [step, h0, Bool.false_eq_true, if_false]
      apply ih (n + 1) k _ (by simpa using hk)
      · intro j hj
        have := hpre (j + 1) (by omega)
        rwa [show n + (j + 1) = n + 1 + j by omega] at this
      · rwa [show n + (k + 1) = n + 1 + k by omega] at hf

/-- A payment answers with an error and leaves the database unchanged, or it is
a payment on a DRAFT order that answers as it does when no storage step
fails. -/
theorem payOrder_full (db : Db) (fault : Nat → Bool) (ymd : String) (id : Nat)
    (body : PayBody) :
    (∃ c msg, payOrder db fault ymd id body = (db, Resp.error c msg)) ∨
    ∃ ord amount, findOrder db id = some ord ∧ ord.status = Status.DRAFT ∧
      body.method ≠ "" ∧ body.amount = some amount ∧
      payOrder db fault ymd id body = payOrder db noFault ymd id body := by
  rcases payOrder_fault_cases db fault ymd id body with h | ⟨msg, h⟩
  swap
  · exact Or.inl ⟨500, msg, h⟩
  rw [h]
  by_cases hm : body.method = ""
  · left
    exact ⟨400, "method and amount are required.", by simp [payOrder, hm]⟩
  cases ha : body.amount with
  | none =>
    left
    exact ⟨400, "method and amount are required.", by simp [payOrder, hm, ha]⟩
  | some amount =>
    cases hfind : findOrder db id with
    | none =>
      left
      exact ⟨404, "Order not found", by simp [payOrder, hm, ha, hfind, noFault]⟩
    | some ord =>
      cases hst : ord.status with
      | PAID =>
        left
        exact ⟨400, "Order already PAID.", by simp [payOrder, hm, ha, hfind, hst, noFault]⟩
      | CANCELLED =>
        left
        exact ⟨400, "Order is CANCELLED.", by simp [payOrder, hm, ha, hfind, hst, noFault]⟩
      | DRAFT =>
        right
        exact ⟨ord, amount, rfl, hst, hm, rfl, rfl⟩

/-- A cancellation answers with an error and leaves the database unchanged, or
the order exists and it answers as it does when no storage step fails. -/
theorem cancelOrder_full (db : Db) (fault : Nat → Bool) (id : Nat) :
    (∃ c msg, cancelOrder db fault id = (db, Resp.error c msg)) ∨
    ∃ ord, findOrder db id = some ord ∧
      cancelOrder db fault id = cancelOrder db noFault id := by
  rcases cancelOrder_fault_cases db fault id with h | ⟨msg, h⟩
  swap
  · exact Or.inl ⟨500, msg, h⟩
  rw [h]
  cases hfind : findOrder db id with
  | none =>
    left
    exact ⟨404, "Order not found", by simp [cancelOrder, hfind, noFault]⟩
  | some ord =>
    right
    exact ⟨ord, rfl, rfl⟩

/-! ## Lemmas on what the routes leave unchanged -/

theorem sameButStatus_refl (os : List Order) : List.Forall₂ SameButStatus os os := by
  induction os with
  | nil => exact List.Forall₂.nil
  | cons o rest ih => exact List.Forall₂.cons rfl ih

theorem sameButStatus_setStatus (os : List Order) (id : Nat) (s : Status) :
    List.Forall₂ SameButStatus os (setStatus os id s) := by
  induction os with
  | nil => exact List.Forall₂.nil
  | cons o rest ih =>
    simp only [setStatus, List.map_cons]
    refine List.Forall₂.cons ?_ ih
    by_cases h : o.order_id = id
    · simp [h, SameButStatus]
    · simp [h, SameButStatus]

theorem find_setStatus_ne (os : List Order) (x j : Nat) (s : Status) (h : j ≠ x) :
    (setStatus os x s).find? (fun o => o.order_id = j) = os.find? (fun o => o.order_id = j) := by
  induction os with
  | nil => rfl
  | cons o rest ih =>
    simp only [setStatus] at ih
    by_cases hox : o.order_id = x
    · have hoj : ¬ o.order_id = j := fun e => h (e.symm.trans hox)
      simp only [setStatus, List.map_cons, hox, if_true, List.find?_cons]
      simp only [hox] at hoj
      simp [hoj, ih]
    · simp only [setStatus, List.map_cons, hox, if_false, List.find?_cons, ih]

theorem lineQty_eq_zero (db : Db) (x i : Nat) (h : ∀ l ∈ orderLines db x, l.item_id ≠ i) :
    lineQty db x i = 0 := by
  have : (orderLines db x).filter (fun l => l.item_id = i) = [] := by
    rw [List.filter_eq_nil_iff]
    intro l hl
    simpa using h l hl
  simp [lineQty, this]

theorem shiftStock_filter (db : Db) (x i : Nat) (c : ℚ)
    (h : ∀ l ∈ orderLines db x, l.item_id ≠ i) :
    (shiftStock db x c).filter (fun r => r.item_id = i)
      = db.items.filter (fun r => r.item_id = i) := by
  have hz := lineQty_eq_zero db x i h
  simp only [shiftStock]
  generalize db.items = rows
  induction rows with
  | nil => rfl
  | cons r rest ih =>
    by_cases hr : r.item_id = i
    · subst hr
      simp [List.filter_cons, hz, ih]
    · simp [List.filter_cons, hr, ih]

theorem insertIgnoreInvoice_filter (invs : List Invoice) (x j : Nat) (no : String)
    (h : j ≠ x) :
    (insertIgnoreInvoice invs x no).filter (fun v => v.order_id = j)
      = invs.filter (fun v => v.order_id = j) := by
  unfold insertIgnoreInvoice
  split_ifs
  · rfl
  · have hx : ¬ x = j := fun e => h e.symm
    simp [List.filter_append, List.filter_cons, hx]

/-! ## Lemmas on the stock accounting -/

/-- The PAID line quantity of an item when one order enters PAID. -/
theorem paidSum_enter (ls : List OrderItem) (st st' : Nat → Option Status) (x i : Nat)
    (h1 : st x ≠ some Status.PAID) (h2 : st' x = some Status.PAID)
    (h3 : ∀ j, j ≠ x → st' j = st j) :
    ((ls.filter (fun l => l.item_id = i ∧ st' l.order_id = some Status.PAID)).map
        OrderItem.qty).sum
      = ((ls.filter (fun l => l.item_id = i ∧ st l.order_id = some Status.PAID)).map
          OrderItem.qty).sum
        + (((ls.filter (fun l => l.order_id = x)).filter (fun l => l.item_id = i)).map
            OrderItem.qty).sum := by
  induction ls with
  | nil => simp
  | cons l rest ih =>
    by_cases hx : l.order_id = x
    · by_cases hi : l.item_id = i
      · simp only [List.filter_cons, hx, hi, h1, h2, and_self, and_false, decide_True,
          decide_False, if_true, List.map_cons, List.sum_cons, ih]
        simp only [Bool.false_eq_true, if_false]
        ring
      · simp only [List.filter_cons, hx, hi, false_and, decide_False, decide_True, if_true,
          Bool.false_eq_true, if_false, ih]
    · by_cases hi : l.item_id = i
      · by_cases hp : st l.order_id = some Status.PAID
        · simp only [List.filter_cons, hx, hi, h3 _ hx, hp, and_self, decide_True, decide_False,
            if_true, Bool.false_eq_true, if_false, List.map_cons, List.sum_cons, ih]
          ring
        · simp only [List.filter_cons, hx, hi, h3 _ hx, hp, and_false, decide_False,
            Bool.false_eq_true, if_false, ih]
      · simp only [List.filter_cons, hx, hi, false_and, decide_False, Bool.false_eq_true,
          if_false, ih]

/-- The PAID line quantity of an item depends only on which lines are on PAID
orders. -/
theorem paidSum_congr (ls : List OrderItem) (st st' : Nat → Option Status) (i : Nat)
    (h : ∀ l ∈ ls, (st' l.order_id = some Status.PAID ↔ st l.order_id = some Status.PAID)) :
    ((ls.filter (fun l => l.item_id = i ∧ st' l.order_id = some Status.PAID)).map
        OrderItem.qty).sum
      = ((ls.filter (fun l => l.item_id = i ∧ st l.order_id = some Status.PAID)).map
          OrderItem.qty).sum := by
  have : ls.filter (fun l => l.item_id = i ∧ st' l.order_id = some Status.PAID)
      = ls.filter (fun l => l.item_id = i ∧ st l.order_id = some Status.PAID) := by
    apply List.filter_congr
    intro l hl
    simp only [h l hl]
  rw [this]

theorem statusOf_of_setStatus (db db' : Db) (x j : Nat) (s : Status)
    (ho : db'.orders = setStatus db.orders x s) :
    statusOf db' j = if j = x then (statusOf db j).map (fun _ => s) else statusOf db j := by
  simp only [statusOf, findOrder, ho]
  exact statusOf_setStatus db.orders x j s

theorem nextOrderId_of_setStatus (db db' : Db) (x : Nat) (s : Status)
    (ho : db'.orders = setStatus db.orders x s) : nextOrderId db' = nextOrderId db := by
  simp only [nextOrderId, ho, setStatus_ids]

theorem statusOf_nextOrderId (db : Db) : statusOf db (nextOrderId db) = none := by
  simp only [statusOf, findOrder, Option.map_eq_none', List.find?_eq_none]
  intro o ho
  have := lt_nextOrderId db o ho
  simp only [decide_eq_true_eq]
  omega

/-- The PAID line quantity after order `x` went from another status to PAID. -/
theorem paidQty_enter (db db' : Db) (x i : Nat) (ord : Order)
    (hl : db'.order_items = db.order_items)
    (ho : db'.orders = setStatus db.orders x Status.PAID)
    (hfind : findOrder db x = some ord) (hst : ord.status ≠ Status.PAID) :
    paidQty db' i = paidQty db i + lineQty db x i := by
  simp only [paidQty, lineQty, orderLines, hl]
  apply paidSum_enter db.order_items (statusOf db) (statusOf db') x i
  · simpa [statusOf, hfind] using hst
  · rw [statusOf_of_setStatus db db' x x Status.PAID ho]
    simp [statusOf, hfind]
  · intro j hj
    rw [statusOf_of_setStatus db db' x j Status.PAID ho]
    simp [hj]

/-- The PAID line quantity before a PAID order `x` was cancelled. -/
theorem paidQty_leave (db db' : Db) (x i : Nat) (ord : Order)
    (hl : db'.order_items = db.order_items)
    (ho : db'.orders = setStatus db.orders x Status.CANCELLED)
    (hfind : findOrder db x = some ord) (hst : ord.status = Status.PAID) :
    paidQty db i = paidQty db' i + lineQty db x i := by
  simp only [paidQty, lineQty, orderLines, hl]
  apply paidSum_enter db.order_items (statusOf db') (statusOf db) x i
  · rw [statusOf_of_setStatus db db' x x Status.CANCELLED ho]
    simp [statusOf, hfind]
  · simp [statusOf, hfind, hst]
  · intro j hj
    rw [statusOf_of_setStatus db db' x j Status.CANCELLED ho]
    simp [hj]

/-- The PAID line quantity does not change when an order that is not PAID is
cancelled. -/
theorem paidQty_cancel_other (db db' : Db) (x i : Nat) (ord : Order)
    (hl : db'.order_items = db.order_items)
    (ho : db'.orders = setStatus db.orders x Status.CANCELLED)
    (hfind : findOrder db x = some ord) (hst : ord.status ≠ Status.PAID) :
    paidQty db' i = paidQty db i := by
  simp only [paidQty, hl]
  apply paidSum_congr
  intro l _
  rw [statusOf_of_setStatus db db' x l.order_id Status.CANCELLED ho]
  by_cases hj : l.order_id = x
  · simp only [hj, if_true]
    simp [statusOf, hfind, hst]
  · simp [hj]

/-- The PAID line quantity depends on the orders and the lines only. -/
theorem paidQty_of_eq (db db' : Db) (i : Nat) (hl : db'.order_items = db.order_items)
    (ho : db'.orders = db.orders) : paidQty db' i = paidQty db i := by
  simp only [paidQty, statusOf, findOrder, hl, ho]

/-- The PAID line quantity does not change when a DRAFT order with the next
order id and its lines are added. -/
theorem paidQty_create (db db' : Db) (i : Nat) (row : Order) (rows : List OrderItem)
    (hlines : ∀ l ∈ db.order_items, l.order_id < nextOrderId db)
    (hl : db'.order_items = db.order_items ++ rows)
    (ho : db'.orders = db.orders ++ [row])
    (hid : row.order_id = nextOrderId db) (hst : row.status = Status.DRAFT)
    (hrows : ∀ l ∈ rows, l.order_id = nextOrderId db) :
    paidQty db' i = paidQty db i := by
  have hnew : statusOf db' (nextOrderId db) = some Status.DRAFT := by
    have hnone := statusOf_nextOrderId db
    simp only [statusOf, findOrder, Option.map_eq_none'] at hnone
    simp only [statusOf, findOrder, ho, List.find?_append, hnone]
    simp [List.find?_cons, hid, hst]
  have hold : ∀ j, j ≠ nextOrderId db → statusOf db' j = statusOf db j := by
    intro j hj
    have hne : ¬ row.order_id = j := fun e => hj (e.symm.trans hid)
    simp only [statusOf, findOrder, ho, List.find?_append]
    cases hf : db.orders.find? (fun o => o.order_id = j) with
    | none => simp [List.find?_cons, hne]
    | some o => rfl
  simp only [paidQty, hl, List.filter_append, List.map_append, List.sum_append]
  have h1 : rows.filter (fun l => l.item_id = i ∧ statusOf db' l.order_id = some Status.PAID)
      = [] := by
    rw [List.filter_eq_nil_iff]
    intro l hlr
    simp [hrows l hlr, hnew]
  rw [h1, List.map_nil, List.sum_nil, add_zero]
  apply paidSum_congr
  intro l hlm
  rw [hold l.order_id (Nat.ne_of_lt (hlines l hlm))]

/-- The stock accounting invariant passes to a database with the same stock and
the same PAID line quantities. -/
theorem stockInv_same (db0 db db' : Db) (h : StockInv db0 db)
    (hitems : db'.items = db.items) (hq : ∀ i, paidQty db' i = paidQty db i)
    (hlines : ∀ l ∈ db'.order_items, l.order_id < nextOrderId db') : StockInv db0 db' := by
  refine ⟨?_, hlines⟩
  rw [hitems, h.1]
  apply List.map_congr_left
  intro r _
  rw [hq]

/-- The stock accounting invariant passes to a database whose stock moved by
`c` times the line quantities of an order while the PAID line quantities moved
the other way. -/
theorem stockInv_shift (db0 db db' : Db) (x : Nat) (c : ℚ) (h : StockInv db0 db)
    (hitems : db'.items = shiftStock db x c)
    (hq : ∀ i, paidQty db' i = paidQty db i - c * lineQty db x i)
    (hlines : ∀ l ∈ db'.order_items, l.order_id < nextOrderId db') : StockInv db0 db' := by
  refine ⟨?_, hlines⟩
  rw [hitems]
  simp only [shiftStock]
  rw [h.1, List.map_map]
  apply List.map_congr_left
  intro r _
  simp only [Function.comp, hq]
  congr 1
  ring

/-- Every call preserves the stock accounting invariant. -/
theorem stockInv_exec (db0 db : Db) (c : Call) (h : StockInv db0 db) :
    StockInv db0 (exec db c) := by
  cases c with
  | create f u b =>
    simp only [exec]
    rcases createOrder_shape db f u b with e | ⟨lines, e⟩
    · rw [e]
      exact h
    · have hrows : ∀ l ∈ lineRows (nextOrderId db) lines, l.order_id = nextOrderId db := by
        intro l hl
        simp only [lineRows, List.mem_map] at hl
        obtain ⟨_, _, rfl⟩ := hl
        rfl
      have hl : (createOrder db f u b).1.order_items
          = db.order_items ++ lineRows (nextOrderId db) lines := by rw [e]
      have ho : (createOrder db f u b).1.orders
          = db.orders ++ [orderRow (nextOrderId db) u b lines] := by rw [e]
      apply stockInv_same db0 db _ h (by rw [e])
      · intro i
        exact paidQty_create db _ i _ _ h.2 hl ho rfl rfl hrows
      · have hlt : nextOrderId db < nextOrderId (createOrder db f u b).1 := by
          have := lt_nextOrderId (createOrder db f u b).1 (orderRow (nextOrderId db) u b lines)
            (by rw [ho]; simp)
          exact this
        intro l hlm
        rw [hl, List.mem_append] at hlm
        rcases hlm with hlm | hlm
        · exact lt_trans (h.2 l hlm) hlt
        · rw [hrows l hlm]
          exact hlt
  | pay f y i b =>
    simp only [exec]
    rcases payOrder_exact db f y i b with e | ⟨ord, amount, hfind, hst, _, _, e | e⟩
    · rw [e]
      exact h
    · have e2 := e.2
      apply stockInv_same db0 db _ h (by rw [e2])
      · intro k
        exact paidQty_of_eq db _ k (by rw [e2]) (by rw [e2])
      · intro l hl
        rw [e2] at hl ⊢
        exact h.2 l hl
    · have e2 := e.2
      have hl : (payOrder db f y i b).1.order_items = db.order_items := by rw [e2]
      have ho : (payOrder db f y i b).1.orders = setStatus db.orders i Status.PAID := by rw [e2]
      apply stockInv_shift db0 db _ i (-1) h (by rw [e2])
      · intro k
        rw [paidQty_enter db _ i k ord hl ho hfind (by rw [hst]; decide)]
        ring
      · intro l hlm
        rw [nextOrderId_of_setStatus db _ i Status.PAID ho]
        rw [hl] at hlm
        exact h.2 l hlm
  | cancel f i =>
    simp only [exec]
    rcases cancelOrder_exact db f i with e | ⟨ord, hfind, e⟩
    · rw [e]
      exact h
    · have hl : (cancelOrder db f i).1.order_items = db.order_items := by rw [e]
      have ho : (cancelOrder db f i).1.orders = setStatus db.orders i Status.CANCELLED := by
        rw [e]
      have hlines : ∀ l ∈ (cancelOrder db f i).1.order_items,
          l.order_id < nextOrderId (cancelOrder db f i).1 := by
        intro l hlm
        rw [nextOrderId_of_setStatus db _ i Status.CANCELLED ho]
        rw [hl] at hlm
        exact h.2 l hlm
      by_cases hp : ord.status = Status.PAID
      · apply stockInv_shift db0 db _ i 1 h (by rw [e, if_pos hp]) _ hlines
        intro k
        have := paidQty_leave db _ i k ord hl ho hfind hp
        rw [this]
        ring
      · apply stockInv_same db0 db _ h (by rw [e, if_neg hp]) _ hlines
        intro k
        exact paidQty_cancel_other db _ i k ord hl ho hfind hp

/-- The stock accounting invariant holds in an initial database, relative to
itself. -/
theorem stockInv_fresh (db0 : Db) (h : Fresh db0) : StockInv db0 db0 := by
  obtain ⟨_, hl, _, _⟩ := h
  constructor
  · have hq : ∀ i, paidQty db0 i = 0 := by
      intro i
      simp [paidQty, hl]
    conv_lhs => rw [← List.map_id db0.items]
    apply List.map_congr_left
    intro r _
    simp [hq]
  · intro l hlm
    rw [hl] at hlm
    simp at hlm

/-! ## Lemmas on `escapeHtml` -/

theorem replaceAll_flatMap (c : Char) (r : List Char) (f : Char → List Char) (s : List Char) :
    replaceAll c r (s.flatMap f) = s.flatMap (fun x => replaceAll c r (f x)) := by
  simp only [replaceAll, List.flatMap_assoc]

/-- The five replacements one after the other write, for each character, its
entity or the character itself. -/
theorem escapeHtml_eq_flatMap (s : List Char) : escapeHtml s = s.flatMap escapeChar := by
  unfold escapeHtml
  rw [show replaceAll '&' ampEntity s = s.flatMap (fun x => if x = '&' then ampEntity else [x])
    from rfl]
  rw [replaceAll_flatMap, replaceAll_flatMap, replaceAll_flatMap, replaceAll_flatMap]
  apply List.flatMap_congr
  intro x _
  by_cases h1 : x = '&'
  · subst h1
    decide
  by_cases h2 : x = '<'
  · subst h2
    decide
  by_cases h3 : x = '>'
  · subst h3
    decide
  by_cases h4 : x = quot
  · subst h4
    decide
  by_cases h5 : x = apos
  · subst h5
    decide
  simp [escapeChar, replaceAll, h1, h2, h3, h4, h5]

theorem escapeHtml_nil : escapeHtml [] = [] := rfl

theorem escapeHtml_cons (c : Char) (s : List Char) :
    escapeHtml (c :: s) = escapeChar c ++ escapeHtml s := by
  simp only [escapeHtml_eq_flatMap, List.flatMap_cons]

/-- What `escapeHtml` writes for one character is an entity, or the character
itself when it is none of the five. -/
theorem escapeChar_cases (c : Char) :
    (escapeChar c ∈ entities ∧
      (c = '&' ∨ c = '<' ∨ c = '>' ∨ c = quot ∨ c = apos)) ∨
    (escapeChar c = [c] ∧ c ≠ '&' ∧ c ≠ '<' ∧ c ≠ '>' ∧ c ≠ quot ∧ c ≠ apos) := by
  by_cases h1 : c = '&'
  · left
    subst h1
    exact ⟨by decide, Or.inl rfl⟩
  by_cases h2 : c = '<'
  · left
    subst h2
    exact ⟨by decide, Or.inr (Or.inl rfl)⟩
  by_cases h3 : c = '>'
  · left
    subst h3
    exact ⟨by decide, Or.inr (Or.inr (Or.inl rfl))⟩
  by_cases h4 : c = quot
  · left
    subst h4
    exact ⟨by decide, Or.inr (Or.inr (Or.inr (Or.inl rfl)))⟩
  by_cases h5 : c = apos
  · left
    subst h5
    exact ⟨by decide, Or.inr (Or.inr (Or.inr (Or.inr rfl)))⟩
  right
  exact ⟨by simp [escapeChar, h1, h2, h3, h4, h5], h1, h2, h3, h4, h5⟩

/-- An entity is an `&` followed by characters among which there is no `&`, and
has none of the characters `<`, `>`, double quote and apostrophe. -/
theorem entity_shape (e : List Char) (h : e ∈ entities) :
    (∃ t, e = '&' :: t ∧ ∀ x ∈ t, x ≠ '&') ∧
    (∀ x ∈ e, x ≠ '<' ∧ x ≠ '>' ∧ x ≠ quot ∧ x ≠ apos) := by
  simp only [entities, List.mem_cons, List.mem_singleton, List.not_mem_nil, or_false] at h
  rcases h with rfl | rfl | rfl | rfl | rfl
  · exact ⟨⟨_, rfl, by decide⟩, by decide⟩
  · exact ⟨⟨_, rfl, by decide⟩, by decide⟩
  · exact ⟨⟨_, rfl, by decide⟩, by decide⟩
  · exact ⟨⟨_, rfl, by decide⟩, by decide⟩
  · exact ⟨⟨_, rfl, by decide⟩, by decide⟩

/-- An `&` of `t ++ rest`, where `t` has none, is an `&` of `rest`. -/
theorem amp_after (t : List Char) (ht : ∀ x ∈ t, x ≠ '&') :
    ∀ (rest pre post : List Char), t ++ rest = pre ++ '&' :: post →
      ∃ pre', pre = t ++ pre' ∧ rest = pre' ++ '&' :: post := by
  induction t with
  | nil =>
    intro rest pre post h
    exact ⟨pre, rfl, h⟩
  | cons a t ih =>
    intro rest pre post h
    cases pre with
    | nil =>
      simp only [List.cons_append, List.nil_append, List.cons.injEq] at h
      exact absurd h.1 (ht a (List.mem_cons_self a t))
    | cons p pre1 =>
      simp only [List.cons_append, List.cons.injEq] at h
      obtain ⟨rfl, h2⟩ := h
      obtain ⟨pre', rfl, hr⟩ := ih (fun x hx => ht x (List.mem_cons_of_mem _ hx)) rest pre1 post h2
      exact ⟨pre', rfl, hr⟩

/-- Every `&` that `escapeHtml` writes starts an entity. -/
theorem escapeHtml_amp (s : List Char) :
    ∀ pre post, escapeHtml s = pre ++ '&' :: post →
      ∃ e ∈ entities, ∃ post', '&' :: post = e ++ post' := by
  induction s with
  | nil =>
    intro pre post h
    rw [escapeHtml_nil] at h
    simp at h
  | cons c s ih =>
    intro pre post h
    rw [escapeHtml_cons] at h
    rcases escapeChar_cases c with ⟨he, _⟩ | ⟨he, hc, _⟩
    · obtain ⟨⟨t, het, ht⟩, _⟩ := entity_shape _ he
      cases pre with
      | nil =>
        refine ⟨escapeChar c, he, escapeHtml s, ?_⟩
        rw [h]
        rfl
      | cons p pre1 =>
        rw [het] at h
        simp only [List.cons_append, List.cons.injEq] at h
        obtain ⟨pre', _, hr⟩ := amp_after t ht (escapeHtml s) pre1 post h.2
        exact ih pre' post hr
    · rw [he] at h
      cases pre with
      | nil =>
        simp only [List.singleton_append, List.nil_append, List.cons.injEq] at h
        exact absurd h.1 hc
      | cons p pre1 =>
        simp only [List.singleton_append, List.cons_append, List.cons.injEq] at h
        exact ih pre1 post h.2

/-- The characters `escapeHtml` writes. -/
theorem escapeHtml_chars (s : List Char) :
    ∀ x ∈ escapeHtml s, x ≠ '<' ∧ x ≠ '>' ∧ x ≠ quot ∧ x ≠ apos := by
  intro x hx
  rw [escapeHtml_eq_flatMap, List.mem_flatMap] at hx
  obtain ⟨c, _, hxc⟩ := hx
  rcases escapeChar_cases c with ⟨he, _⟩ | ⟨he, _, h2, h3, h4, h5⟩
  · exact (entity_shape _ he).2 x hxc
  · rw [he, List.mem_singleton] at hxc
    subst hxc
    exact ⟨h2, h3, h4, h5⟩

/-- Reading the text after an `&` that `escapeHtml` wrote. -/
theorem readEntity_escapeChar (c : Char) (t rest : List Char)
    (h : c = '&' ∨ c = '<' ∨ c = '>' ∨ c = quot ∨ c = apos)
    (he : escapeChar c = '&' :: t) :
    readEntity (t ++ rest) = some (c, rest) ∧ t.length < (escapeChar c).length := by
  rcases h with rfl | rfl | rfl | rfl | rfl
  · have : t = ['a', 'm', 'p', ';'] := by
      have h' : escapeChar '&' = ['&', 'a', 'm', 'p', ';'] := by decide
      rw [h'] at he
      exact (List.cons.inj he).2.symm
    subst this
    exact ⟨rfl, by decide⟩
  · have : t = ['l', 't', ';'] := by
      have h' : escapeChar '<' = ['&', 'l', 't', ';'] := by decide
      rw [h'] at he
      exact (List.cons.inj he).2.symm
    subst this
    exact ⟨rfl, by decide⟩
  · have : t = ['g', 't', ';'] := by
      have h' : escapeChar '>' = ['&', 'g', 't', ';'] := by decide
      rw [h'] at he
      exact (List.cons.inj he).2.symm
    subst this
    exact ⟨rfl, by decide⟩
  · have : t = ['q', 'u', 'o', 't', ';'] := by
      have h' : escapeChar quot = ['&', 'q', 'u', 'o', 't', ';'] := by decide
      rw [h'] at he
      exact (List.cons.inj he).2.symm
    subst this
    exact ⟨rfl, by decide⟩
  · have : t = ['#', '3', '9', ';'] := by
      have h' : escapeChar apos = ['&', '#', '3', '9', ';'] := by decide
      rw [h'] at he
      exact (List.cons.inj he).2.symm
    subst this
    exact ⟨rfl, by decide⟩

/-- Replacing the entities back recovers the text, with any fuel that covers
the escaped text. -/
theorem unescapeAux_escapeHtml (s : List Char) :
    ∀ n, (escapeHtml s).length ≤ n → unescapeAux n (escapeHtml s) = s := by
  induction s with
  | nil =>
    intro n _
    rw [escapeHtml_nil]
    cases n <;> rfl
  | cons c s ih =>
    intro n hn
    rw [escapeHtml_cons] at hn ⊢
    rcases escapeChar_cases c with ⟨he, hc⟩ | ⟨he, hc, _⟩
    · obtain ⟨⟨t, het, _⟩, _⟩ := entity_shape _ he
      obtain ⟨hread, hlen⟩ := readEntity_escapeChar c t (escapeHtml s) hc het
      rw [het] at hn ⊢
      simp only [List.cons_append, List.length_cons, List.length_append] at hn
      cases n with
      | zero => omega
      | succ m =>
        show unescapeAux (m + 1) ('&' :: (t ++ escapeHtml s)) = c :: s
        simp only [unescapeAux, if_true, hread]
        rw [ih m (by omega)]
    · rw [he] at hn ⊢
      simp only [List.singleton_append, List.length_cons] at hn
      cases n with
      | zero => omega
      | succ m =>
        show unescapeAux (m + 1) (c :: escapeHtml s) = c :: s
        simp only [unescapeAux, hc, if_false]
        rw [ih m (by omega)]

/-! ## Lemmas on dates and invoice numbers -/

theorem digit_props (k : Nat) : digit k ≠ '-' ∧ (digit k).isDigit = true := by
  unfold digit
  have h : k % 10 < 10 := Nat.mod_lt _ (by decide)
  generalize k % 10 = r at h
  interval_cases r <;> decide

/-- The date digits cut out of `toISOString()` for a four-digit year. -/
theorem ymdOf_toISOString (y m d : Nat) (time : List Char) (hy : y ≤ 9999) :
    ymdOf (toISOString y m d time) = String.mk (yyyymmdd y m d) := by
  have hne : ∀ k, (decide (digit k ≠ '-')) = true := fun k => by
    simpa using (digit_props k).1
  simp only [ymdOf, toISOString, hy, if_true, pad4, pad2, yyyymmdd]
  simp [List.take, List.filter, hne]

/-- The invoice number in the answer of a payment is `invNo` of the date digits
and the order id. -/
theorem payOrder_invoice_number (db : Db) (fault : Nat → Bool) (ymd : String) (id : Nat)
    (body : PayBody) (msg : String) (paid due : ℚ) (no : String)
    (h : (payOrder db fault ymd id body).2 = Resp.paid msg paid due (some no)) :
    no = invNo ymd id := by
  rcases payOrder_full db fault ymd id body with ⟨c, m, e⟩ | ⟨ord, amount, hfind, hst, hm, ha, e⟩
  · rw [e] at h
    simp at h
  · rw [e, payOrder_draft db ymd id body ord amount hfind hst hm ha] at h
    by_cases hd : 0 < round2 (ord.total_amount - (paidTotal db id + amount))
    · rw [if_pos hd] at h
      simp at h
    · rw [if_neg hd] at h
      by_cases hg : body.generate_invoice = true
      · simp only [hg, if_true, Resp.paid.injEq, Option.some.injEq] at h
        exact h.2.2.2.symm
      · simp [hg] at h

/-! ## Lemmas on the billing page's checkout -/

theorem foldl_add_eq_sum (cart : List CartLine) (g : CartLine → ℚ) :
    ∀ acc : ℚ, cart.foldl (fun s l => s + g l) acc = acc + (cart.map g).sum := by
  induction cart with
  | nil => simp
  | cons c rest ih =>
    intro acc
    simp only [List.foldl_cons, ih, List.map_cons, List.sum_cons]
    ring

/-- The lines the server builds from the cart's request lines carry the cart's
prices and quantities. -/
theorem mkLines_cart (rows : List Item) (cart : List CartLine) :
    ∀ lines, mkLines rows (cart.map (fun l =>
        { item_id := some l.item_id, qty := some l.qty, unit_price := some l.unit_price }))
        = some lines →
      (lines.map (fun l => l.unit_price * l.qty)).sum
        = (cart.map (fun l => l.unit_price * l.qty)).sum := by
  induction cart with
  | nil =>
    intro lines h
    simp [mkLines] at h
    subst h
    rfl
  | cons c rest ih =>
    intro lines h
    simp only [List.map_cons, mkLines] at h
    split at h
    · rename_i l ls hl hls
      simp only [Option.some.injEq] at h
      subst h
      have hrest := ih ls hls
      unfold mkLine at hl
      split at hl
      · simp at hl
      · simp only [Option.some.injEq] at hl
        subst hl
        simp only [List.map_cons, List.sum_cons, hrest, Option.getD_some]
    · simp at h

/-- When the server accepts the cart that `checkout` sends, the total it returns
is the total the page shows, and paying that total in one payment settles the
order: due 0, status PAID. -/
theorem checkout_total_charged (db : Db) (fault : Nat → Bool) (userId : Nat)
    (cart : List CartLine) (d t : ℚ) (name method ymd : String) (db' : Db) (oid : Nat)
    (total : ℚ)
    (h : createOrder db fault userId (checkoutPayload cart d t name)
      = (db', Resp.created oid total))
    (hpay : ∀ p ∈ db.payments, p.order_id ≠ nextOrderId db) (hm : method ≠ "") :
    total = (recalcTotals cart d t).total ∧
    (payOrder db' noFault ymd oid (checkoutPay method total)).2
      = Resp.paid "Paid in full." total 0 (some (invNo ymd oid)) ∧
    statusOf (payOrder db' noFault ymd oid (checkoutPay method total)).1 oid
      = some Status.PAID := by
  obtain ⟨items, lines, hi, _, _, _, hl, hoid, htot, hdb⟩ :=
    createOrder_created db fault userId _ db' oid total h
  have hitems : items = cart.map (fun l =>
      { item_id := some l.item_id, qty := some l.qty, unit_price := some l.unit_price }) := by
    simp only [checkoutPayload, Option.some.injEq] at hi
    exact hi.symm
  have hsum := mkLines_cart (selectItems db (ids items)) cart lines (by rw [← hitems]; exact hl)
  have htotal : total = (recalcTotals cart d t).total := by
    rw [htot]
    simp only [orderRow, totalAmountOf, taxAmountOf, taxableOf, discountOf,
      subtotalOf_eq _ _ _ hl, hsum, recalcTotals, checkoutPayload, Option.getD_some,
      foldl_add_eq_sum, zero_add]
    have e : max 0 (max 0 d) = max 0 d := max_eq_right (le_max_left _ _)
    rw [e, mul_div_assoc]
  have hrow : findOrder db' oid = some (orderRow oid userId (checkoutPayload cart d t name) lines) := by
    have hnone := statusOf_nextOrderId db
    simp only [statusOf, findOrder, Option.map_eq_none'] at hnone
    rw [hdb, hoid]
    simp only [findOrder, List.find?_append, hnone]
    simp [List.find?_cons, orderRow]
  have hpaid : paidTotal db' oid = 0 := by
    have : db'.payments.filter (fun p => p.order_id = oid) = [] := by
      rw [List.filter_eq_nil_iff, hdb, hoid]
      intro p hp
      simpa using hpay p hp
    simp [paidTotal, this]
  have hdue : round2 ((orderRow oid userId (checkoutPayload cart d t name) lines).total_amount
      - (paidTotal db' oid + total)) = 0 := by
    rw [hpaid, ← htot]
    simp [round2_zero]
  have hres := payOrder_draft db' ymd oid (checkoutPay method total) _ total hrow rfl hm rfl
  rw [hdue] at hres
  simp only [lt_irrefl, if_false, checkoutPay, if_true, payMessage, gt_iff_lt, hpaid,
    zero_add] at hres
  refine ⟨htotal, ?_, ?_⟩
  · simp only [checkoutPay]
    rw [hres]
  · simp only [checkoutPay]
    rw [hres]
    simp only [statusOf, findOrder]
    rw [statusOf_setStatus]
    simp only [if_true]
    have : (db'.orders.find? (fun o => o.order_id = oid)) = some _ := hrow
    rw [this]
    rfl

/-! ## Lemmas on the payments of an order -/

/-- The payments of an order after one payment row for it was added. -/
theorem payments_sum_append (ps : List Payment) (p : Payment) (id : Nat)
    (h : p.order_id = id) :
    (((ps ++ [p]).filter (fun q => q.order_id = id)).map Payment.amount).sum
      = ((ps.filter (fun q => q.order_id = id)).map Payment.amount).sum + p.amount := by
  simp [List.filter_append, List.filter_cons, h]

/-! ## Lemmas on the margin of a rounding -/

theorem round2_margin_nonneg (k : ℤ) (hk : 0 ≤ k)
    (htie : ¬ HalfCent ((k : ℚ) / 1000000)) :
    |round2 ((k : ℚ) / 1000000) - (k : ℚ) / 1000000| ≤ 1 / 200 - 1 / 1000000 := by
  have hx : ¬ ((k : ℚ) / 1000000 < 0) := by
    have : (0 : ℚ) ≤ (k : ℚ) / 1000000 := by
      apply div_nonneg _ (by norm_num)
      exact_mod_cast hk
    exact not_lt.mpr this
  have e : (k : ℚ) / 1000000 * 100 + 1 / 2 = (((k + 5000 : ℤ)) : ℚ) / ((10000 : ℕ) : ℚ) := by
    push_cast
    ring
  have hfl : ⌊(k : ℚ) / 1000000 * 100 + 1 / 2⌋ = (k + 5000) / 10000 := by
    rw [e, Rat.floor_intCast_div_natCast]
    rfl
  have hdiv := Int.emod_add_ediv (k + 5000) 10000
  have hr0 := Int.emod_nonneg (k + 5000) (by norm_num : (10000 : ℤ) ≠ 0)
  have hr1 := Int.emod_lt_of_pos (k + 5000) (by norm_num : (0 : ℤ) < 10000)
  have hrne : (k + 5000) % 10000 ≠ 0 := by
    intro h0
    apply htie
    refine ⟨(k + 5000) / 10000 - 1, ?_⟩
    have hk' : (k : ℚ) = 10000 * (((k + 5000) / 10000 : ℤ) : ℚ) - 5000 := by
      have : k = 10000 * ((k + 5000) / 10000) - 5000 := by omega
      exact_mod_cast this
    push_cast
    rw [hk']
    ring
  unfold round2
  rw [if_neg hx, hfl]
  have hk' : (k : ℚ) = 10000 * (((k + 5000) / 10000 : ℤ) : ℚ)
      + (((k + 5000) % 10000 : ℤ) : ℚ) - 5000 := by
    have : k = 10000 * ((k + 5000) / 10000) + (k + 5000) % 10000 - 5000 := by omega
    exact_mod_cast this
  have hlo : (1 : ℚ) ≤ (((k + 5000) % 10000 : ℤ) : ℚ) := by
    have : (1 : ℤ) ≤ (k + 5000) % 10000 := by omega
    exact_mod_cast this
  have hhi : (((k + 5000) % 10000 : ℤ) : ℚ) ≤ 9999 := by
    have : (k + 5000) % 10000 ≤ (9999 : ℤ) := by omega
    exact_mod_cast this
  have key : (((k + 5000) / 10000 : ℤ) : ℚ) / 100 - (k : ℚ) / 1000000
      = (5000 - (((k + 5000) % 10000 : ℤ) : ℚ)) / 1000000 := by
    conv_lhs => rw [hk']
    ring
  rw [key, abs_le]
  constructor
  · rw [le_div_iff₀ (by norm_num)]
    linarith
  · rw [div_le_iff₀ (by norm_num)]
    linarith

theorem halfCent_neg {x : ℚ} (h : HalfCent (-x)) : HalfCent x := by
  obtain ⟨n, hn⟩ := h
  refine ⟨-n - 1, ?_⟩
  push_cast
  linarith

/-- A number with at most six decimals that is not halfway between two
hundredths is rounded by `round2` to a hundredth less than half a hundredth
away, with a margin of one millionth. -/
theorem round2_margin (x : ℚ) (hx : ∃ k : ℤ, x = (k : ℚ) / 1000000) (htie : ¬ HalfCent x) :
    |round2 x - x| ≤ 1 / 200 - 1 / 1000000 := by
  obtain ⟨k, rfl⟩ := hx
  by_cases hk : 0 ≤ k
  · exact round2_margin_nonneg k hk htie
  · have hk' : (0 : ℤ) ≤ -k := by omega
    have hneg : ((k : ℚ) / 1000000) < 0 := by
      apply div_neg_of_neg_of_pos _ (by norm_num)
      exact_mod_cast (by omega : k < 0)
    have htie' : ¬ HalfCent (((-k : ℤ) : ℚ) / 1000000) := by
      intro h
      apply htie
      apply halfCent_neg
      have e : -((k : ℚ) / 1000000) = ((-k : ℤ) : ℚ) / 1000000 := by
        push_cast
        ring
      rw [e]
      exact h
    have hm := round2_margin_nonneg (-k) hk' htie'
    have hpos : ¬ (((-k : ℤ) : ℚ) / 1000000 < 0) := by
      have : (0 : ℚ) ≤ ((-k : ℤ) : ℚ) / 1000000 := by
        apply div_nonneg _ (by norm_num)
        exact_mod_cast hk'
      exact not_lt.mpr this
    have e1 : round2 ((k : ℚ) / 1000000) = -round2 (((-k : ℤ) : ℚ) / 1000000) := by
      unfold round2
      rw [if_pos hneg, if_neg hpos]
      have e : -((k : ℚ) / 1000000) = ((-k : ℤ) : ℚ) / 1000000 := by
        push_cast
        ring
      rw [e]
      ring
    rw [e1]
    have e2 : -round2 (((-k : ℤ) : ℚ) / 1000000) - (k : ℚ) / 1000000
        = -(round2 (((-k : ℤ) : ℚ) / 1000000) - ((-k : ℤ) : ℚ) / 1000000) := by
      push_cast
      ring
    rw [e2, abs_neg]
    exact hm

/-- The product of two amounts with at most two decimals, over 100, has at most
six decimals. -/
theorem six_decimals {a b : ℚ} (ha : IsCents a) (hb : IsCents b) :
    ∃ k : ℤ, a * b / 100 = (k : ℚ) / 1000000 := by
  obtain ⟨n, rfl⟩ := ha
  obtain ⟨m, rfl⟩ := hb
  exact ⟨n * m, by push_cast; ring⟩

/-- A whole number of cents is not halfway between two hundredths. -/
theorem not_halfCent_of_isCents {x : ℚ} (h : IsCents x) : ¬ HalfCent x := by
  obtain ⟨c, rfl⟩ := h
  rintro ⟨n, hn⟩
  have e : ((2 * c : ℤ) : ℚ) = ((2 * n + 1 : ℤ) : ℚ) := by
    push_cast
    linarith
  have e' : 2 * c = 2 * n + 1 := by exact_mod_cast e
  omega

/-- The exact tax of the worked example, 6.00, is not halfway between two
cents. -/
theorem shop_tax_no_tie :
    ¬ HalfCent (max 0 ((shopLines.map (fun l => l.unit_price * l.qty)).sum
      - max 0 (shopBody.discount_amount.getD 0)) * shopBody.tax_percent.getD 0 / 100) := by
  apply not_halfCent_of_isCents
  exact ⟨600, by decide!⟩

/-- The exact tax of the pen order, 0.3582, is not halfway between two cents. -/
theorem pen_tax_no_tie :
    ¬ HalfCent (max 0 ((penLines.map Line.line_total).sum
      - max 0 (penBody.discount_amount.getD 0)) * penBody.tax_percent.getD 0 / 100) := by
  have e : max 0 ((penLines.map Line.line_total).sum
      - max 0 (penBody.discount_amount.getD 0)) * penBody.tax_percent.getD 0 / 100
      = 3582 / 10000 := by decide!
  rw [e]
  rintro ⟨n, hn⟩
  have e1 : ((100 * n : ℤ) : ℚ) = ((3532 : ℤ) : ℚ) := by
    push_cast
    linarith
  have e2 : 100 * n = 3532 := by exact_mod_cast e1
  omega

/-- The discount clamp of `createOrder`: a negative requested discount gives the
same result as discount 0, and a successfully created order whose clamped
discount is at least its subtotal has tax 0 and total 0. -/
theorem createOrder_discount_clamp (db : Db) (fault : Nat → Bool) (userId : Nat)
    (body : OrderBody) :
    (∀ d : ℚ, d < 0 →
      createOrder db fault userId { body with discount_amount := some d }
        = createOrder db fault userId { body with discount_amount := some 0 }) ∧
    (∀ db' oid total items lines,
      createOrder db fault userId body = (db', Resp.created oid total) →
      body.items = some items →
      mkLines (selectItems db (ids items)) items = some lines →
      subtotalOf lines ≤ max 0 (body.discount_amount.getD 0) →
      total = 0 ∧ ∃ row, db'.orders = db.orders ++ [row] ∧ row.tax_amount = 0 ∧
        row.total_amount = 0) := by
  constructor
  · intro d hd
    have e : max 0 d = 0 := max_eq_left (le_of_lt hd)
    simp only [createOrder, orderRow, discountOf, taxAmountOf, Option.getD_some, e, max_self]
  · intro db' oid total items lines h hitems hlines hle
    obtain ⟨items', lines', hi, _, _, _, hl, _, htot, hdb⟩ :=
      createOrder_created db fault userId body db' oid total h
    rw [hitems] at hi
    obtain rfl : items = items' := Option.some.inj hi
    rw [hlines] at hl
    obtain rfl : lines = lines' := Option.some.inj hl
    have ht : max 0 (subtotalOf lines - max 0 (body.discount_amount.getD 0)) = 0 :=
      max_eq_left (sub_nonpos.mpr hle)
    have hrow : (orderRow oid userId body lines).tax_amount = 0
        ∧ (orderRow oid userId body lines).total_amount = 0 := by
      simp only [orderRow, totalAmountOf, taxAmountOf, taxableOf, discountOf, ht]
      simp [round2_zero]
    exact ⟨by rw [htot]; exact hrow.2, orderRow oid userId body lines, by rw [hdb], hrow.1,
      hrow.2⟩

/-! ## The claims -/

/-- C1. Settlement rule of add payment: on an existing DRAFT order, an accepted
payment (a method and an amount are given, no storage step fails) appends its
row to the payments and changes no order line; the response carries `paid` = the
sum of the order's payments including this one and
`due = round2 (total_amount - paid)`; when `due ≤ 0` the order's row becomes
PAID and the stock of every item goes down by the total qty of the order's lines
for that item, read off the `order_items` table; when `due > 0` the orders and
the stock are unchanged. -/
theorem payOrder_settlement_rule (db : Db) (ymd : String) (id : Nat) (body : PayBody)
    (ord : Order) (amount : ℚ)
    (hfind : findOrder db id = some ord) (hst : ord.status = Status.DRAFT)
    (hm : body.method ≠ "") (ha : body.amount = some amount) :
    ∃ db' msg inv,
      payOrder db noFault ymd id body
        = (db', Resp.paid msg
            (((db.payments.filter (fun p => p.order_id = id)).map Payment.amount).sum + amount)
            (round2 (ord.total_amount
              - (((db.payments.filter (fun p => p.order_id = id)).map Payment.amount).sum
                  + amount))) inv) ∧
      db'.payments = db.payments ++
        [{ order_id := id, method := body.method, amount := amount,
           txn_ref := body.txn_ref.filter (fun t => t ≠ "") }] ∧
      ((db'.payments.filter (fun p => p.order_id = id)).map Payment.amount).sum
        = ((db.payments.filter (fun p => p.order_id = id)).map Payment.amount).sum + amount ∧
      db'.order_items = db.order_items ∧
      (round2 (ord.total_amount
          - (((db.payments.filter (fun p => p.order_id = id)).map Payment.amount).sum
              + amount)) ≤ 0 →
        db'.orders = db.orders.map
          (fun o => if o.order_id = id then { o with status := Status.PAID } else o) ∧
        db'.orders.find? (fun o => o.order_id = id)
          = some { ord with status := Status.PAID } ∧
        db'.items = db.items.map
          (fun r => { r with quantity := r.quantity
            - ((db.order_items.filter
                (fun l => l.order_id = id ∧ l.item_id = r.item_id)).map OrderItem.qty).sum })) ∧
      (0 < round2 (ord.total_amount
          - (((db.payments.filter (fun p => p.order_id = id)).map Payment.amount).sum
              + amount)) →
        db'.orders = db.orders ∧ db'.items = db.items) := by
  have hrun := payOrder_draft db ymd id body ord amount hfind hst hm ha
  have hpt : paidTotal db id
      = ((db.payments.filter (fun p => p.order_id = id)).map Payment.amount).sum := rfl
  rw [hpt] at hrun
  have hsum := payments_sum_append db.payments (paymentRow id body amount) id rfl
  by_cases hd : 0 < round2 (ord.total_amount
      - (((db.payments.filter (fun p => p.order_id = id)).map Payment.amount).sum + amount))
  · rw [if_pos hd] at hrun
    refine ⟨_, _, _, hrun, rfl, hsum, rfl, ?_, ?_⟩
    · intro hle
      exact absurd hd (not_lt.mpr hle)
    · intro _
      exact ⟨rfl, rfl⟩
  · rw [if_neg hd] at hrun
    refine ⟨_, _, _, hrun, rfl, hsum, rfl, ?_, ?_⟩
    · intro _
      refine ⟨rfl, findOrder_setStatus db id Status.PAID ord hfind, ?_⟩
      show shiftStock db id (-1) = _
      simp only [shiftStock]
      apply List.map_congr_left
      intro r _
      have hq : lineQty db id r.item_id
          = ((db.order_items.filter
              (fun l => l.order_id = id ∧ l.item_id = r.item_id)).map OrderItem.qty).sum := by
        simp only [lineQty, orderLines, List.filter_filter]
        congr 2
        apply List.filter_congr
        intro l _
        simp only [Bool.decide_and, Bool.and_comm]
      rw [hq]
      congr 1
      ring
    · intro hlt
      exact absurd hlt hd

/-- C1 at the worked example (stock 10 and 5, order 1 for 2 of A and 1 of B,
total 126.00): the full payment answers paid 126, due 0, makes the order PAID
and leaves stock 8 and 4; a payment of 100.00 answers paid 100, due 26 and
leaves the order DRAFT and the stock 10 and 5. -/
theorem payOrder_settlement_rule_witness :
    (findOrder shopDb1 1 = some shopOrder ∧ shopOrder.status = Status.DRAFT ∧
      (cash 126).method ≠ "" ∧ (cash 126).amount = some 126) ∧
    (∃ db' msg inv,
      payOrder shopDb1 noFault "20240101" 1 (cash 126)
        = (db', Resp.paid msg
            (((shopDb1.payments.filter (fun p => p.order_id = 1)).map Payment.amount).sum + 126)
            (round2 (shopOrder.total_amount
              - (((shopDb1.payments.filter (fun p => p.order_id = 1)).map Payment.amount).sum
                  + 126))) inv) ∧
      db'.payments = shopDb1.payments ++
        [{ order_id := 1, method := (cash 126).method, amount := 126,
           txn_ref := (cash 126).txn_ref.filter (fun t => t ≠ "") }] ∧
      ((db'.payments.filter (fun p => p.order_id = 1)).map Payment.amount).sum
        = ((shopDb1.payments.filter (fun p => p.order_id = 1)).map Payment.amount).sum + 126 ∧
      db'.order_items = shopDb1.order_items ∧
      (round2 (shopOrder.total_amount
          - (((shopDb1.payments.filter (fun p => p.order_id = 1)).map Payment.amount).sum
              + 126)) ≤ 0 →
        db'.orders = shopDb1.orders.map
          (fun o => if o.order_id = 1 then { o with status := Status.PAID } else o) ∧
        db'.orders.find? (fun o => o.order_id = 1)
          = some { shopOrder with status := Status.PAID } ∧
        db'.items = shopDb1.items.map
          (fun r => { r with quantity := r.quantity
            - ((shopDb1.order_items.filter
                (fun l => l.order_id = 1 ∧ l.item_id = r.item_id)).map OrderItem.qty).sum })) ∧
      (0 < round2 (shopOrder.total_amount
          - (((shopDb1.payments.filter (fun p => p.order_id = 1)).map Payment.amount).sum
              + 126)) →
        db'.orders = shopDb1.orders ∧ db'.items = shopDb1.items)) ∧
    shopDb1.items.map Item.quantity = [10, 5] ∧
    shopDb1.order_items.map (fun l => (l.order_id, l.item_id, l.qty)) = [(1, 1, 2), (1, 2, 1)] ∧
    (payOrder shopDb1 noFault "20240101" 1 (cash 126)).2 = Resp.paid "Paid in full." 126 0 none ∧
    (payOrder shopDb1 noFault "20240101" 1 (cash 126)).1.items.map Item.quantity = [8, 4] ∧
    (payOrder shopDb1 noFault "20240101" 1 (cash 126)).1.orders.map Order.status
      = [Status.PAID] ∧
    (payOrder shopDb1 noFault "20240101" 1 (cash 100)).2
      = Resp.paid "Payment added (partial)." 100 26 none ∧
    (payOrder shopDb1 noFault "20240101" 1 (cash 100)).1.items.map Item.quantity = [10, 5] ∧
    (payOrder shopDb1 noFault "20240101" 1 (cash 100)).1.orders.map Order.status
      = [Status.DRAFT] :=
  ⟨⟨by decide!, rfl, by decide, rfl⟩,
   payOrder_settlement_rule shopDb1 "20240101" 1 (cash 126) shopOrder 126
     (by decide!) rfl (by decide) rfl,
   by decide!, by decide!, by decide!, by decide!, by decide!, by decide!, by decide!,
   by decide!⟩

/-- C2 (as amended). Paying the exact total in one or several payments: for a
DRAFT order with no earlier payments and a non-empty sequence of payment
requests whose amounts are positive, in whole cents, and sum exactly to
`total_amount`, after each payment but the last the order is still the same
DRAFT row, the response reports the amount paid so far and `due =
total_amount -` that amount, and the stock is unchanged; after the last payment
the response reports `paid = total_amount` and `due = 0`, the order is PAID and
every line's qty has been taken off the stock of its item once. -/
theorem payAll_exact_total (db : Db) (ymd : String) (id : Nat) (ord : Order)
    (bodies : List PayBody)
    (hfind : findOrder db id = some ord) (hst : ord.status = Status.DRAFT)
    (hnone : ∀ p ∈ db.payments, p.order_id ≠ id)
    (hne : bodies ≠ [])
    (hvalid : ∀ b ∈ bodies, b.method ≠ "" ∧ b.amount ≠ none ∧ 0 < amountOf b ∧
      IsCents (amountOf b))
    (hsum : (bodies.map amountOf).sum = ord.total_amount) :
    (∀ pre b post, bodies = pre ++ b :: post → post ≠ [] →
      findOrder (payAll db ymd id (pre ++ [b])).1 id = some ord ∧
      (payAll db ymd id (pre ++ [b])).1.items = db.items ∧
      (payAll db ymd id (pre ++ [b])).2.getLast?
        = some (Resp.paid "Payment added (partial)." ((pre ++ [b]).map amountOf).sum
            (ord.total_amount - ((pre ++ [b]).map amountOf).sum) none)) ∧
    findOrder (payAll db ymd id bodies).1 id = some { ord with status := Status.PAID } ∧
    (payAll db ymd id bodies).1.items = db.items.map
      (fun r => { r with quantity := r.quantity - lineQty db id r.item_id }) ∧
    ∃ inv, (payAll db ymd id bodies).2.getLast?
      = some (Resp.paid "Paid in full." ord.total_amount 0 inv) := by
  have hp0 : paidTotal db id = 0 := by
    have : db.payments.filter (fun p => p.order_id = id) = [] := by
      rw [List.filter_eq_nil_iff]
      intro p hp
      simpa using hnone p hp
    simp [paidTotal, this]
  have hcsum : ∀ l : List PayBody, (∀ b ∈ l, IsCents (amountOf b)) →
      IsCents ((l.map amountOf).sum) := by
    intro l
    induction l with
    | nil => intro _; exact ⟨0, by simp⟩
    | cons b rest ih =>
      intro h
      simp only [List.map_cons, List.sum_cons]
      exact isCents_add (h b (List.mem_cons_self _ _))
        (ih (fun b' hb' => h b' (List.mem_cons_of_mem _ hb')))
  have hcT : IsCents (ord.total_amount - paidTotal db id) := by
    rw [hp0, sub_zero, ← hsum]
    exact hcsum bodies (fun b hb => (hvalid b hb).2.2.2)
  refine ⟨?_, ?_⟩
  · intro pre b post hsplit hpost
    have hv : ∀ b' ∈ pre ++ [b], b'.method ≠ "" ∧ b'.amount ≠ none ∧ 0 < amountOf b' ∧
        IsCents (amountOf b') := by
      intro b' hb'
      apply hvalid b'
      rw [hsplit]
      rcases List.mem_append.mp hb' with h | h
      · exact List.mem_append_left _ h
      · rw [List.mem_singleton] at h
        subst h
        exact List.mem_append_right _ (List.mem_cons_self _ _)
    have hpostpos : 0 < (post.map amountOf).sum := by
      apply List.sum_pos
      · intro x hx
        obtain ⟨b', hb', rfl⟩ := List.mem_map.mp hx
        apply (hvalid b' _).2.2.1
        rw [hsplit]
        exact List.mem_append_right _ (List.mem_cons_of_mem _ hb')
      · simpa using hpost
    have hlt : paidTotal db id + ((pre ++ [b]).map amountOf).sum < ord.total_amount := by
      rw [hp0, ← hsum, hsplit]
      simp only [List.map_append, List.sum_append, List.map_cons, List.sum_cons,
        List.map_nil, List.sum_nil]
      linarith
    obtain ⟨i1, i2, _, _, i5⟩ := payAll_partial ymd id ord (pre ++ [b]) db hfind hst hv hcT hlt
    refine ⟨?_, i2, ?_⟩
    · unfold findOrder at hfind ⊢
      rw [i1]
      exact hfind
    · have := i5 (by simp)
      rw [hp0, zero_add] at this
      exact this
  · obtain ⟨pre, last, rfl⟩ : ∃ pre last, bodies = pre ++ [last] := by
      rcases List.eq_nil_or_concat bodies with h | ⟨pre, last, h⟩
      · exact absurd h hne
      · exact ⟨pre, last, by simpa using h⟩
    have hv : ∀ b' ∈ pre, b'.method ≠ "" ∧ b'.amount ≠ none ∧ 0 < amountOf b' ∧
        IsCents (amountOf b') := fun b' hb' => hvalid b' (List.mem_append_left _ hb')
    obtain ⟨hm, hsome, hpos, hlc⟩ := hvalid last (List.mem_append_right _ (List.mem_singleton.mpr rfl))
    have ha : last.amount = some (amountOf last) := by
      cases hb : last.amount with
      | none => exact absurd hb hsome
      | some a => simp [amountOf, hb]
    simp only [List.map_append, List.sum_append, List.map_cons, List.sum_cons,
      List.map_nil, List.sum_nil, add_zero] at hsum
    have hlt : paidTotal db id + (pre.map amountOf).sum < ord.total_amount := by
      rw [hp0]
      linarith
    obtain ⟨i1, i2, i3, i4, _⟩ := payAll_partial ymd id ord pre db hfind hst hv hcT hlt
    have hfind1 : findOrder (payAll db ymd id pre).1 id = some ord := by
      unfold findOrder at hfind ⊢
      rw [i1]
      exact hfind
    have hpaid : paidTotal (payAll db ymd id pre).1 id + amountOf last = ord.total_amount := by
      rw [i4, hp0]
      linarith
    have hz : round2 0 = 0 := by
      have := round2_cents 0
      simpa using this
    have hrun := payOrder_draft (payAll db ymd id pre).1 ymd id last ord (amountOf last)
      hfind1 hst hm ha
    rw [hpaid, sub_self, hz, if_neg (lt_irrefl 0)] at hrun
    have hlq : ∀ k, lineQty (payAll db ymd id pre).1 id k = lineQty db id k := by
      intro k
      simp [lineQty, orderLines, i3]
    rw [payAll_append]
    simp only [payAll, hrun]
    refine ⟨?_, ?_, ?_⟩
    · exact findOrder_setStatus _ id Status.PAID ord hfind1
    · simp only [shiftStock, i2, hlq]
      apply List.map_congr_left
      intro r _
      simp [sub_eq_add_neg]
    · refine ⟨if last.generate_invoice = true then some (invNo ymd id) else none, ?_⟩
      rw [List.getLast?_concat]
      simp [payMessage]

theorem payAll_exact_total_witness :
    findOrder shopDb1 1 = some shopOrder ∧ shopOrder.status = Status.DRAFT ∧
    (∀ p ∈ shopDb1.payments, p.order_id ≠ 1) ∧ [cash 100, cash 26] ≠ [] ∧
    (∀ b ∈ [cash 100, cash 26], b.method ≠ "" ∧ b.amount ≠ none ∧ 0 < amountOf b ∧
      IsCents (amountOf b)) ∧
    ([cash 100, cash 26].map amountOf).sum = shopOrder.total_amount ∧
    ((∀ pre b post, [cash 100, cash 26] = pre ++ b :: post → post ≠ [] →
      findOrder (payAll shopDb1 "20240101" 1 (pre ++ [b])).1 1 = some shopOrder ∧
      (payAll shopDb1 "20240101" 1 (pre ++ [b])).1.items = shopDb1.items ∧
      (payAll shopDb1 "20240101" 1 (pre ++ [b])).2.getLast?
        = some (Resp.paid "Payment added (partial)." ((pre ++ [b]).map amountOf).sum
            (shopOrder.total_amount - ((pre ++ [b]).map amountOf).sum) none)) ∧
    findOrder (payAll shopDb1 "20240101" 1 [cash 100, cash 26]).1 1
      = some { shopOrder with status := Status.PAID } ∧
    (payAll shopDb1 "20240101" 1 [cash 100, cash 26]).1.items = shopDb1.items.map
      (fun r => { r with quantity := r.quantity - lineQty shopDb1 1 r.item_id }) ∧
    ∃ inv, (payAll shopDb1 "20240101" 1 [cash 100, cash 26]).2.getLast?
      = some (Resp.paid "Paid in full." shopOrder.total_amount 0 inv)) :=
  have hv : ∀ b ∈ [cash 100, cash 26], b.method ≠ "" ∧ b.amount ≠ none ∧ 0 < amountOf b ∧
      IsCents (amountOf b) := by
    intro b hb
    simp only [List.mem_cons, List.mem_singleton, List.not_mem_nil, or_false] at hb
    rcases hb with rfl | rfl
    · exact ⟨by decide, by decide, by decide!, ⟨10000, by decide!⟩⟩
    · exact ⟨by decide, by decide, by decide!, ⟨2600, by decide!⟩⟩
  ⟨by decide!, rfl, by decide!, by decide, hv, by decide!,
   payAll_exact_total shopDb1 "20240101" 1 shopOrder [cash 100, cash 26]
     (by decide!) rfl (by decide!) (by decide) hv (by decide!)⟩

/-- C2, the claim as stated fails: the order of `centDb` (DRAFT, total 0.01, no
payments) is paid with 0.006 and then 0.004, positive amounts that sum to the
total; after the first payment `due = round2 0.004 = 0`, so the order is already
PAID and the stock already decremented, and the second payment is refused. -/
theorem payAll_exact_total_counterexample :
    findOrder centDb 1 = some centOrder ∧ centDb.payments = [] ∧
    (0 : ℚ) < 6 / 1000 ∧ (0 : ℚ) < 4 / 1000 ∧
    (6 / 1000 : ℚ) + 4 / 1000 = centOrder.total_amount ∧
    (payOrder centDb noFault "20240101" 1 (cash (6 / 1000))).2
      = Resp.paid "Paid in full." (6 / 1000) 0 none ∧
    statusOf (payOrder centDb noFault "20240101" 1 (cash (6 / 1000))).1 1
      = some Status.PAID ∧
    (payOrder centDb noFault "20240101" 1 (cash (6 / 1000))).1.items.map Item.quantity = [99] ∧
    (payOrder (payOrder centDb noFault "20240101" 1 (cash (6 / 1000))).1 noFault
        "20240101" 1 (cash (4 / 1000))).2 = Resp.error 400 "Order already PAID." := by
  decide!

/-- C3 (as amended). Independent total formula: for a successfully created
order whose taxable amount `max 0 (subtotal - discount)` is a whole number of
cents, whose tax percent is not negative and has at most two decimals, and whose
exact tax `taxable * tax_percent / 100` is not halfway between two cents, the
returned `total_amount` equals
`round2 (max 0 (subtotal - discount) * (1 + tax_percent / 100))`, where
`subtotal` is the exact sum of `unit_price * qty` over the lines and `discount`
is the requested discount clamped to `≥ 0`; the tax in it is the cent nearest
to the exact tax, which is at least a millionth away from a rounding tie. -/
theorem createOrder_total_formula (db : Db) (fault : Nat → Bool) (userId : Nat)
    (body : OrderBody) (db' : Db) (oid : Nat) (total : ℚ)
    (items : List LineReq) (lines : List Line)
    (h : createOrder db fault userId body = (db', Resp.created oid total))
    (hitems : body.items = some items)
    (hlines : mkLines (selectItems db (ids items)) items = some lines)
    (hcents : IsCents (max 0 ((lines.map (fun l => l.unit_price * l.qty)).sum
      - max 0 (body.discount_amount.getD 0))))
    (htax : 0 ≤ body.tax_percent.getD 0)
    (hpct : IsCents (body.tax_percent.getD 0))
    (htie : ¬ HalfCent (max 0 ((lines.map (fun l => l.unit_price * l.qty)).sum
      - max 0 (body.discount_amount.getD 0)) * body.tax_percent.getD 0 / 100)) :
    total = round2 (max 0 ((lines.map (fun l => l.unit_price * l.qty)).sum
      - max 0 (body.discount_amount.getD 0)) * (1 + body.tax_percent.getD 0 / 100)) ∧
    total = max 0 ((lines.map (fun l => l.unit_price * l.qty)).sum
        - max 0 (body.discount_amount.getD 0))
      + round2 (max 0 ((lines.map (fun l => l.unit_price * l.qty)).sum
        - max 0 (body.discount_amount.getD 0)) * body.tax_percent.getD 0 / 100) ∧
    |round2 (max 0 ((lines.map (fun l => l.unit_price * l.qty)).sum
        - max 0 (body.discount_amount.getD 0)) * body.tax_percent.getD 0 / 100)
      - max 0 ((lines.map (fun l => l.unit_price * l.qty)).sum
        - max 0 (body.discount_amount.getD 0)) * body.tax_percent.getD 0 / 100|
      ≤ 1 / 200 - 1 / 1000000 := by
  obtain ⟨items', lines', hi, _, _, _, hl, _, htot, _⟩ :=
    createOrder_created db fault userId body db' oid total h
  rw [hitems] at hi
  obtain rfl : items = items' := Option.some.inj hi
  rw [hlines] at hl
  obtain rfl : lines = lines' := Option.some.inj hl
  have hform : total = round2 (max 0 ((lines.map (fun l => l.unit_price * l.qty)).sum
      - max 0 (body.discount_amount.getD 0)) * (1 + body.tax_percent.getD 0 / 100)) := by
    rw [htot]
    simp only [orderRow, totalAmountOf, taxAmountOf, taxableOf, discountOf,
      subtotalOf_eq _ _ _ hlines]
    exact round2_two_step hcents (le_max_left _ _) htax
  refine ⟨hform, ?_, round2_margin _ (six_decimals hcents hpct) htie⟩
  rw [htot]
  simp only [orderRow, totalAmountOf, taxAmountOf, taxableOf, discountOf,
    subtotalOf_eq _ _ _ hlines]
  have hx : 0 ≤ max 0 ((lines.map (fun l => l.unit_price * l.qty)).sum
      - max 0 (body.discount_amount.getD 0)) * body.tax_percent.getD 0 / 100 :=
    div_nonneg (mul_nonneg (le_max_left _ _) htax) (by norm_num)
  rw [round2_cents_add hcents (le_max_left _ _) (round2_nonneg hx),
    round2_of_isCents (isCents_round2 _)]

/-- C3 (as amended) at the worked example: 2 at 50.00 and 1 at 30.00, discount
10.00, tax 5 percent: taxable 120.00, exact tax 6.00, total 126.00. -/
theorem createOrder_total_formula_witness :
    (createOrder shopDb noFault 7 shopBody = (shopDb1, Resp.created 1 126) ∧
      shopBody.items = some shopItems ∧
      mkLines (selectItems shopDb (ids shopItems)) shopItems = some shopLines ∧
      IsCents (max 0 ((shopLines.map (fun l => l.unit_price * l.qty)).sum
        - max 0 (shopBody.discount_amount.getD 0))) ∧
      0 ≤ shopBody.tax_percent.getD 0 ∧
      IsCents (shopBody.tax_percent.getD 0) ∧
      ¬ HalfCent (max 0 ((shopLines.map (fun l => l.unit_price * l.qty)).sum
        - max 0 (shopBody.discount_amount.getD 0)) * shopBody.tax_percent.getD 0 / 100)) ∧
    (126 : ℚ) = round2 (max 0 ((shopLines.map (fun l => l.unit_price * l.qty)).sum
      - max 0 (shopBody.discount_amount.getD 0)) * (1 + shopBody.tax_percent.getD 0 / 100)) ∧
    max 0 ((shopLines.map (fun l => l.unit_price * l.qty)).sum
      - max 0 (shopBody.discount_amount.getD 0)) = 120 ∧
    max 0 ((shopLines.map (fun l => l.unit_price * l.qty)).sum
      - max 0 (shopBody.discount_amount.getD 0)) * shopBody.tax_percent.getD 0 / 100 = 6 :=
  ⟨⟨by decide!, rfl, by decide!, ⟨12000, by decide!⟩, by decide!, ⟨500, by decide!⟩,
    shop_tax_no_tie⟩,
   (createOrder_total_formula shopDb noFault 7 shopBody shopDb1 1 126 shopItems shopLines
     (by decide!) rfl (by decide!) ⟨12000, by decide!⟩ (by decide!) ⟨500, by decide!⟩
     shop_tax_no_tie).1,
   by decide!, by decide!⟩

/-- C3, the claim as stated fails: 0.375 of an item at 10.50 with 5 percent tax
has taxable amount 3.9375; the handler rounds the tax to 0.20 and then the sum
4.1375 to 4.14, while `round2 (3.9375 * 1.05) = round2 4.134375 = 4.13`. -/
theorem createOrder_total_formula_counterexample :
    (createOrder weighDb noFault 7 weighBody).2 = Resp.created 1 (414 / 100) ∧
    weighBody.items = some weighItems ∧
    mkLines (selectItems weighDb (ids weighItems)) weighItems = some weighLines ∧
    round2 (max 0 ((weighLines.map (fun l => l.unit_price * l.qty)).sum
      - max 0 (weighBody.discount_amount.getD 0)) * (1 + weighBody.tax_percent.getD 0 / 100))
      = 413 / 100 := by
  decide!

/-- C4, the code at the failing input: one line of 1 at 1.50, no discount, tax 5
percent (taxable 1.50; 1.5, 5 and 100 are doubles). The claim's tax is
`round2 (1.50 * 5 / 100) = round2 0.075 = 0.08` and its total 1.58. The handler
computes `1.5 * 5 / 100` in doubles: the product is 7.5, the quotient is the
double below 0.075, `toFixed(2)` gives 0.07, and the total is 1.57. The billing
page computes `1.5 * (5 / 100)`, the double above 0.075, and shows 0.08 and
1.58. -/
theorem taxAmount_half_cent :
    (fl (3 / 2) = 3 / 2 ∧ fl 5 = 5 ∧ fl 100 = 100) ∧
    (round2 (3 / 2 * 5 / 100) = 8 / 100 ∧ round2 (3 / 2 + 8 / 100) = 158 / 100) ∧
    (fmul (3 / 2) 5 = 15 / 2 ∧
      fdiv (15 / 2) 100 = 5404319552844595 / 72057594037927936 ∧
      (5404319552844595 / 72057594037927936 : ℚ) < 75 / 1000) ∧
    (taxAmountF (3 / 2) 5 = fl (7 / 100) ∧
      totalAmountF (3 / 2) (taxAmountF (3 / 2) 5) = fl (157 / 100)) ∧
    orderTotalsF [(3 / 2, 1)] 0 5 = (3 / 2, 0, 3 / 2, fl (7 / 100), fl (157 / 100)) ∧
    (pageTaxF (3 / 2) 5 = fl (8 / 100) ∧
      totalAmountF (3 / 2) (pageTaxF (3 / 2) 5) = fl (158 / 100)) ∧
    fl (7 / 100) ≠ fl (8 / 100) ∧ fl (157 / 100) ≠ fl (158 / 100) := by
  refine ⟨⟨?_, ?_, ?_⟩, ⟨?_, ?_⟩, ⟨?_, ?_, ?_⟩, ⟨?_, ?_⟩, ?_, ⟨?_, ?_⟩, ?_, ?_⟩ <;> decide!

/-- C5. Cancel rule: on an existing order, a cancellation whose storage steps
succeed answers with the confirmation, sets the status of the order's row to
CANCELLED and changes no order line and no payment; when the status before the
call was PAID the stock of every item goes up by the total qty of the order's
lines for that item, read off the `order_items` table; when it was DRAFT the
stock is unchanged, whatever payments the order has. -/
theorem cancelOrder_rule (db : Db) (id : Nat) (ord : Order)
    (hfind : findOrder db id = some ord) :
    (cancelOrder db noFault id).2 = Resp.cancelled ∧
    (cancelOrder db noFault id).1.orders = db.orders.map
      (fun o => if o.order_id = id then { o with status := Status.CANCELLED } else o) ∧
    (cancelOrder db noFault id).1.orders.find? (fun o => o.order_id = id)
      = some { ord with status := Status.CANCELLED } ∧
    (cancelOrder db noFault id).1.order_items = db.order_items ∧
    (cancelOrder db noFault id).1.payments = db.payments ∧
    (ord.status = Status.PAID →
      (cancelOrder db noFault id).1.items = db.items.map
        (fun r => { r with quantity := r.quantity
          + ((db.order_items.filter
              (fun l => l.order_id = id ∧ l.item_id = r.item_id)).map OrderItem.qty).sum })) ∧
    (ord.status = Status.DRAFT → (cancelOrder db noFault id).1.items = db.items) := by
  rw [cancelOrder_found db id ord hfind]
  refine ⟨rfl, rfl, findOrder_setStatus db id Status.CANCELLED ord hfind, rfl, rfl, ?_, ?_⟩
  · intro hp
    rw [if_pos hp]
    simp only [shiftStock]
    apply List.map_congr_left
    intro r _
    have hq : lineQty db id r.item_id
        = ((db.order_items.filter
            (fun l => l.order_id = id ∧ l.item_id = r.item_id)).map OrderItem.qty).sum := by
      simp only [lineQty, orderLines, List.filter_filter]
      congr 2
      apply List.filter_congr
      intro l _
      simp only [Bool.decide_and, Bool.and_comm]
    rw [hq, one_mul]
  · intro hd
    have hnp : ¬ ord.status = Status.PAID := by
      rw [hd]
      decide
    rw [if_neg hnp]

/-- C5 at the worked example: order 1 (2 of A, 1 of B) is PAID with stock 8 and
4, and its cancellation leaves it CANCELLED with stock 10 and 5; the same order
cancelled while DRAFT, with stock 10 and 5, leaves it CANCELLED with stock 10
and 5. -/
theorem cancelOrder_rule_witness :
    findOrder shopDb2 1 = some { shopOrder with status := Status.PAID } ∧
    ((cancelOrder shopDb2 noFault 1).2 = Resp.cancelled ∧
      (cancelOrder shopDb2 noFault 1).1.orders = shopDb2.orders.map
        (fun o => if o.order_id = 1 then { o with status := Status.CANCELLED } else o) ∧
      (cancelOrder shopDb2 noFault 1).1.orders.find? (fun o => o.order_id = 1)
        = some { shopOrder with status := Status.CANCELLED } ∧
      (cancelOrder shopDb2 noFault 1).1.order_items = shopDb2.order_items ∧
      (cancelOrder shopDb2 noFault 1).1.payments = shopDb2.payments ∧
      (Status.PAID = Status.PAID →
        (cancelOrder shopDb2 noFault 1).1.items = shopDb2.items.map
          (fun r => { r with quantity := r.quantity
            + ((shopDb2.order_items.filter
                (fun l => l.order_id = 1 ∧ l.item_id = r.item_id)).map OrderItem.qty).sum })) ∧
      (Status.PAID = Status.DRAFT →
        (cancelOrder shopDb2 noFault 1).1.items = shopDb2.items)) ∧
    shopDb2.items.map Item.quantity = [8, 4] ∧
    shopDb2.order_items.map (fun l => (l.order_id, l.item_id, l.qty)) = [(1, 1, 2), (1, 2, 1)] ∧
    (cancelOrder shopDb2 noFault 1).1.items.map Item.quantity = [10, 5] ∧
    (cancelOrder shopDb2 noFault 1).1.orders.map Order.status = [Status.CANCELLED] ∧
    shopDb1.orders.map Order.status = [Status.DRAFT] ∧
    shopDb1.items.map Item.quantity = [10, 5] ∧
    (cancelOrder shopDb1 noFault 1).2 = Resp.cancelled ∧
    (cancelOrder shopDb1 noFault 1).1.items.map Item.quantity = [10, 5] ∧
    (cancelOrder shopDb1 noFault 1).1.orders.map Order.status = [Status.CANCELLED] :=
  ⟨by decide!,
   cancelOrder_rule shopDb2 1 { shopOrder with status := Status.PAID } (by decide!),
   by decide!, by decide!, by decide!, by decide!, by decide!, by decide!, by decide!,
   by decide!, by decide!⟩

/-- C6. Stock round trip: when a payment settles a DRAFT order (`due ≤ 0`, so the
order becomes PAID and the stock is decremented) and the order is then
cancelled, the stock table is again the one from before the payment, whatever
the initial stock and the line quantities. -/
theorem settle_then_cancel_restores_stock (db : Db) (ymd : String) (id : Nat)
    (body : PayBody) (ord : Order) (amount : ℚ)
    (hfind : findOrder db id = some ord) (hst : ord.status = Status.DRAFT)
    (hm : body.method ≠ "") (ha : body.amount = some amount)
    (hdue : round2 (ord.total_amount - (paidTotal db id + amount)) ≤ 0) :
    statusOf (payOrder db noFault ymd id body).1 id = some Status.PAID ∧
    (payOrder db noFault ymd id body).1.items = db.items.map
      (fun r => { r with quantity := r.quantity - lineQty db id r.item_id }) ∧
    (cancelOrder (payOrder db noFault ymd id body).1 noFault id).2 = Resp.cancelled ∧
    statusOf (cancelOrder (payOrder db noFault ymd id body).1 noFault id).1 id
      = some Status.CANCELLED ∧
    (cancelOrder (payOrder db noFault ymd id body).1 noFault id).1.items = db.items := by
  have hrun := payOrder_draft db ymd id body ord amount hfind hst hm ha
  rw [if_neg (not_lt.mpr hdue)] at hrun
  rw [hrun]
  have hf1 : findOrder
      { db with payments := db.payments ++ [paymentRow id body amount],
                orders := setStatus db.orders id Status.PAID,
                items := shiftStock db id (-1),
                invoices := if body.generate_invoice = true
                  then insertIgnoreInvoice db.invoices id (invNo ymd id)
                  else db.invoices } id
      = some { ord with status := Status.PAID } :=
    findOrder_setStatus db id Status.PAID ord hfind
  have hc := cancelOrder_found _ id _ hf1
  rw [hc]
  refine ⟨?_, ?_, rfl, ?_, ?_⟩
  · simp [statusOf, hf1]
  · simp [shiftStock, sub_eq_add_neg]
  · have := findOrder_setStatus _ id Status.CANCELLED _ hf1
    simp only [statusOf, findOrder] at this ⊢
    simp [this]
  · simp only [if_true, shiftStock, lineQty, orderLines, List.map_map]
    conv_rhs => rw [← List.map_id db.items]
    apply List.map_congr_left
    intro r _
    simp

theorem settle_then_cancel_restores_stock_witness :
    findOrder lowDb 1 = some lowOrder ∧ lowOrder.status = Status.DRAFT ∧
    (cash 100).method ≠ "" ∧ (cash 100).amount = some 100 ∧
    round2 (lowOrder.total_amount - (paidTotal lowDb 1 + 100)) ≤ 0 ∧
    statusOf (payOrder lowDb noFault "20240101" 1 (cash 100)).1 1 = some Status.PAID ∧
    (payOrder lowDb noFault "20240101" 1 (cash 100)).1.items = lowDb.items.map
      (fun r => { r with quantity := r.quantity - lineQty lowDb 1 r.item_id }) ∧
    (cancelOrder (payOrder lowDb noFault "20240101" 1 (cash 100)).1 noFault 1).2
      = Resp.cancelled ∧
    statusOf (cancelOrder (payOrder lowDb noFault "20240101" 1 (cash 100)).1 noFault 1).1 1
      = some Status.CANCELLED ∧
    (cancelOrder (payOrder lowDb noFault "20240101" 1 (cash 100)).1 noFault 1).1.items
      = lowDb.items :=
  ⟨by decide!, rfl, by decide, rfl, by decide!,
   settle_then_cancel_restores_stock lowDb "20240101" 1 (cash 100) lowOrder 100
     (by decide!) rfl (by decide) rfl (by decide!)⟩

/-- C7. Order state machine: along every sequence of create order, add payment
and cancel order calls (succeeding or failing at any storage step), the status
of every order changes only by the moves of `Allowed` (an order appears in
DRAFT; DRAFT to PAID; DRAFT to CANCELLED; PAID to CANCELLED; or no change), so
no call sets a PAID or CANCELLED order back to DRAFT or a CANCELLED order to
PAID, and the order enters PAID at most once. -/
theorem order_state_machine (db : Db) (calls : List Call) (id : Nat) :
    List.Chain' Allowed ((run db calls).map (fun d => statusOf d id)) ∧
    entersPaid ((run db calls).map (fun d => statusOf d id)) ≤ 1 :=
  ⟨run_chain db calls id, (entersPaid_chain _ (run_chain db calls id)).1⟩

/-- C8. Add payment rejections: a well-formed payment request (method and
amount given) whose transaction start and order lookup succeed is answered with
400 "Order already PAID." on a PAID order, 400 "Order is CANCELLED." on a
CANCELLED order and 404 "Order not found" on an unknown order id, and in each
case the database (payments, orders, invoices, stock) is the one before the
call. -/
theorem payOrder_rejections (db : Db) (fault : Nat → Bool) (ymd : String) (id : Nat)
    (body : PayBody) (amount : ℚ)
    (hm : body.method ≠ "") (ha : body.amount = some amount)
    (h0 : fault 0 = false) (h1 : fault 1 = false) :
    (∀ ord, findOrder db id = some ord → ord.status = Status.PAID →
      payOrder db fault ymd id body = (db, Resp.error 400 "Order already PAID.")) ∧
    (∀ ord, findOrder db id = some ord → ord.status = Status.CANCELLED →
      payOrder db fault ymd id body = (db, Resp.error 400 "Order is CANCELLED.")) ∧
    (findOrder db id = none →
      payOrder db fault ymd id body = (db, Resp.error 404 "Order not found")) := by
  refine ⟨?_, ?_, ?_⟩
  · intro ord hfind hst
    simp [payOrder, hm, ha, h0, h1, hfind, hst]
  · intro ord hfind hst
    simp [payOrder, hm, ha, h0, h1, hfind, hst]
  · intro hfind
    simp [payOrder, hm, ha, h0, h1, hfind]

theorem payOrder_rejections_witness :
    (cash 10).method ≠ "" ∧ (cash 10).amount = some 10 ∧
    statusOf mixedDb 1 = some Status.PAID ∧
    statusOf mixedDb 2 = some Status.CANCELLED ∧
    findOrder mixedDb 3 = none ∧
    payOrder mixedDb noFault "20240101" 1 (cash 10)
      = (mixedDb, Resp.error 400 "Order already PAID.") ∧
    payOrder mixedDb noFault "20240101" 2 (cash 10)
      = (mixedDb, Resp.error 400 "Order is CANCELLED.") ∧
    payOrder mixedDb noFault "20240101" 3 (cash 10)
      = (mixedDb, Resp.error 404 "Order not found") :=
  ⟨by decide, rfl, by decide!, by decide!, by decide!,
   (payOrder_rejections mixedDb noFault "20240101" 1 (cash 10) 10 (by decide) rfl rfl rfl).1
     mixedPaid (by decide!) rfl,
   (payOrder_rejections mixedDb noFault "20240101" 2 (cash 10) 10 (by decide) rfl rfl rfl).2.1
     mixedCancelled (by decide!) rfl,
   (payOrder_rejections mixedDb noFault "20240101" 3 (cash 10) 10 (by decide) rfl rfl rfl).2.2
     (by decide!)⟩

/-- C9, the code at the failing input: every line of `variantBody` names item 1
of the catalog `weighDb` (two pack variants of it), no storage step fails, and
the handler answers 400 "Some items not found." and stores nothing, because the
catalog query returns one row for the two ids. -/
theorem createOrder_rejects_repeated_item :
    variantBody.items = some [{ item_id := some 1, qty := some 1, unit_price := some 6 },
                              { item_id := some 1, qty := some 1, unit_price := some 11 }] ∧
    (∃ r ∈ weighDb.items, r.item_id = 1) ∧
    createOrder weighDb noFault 7 variantBody
      = (weighDb, Resp.error 400 "Some items not found.") := by
  decide!

/-- C10. Create order failure persists nothing: a request whose line list is
missing, not a list or empty is answered 400 "Order must contain at least one
item."; one with a line whose item id is non-numeric or zero is answered 400
"Invalid item_id(s)."; one with a line whose item id is absent from the catalog
(catalog query succeeding, `item_id` being the key of `items`) is answered with
a 400 error; in every case the database is the one before the call. -/
theorem createOrder_failure_persists_nothing (db : Db) (fault : Nat → Bool) (userId : Nat)
    (body : OrderBody) :
    ((body.items = none ∨ body.items = some []) →
      createOrder db fault userId body
        = (db, Resp.error 400 "Order must contain at least one item.")) ∧
    (∀ items, body.items = some items →
      (∃ i ∈ items, i.item_id = none ∨ i.item_id = some 0) →
      createOrder db fault userId body = (db, Resp.error 400 "Invalid item_id(s).")) ∧
    (∀ items, body.items = some items → fault 0 = false →
      (db.items.map Item.item_id).Nodup →
      (∃ i ∈ items, ∃ k, i.item_id = some k ∧ ∀ r ∈ db.items, r.item_id ≠ k) →
      ∃ msg, createOrder db fault userId body = (db, Resp.error 400 msg)) := by
  refine ⟨?_, ?_, ?_⟩
  · rintro (h | h) <;> simp [createOrder, h]
  · intro items hitems hbad
    have hlt := ids_length_lt items hbad
    have hne : items.length ≠ 0 := by omega
    have hne' : (ids items).length ≠ items.length := by omega
    simp [createOrder, hitems, hne, hne']
  · intro items hitems hf hkey ⟨i, hi, k, hk, habs⟩
    have hpos : 0 < items.length := List.length_pos_of_mem hi
    have hne : items.length ≠ 0 := by omega
    have hnil : items ≠ [] := List.ne_nil_of_length_pos hpos
    by_cases hlen : (ids items).length = items.length
    · by_cases hk0 : k = 0
      · subst hk0
        have := ids_length_lt items ⟨i, hi, Or.inr hk⟩
        omega
      · have hmem : k ∈ ids items := by
          simp only [ids, List.mem_filterMap]
          exact ⟨i, hi, by simp [hk, Option.filter, hk0]⟩
        have hlt := selectItems_length_lt db (ids items) k hkey hmem habs
        have hne2 : (selectItems db (ids items)).length ≠ items.length := by omega
        refine ⟨"Some items not found.", ?_⟩
        simp [createOrder, hitems, hnil, hlen, hf, hne2]
    · refine ⟨"Invalid item_id(s).", ?_⟩
      simp [createOrder, hitems, hnil, hlen]

theorem createOrder_failure_persists_nothing_witness :
    createOrder shopDb noFault 7 { shopBody with items := none }
      = (shopDb, Resp.error 400 "Order must contain at least one item.") ∧
    createOrder shopDb noFault 7 { shopBody with items := some [] }
      = (shopDb, Resp.error 400 "Order must contain at least one item.") ∧
    createOrder shopDb noFault 7
        { shopBody with items := some [{ item_id := some 0, qty := some 1, unit_price := none }] }
      = (shopDb, Resp.error 400 "Invalid item_id(s).") ∧
    (∃ msg, createOrder shopDb noFault 7
        { shopBody with items := some [{ item_id := some 9, qty := some 1, unit_price := none }] }
      = (shopDb, Resp.error 400 msg)) :=
  ⟨(createOrder_failure_persists_nothing shopDb noFault 7 { shopBody with items := none }).1
     (Or.inl rfl),
   (createOrder_failure_persists_nothing shopDb noFault 7 { shopBody with items := some [] }).1
     (Or.inr rfl),
   (createOrder_failure_persists_nothing shopDb noFault 7
     { shopBody with items := some [{ item_id := some 0, qty := some 1, unit_price := none }] }).2.1
     _ rfl ⟨_, List.mem_singleton.mpr rfl, Or.inr rfl⟩,
   (createOrder_failure_persists_nothing shopDb noFault 7
     { shopBody with items := some [{ item_id := some 9, qty := some 1, unit_price := none }] }).2.2
     _ rfl rfl (by decide) ⟨_, List.mem_singleton.mpr rfl, 9, rfl, by decide⟩⟩

/-- C11 (as amended). An order is PAID when its payments reach its total up to
rounding: in every database reached from an initial one (a catalog without
orders, payments or invoices) by any sequence of create order, add payment and
cancel order calls, every order with status PAID has
`round2 (total_amount - paid) ≤ 0`, that is cumulative payments above
`total_amount - 0.005`, hence `≥ total_amount` when they are a whole number of
cents; and every DRAFT order that has received a payment has cumulative
payments `< total_amount`. -/
theorem paid_when_payments_reach_total (db0 : Db) (calls : List Call) (db : Db)
    (h0 : Fresh db0) (hdb : db ∈ run db0 calls) (o : Order) (ho : o ∈ db.orders) :
    (o.status = Status.PAID →
      round2 (o.total_amount - paidTotal db o.order_id) ≤ 0 ∧
      o.total_amount - 1 / 200 < paidTotal db o.order_id ∧
      (IsCents (paidTotal db o.order_id) → o.total_amount ≤ paidTotal db o.order_id)) ∧
    (o.status = Status.DRAFT → (∃ p ∈ db.payments, p.order_id = o.order_id) →
      paidTotal db o.order_id < o.total_amount) := by
  obtain ⟨_, _, hc, hP, hD⟩ :=
    run_invariant PaymentInv paymentInv_exec calls db0 (paymentInv_fresh db0 h0) db hdb
  refine ⟨?_, ?_⟩
  · intro hs
    have hle := hP o ho hs
    refine ⟨hle, ?_, ?_⟩
    · have := round2_nonpos_imp hle
      linarith
    · intro hpc
      have hx : IsCents (o.total_amount - paidTotal db o.order_id) := isCents_sub (hc o ho) hpc
      rw [round2_of_isCents hx] at hle
      linarith
  · intro hs ⟨p, hp, hpo⟩
    rcases hD o ho hs with hl | hr
    · exact absurd hpo (hl p hp)
    · have := round2_pos_imp hr
      linarith

theorem paid_when_payments_reach_total_witness :
    Fresh shopDb ∧ shopDbInv ∈ run shopDb invoiceCalls ∧
    ({ shopOrder with status := Status.PAID } : Order) ∈ shopDbInv.orders ∧
    (Status.PAID = Status.PAID →
      round2 (shopOrder.total_amount - paidTotal shopDbInv 1) ≤ 0 ∧
      shopOrder.total_amount - 1 / 200 < paidTotal shopDbInv 1 ∧
      (IsCents (paidTotal shopDbInv 1) → shopOrder.total_amount ≤ paidTotal shopDbInv 1)) ∧
    (Status.PAID = Status.DRAFT → (∃ p ∈ shopDbInv.payments, p.order_id = 1) →
      paidTotal shopDbInv 1 < shopOrder.total_amount) :=
  ⟨⟨rfl, rfl, rfl, rfl⟩, by decide!, by decide!,
   paid_when_payments_reach_total shopDb invoiceCalls shopDbInv ⟨rfl, rfl, rfl, rfl⟩
     (by decide!) { shopOrder with status := Status.PAID } (by decide!)⟩

/-- C11, the claim as stated fails: from the catalog `candyDb`, creating the
order of total 0.01 and paying 0.006 reaches a database whose order is PAID
with cumulative payments 0.006, less than its total. -/
theorem paid_when_payments_reach_total_counterexample :
    Fresh candyDb ∧ candyPaidDb ∈ run candyDb candyCalls ∧
    candyPaidDb.orders = [{ centOrder with status := Status.PAID }] ∧
    paidTotal candyPaidDb 1 = 6 / 1000 ∧
    paidTotal candyPaidDb 1 < ({ centOrder with status := Status.PAID } : Order).total_amount :=
  ⟨⟨rfl, rfl, rfl, rfl⟩, by decide!, by decide!, by decide!, by decide!⟩

/-- C12 (as amended). Payment amount must be given: add payment without a
method or without an amount is answered 400 "method and amount are required."
and leaves the database unchanged, whatever the order; on an existing DRAFT
order every given amount, also zero or negative, is accepted when no storage
step fails: the payment row with that amount is recorded and the response
reports `paid` and `due` as for any other amount. -/
theorem payOrder_amount_required (db : Db) (ymd : String) (id : Nat) (body : PayBody) :
    (∀ fault, (body.method = "" ∨ body.amount = none) →
      payOrder db fault ymd id body
        = (db, Resp.error 400 "method and amount are required.")) ∧
    (∀ ord amount, findOrder db id = some ord → ord.status = Status.DRAFT →
      body.method ≠ "" → body.amount = some amount →
      (payOrder db noFault ymd id body).1.payments
        = db.payments ++ [paymentRow id body amount] ∧
      ∃ msg inv, (payOrder db noFault ymd id body).2
        = Resp.paid msg (paidTotal db id + amount)
            (round2 (ord.total_amount - (paidTotal db id + amount))) inv) := by
  refine ⟨?_, ?_⟩
  · intro fault h
    rcases h with h | h
    · simp [payOrder, h]
    · by_cases hm : body.method = ""
      · simp [payOrder, hm]
      · simp [payOrder, hm, h]
  · intro ord amount hfind hst hm ha
    rw [payOrder_draft db ymd id body ord amount hfind hst hm ha]
    split_ifs
    all_goals exact ⟨rfl, _, _, rfl⟩

theorem payOrder_amount_required_witness :
    payOrder shopDb1 noFault "20240101" 1 { cash 5 with amount := none }
      = (shopDb1, Resp.error 400 "method and amount are required.") ∧
    ((payOrder shopDb1 noFault "20240101" 1 (cash 26)).1.payments
        = shopDb1.payments ++ [paymentRow 1 (cash 26) 26] ∧
      ∃ msg inv, (payOrder shopDb1 noFault "20240101" 1 (cash 26)).2
        = Resp.paid msg (paidTotal shopDb1 1 + 26)
            (round2 (shopOrder.total_amount - (paidTotal shopDb1 1 + 26))) inv) :=
  ⟨(payOrder_amount_required shopDb1 "20240101" 1 { cash 5 with amount := none }).1
     noFault (Or.inr rfl),
   (payOrder_amount_required shopDb1 "20240101" 1 (cash 26)).2 shopOrder 26
     (by decide!) rfl (by decide) rfl⟩

/-- C12, the claim as stated fails: on the DRAFT order of the worked example
(total 126) a payment of -5 is accepted and recorded (paid -5, due 131), and so
is a payment of 0; on the DRAFT order of `freeDb` (total 0) a payment of 0
settles the order. -/
theorem payOrder_amount_required_counterexample :
    findOrder shopDb1 1 = some shopOrder ∧
    payOrder shopDb1 noFault "20240101" 1 (cash (-5))
      = ({ shopDb1 with payments := [{ order_id := 1, method := "CASH", amount := -5,
                                       txn_ref := none }] },
         Resp.paid "Payment added (partial)." (-5) 131 none) ∧
    payOrder shopDb1 noFault "20240101" 1 (cash 0)
      = ({ shopDb1 with payments := [{ order_id := 1, method := "CASH", amount := 0,
                                       txn_ref := none }] },
         Resp.paid "Payment added (partial)." 0 126 none) ∧
    statusOf freeDb 1 = some Status.DRAFT ∧
    (payOrder freeDb noFault "20240101" 1 (cash 0)).2 = Resp.paid "Paid in full." 0 0 none ∧
    (payOrder freeDb noFault "20240101" 1 (cash 0)).1.payments.map Payment.amount = [0] ∧
    statusOf (payOrder freeDb noFault "20240101" 1 (cash 0)).1 1 = some Status.PAID := by
  decide!

/-- C13 (as amended). Persisted order invariant: for every order row written by
create order whose exact subtotal (the sum of the line totals) and clamped
discount are whole numbers of cents, whose tax percent has at most two decimals
and whose exact tax is not halfway between two cents, the stored header fields
satisfy `total_amount = round2 (max 0 (subtotal - discount_amount) + tax_amount)`
and `tax_amount = round2 (max 0 (subtotal - discount_amount) * tax_percent / 100)`,
with the stored `subtotal` and `discount_amount` and the request's tax percent;
the stored tax is the cent nearest to the exact tax, which is at least a
millionth away from a rounding tie. -/
theorem createOrder_stored_invariant (db : Db) (fault : Nat → Bool) (userId : Nat)
    (body : OrderBody) (db' : Db) (oid : Nat) (total : ℚ)
    (items : List LineReq) (lines : List Line)
    (h : createOrder db fault userId body = (db', Resp.created oid total))
    (hitems : body.items = some items)
    (hlines : mkLines (selectItems db (ids items)) items = some lines)
    (hs : IsCents ((lines.map Line.line_total).sum))
    (hd : IsCents (max 0 (body.discount_amount.getD 0)))
    (hpct : IsCents (body.tax_percent.getD 0))
    (htie : ¬ HalfCent (max 0 ((lines.map Line.line_total).sum
      - max 0 (body.discount_amount.getD 0)) * body.tax_percent.getD 0 / 100)) :
    ∃ row, db'.orders = db.orders ++ [row] ∧ row.order_id = oid ∧
      row.subtotal = (lines.map Line.line_total).sum ∧
      row.discount_amount = max 0 (body.discount_amount.getD 0) ∧
      row.total_amount
        = round2 (max 0 (row.subtotal - row.discount_amount) + row.tax_amount) ∧
      row.tax_amount
        = round2 (max 0 (row.subtotal - row.discount_amount)
            * body.tax_percent.getD 0 / 100) ∧
      |row.tax_amount - max 0 (row.subtotal - row.discount_amount)
          * body.tax_percent.getD 0 / 100| ≤ 1 / 200 - 1 / 1000000 := by
  obtain ⟨items', lines', hi, _, _, _, hl, _, _, hdb⟩ :=
    createOrder_created db fault userId body db' oid total h
  rw [hitems] at hi
  obtain rfl : items = items' := Option.some.inj hi
  rw [hlines] at hl
  obtain rfl : lines = lines' := Option.some.inj hl
  have htaxable : IsCents (max 0 ((lines.map Line.line_total).sum
      - max 0 (body.discount_amount.getD 0))) := by
    rcases le_total 0 ((lines.map Line.line_total).sum
        - max 0 (body.discount_amount.getD 0)) with hle | hle
    · rw [max_eq_right hle]
      exact isCents_sub hs hd
    · rw [max_eq_left hle]
      exact ⟨0, by norm_num⟩
  refine ⟨orderRow oid userId body lines, by rw [hdb], rfl, ?_, ?_, ?_, ?_, ?_⟩
  · simp only [orderRow, subtotalOf, round2_of_isCents hs]
  · simp only [orderRow, discountOf, round2_of_isCents hd]
  · simp only [orderRow, totalAmountOf, taxAmountOf, taxableOf, discountOf, subtotalOf,
      round2_of_isCents hs, round2_of_isCents hd]
  · simp only [orderRow, totalAmountOf, taxAmountOf, taxableOf, discountOf, subtotalOf,
      round2_of_isCents hs, round2_of_isCents hd]
  · simp only [orderRow, totalAmountOf, taxAmountOf, taxableOf, discountOf, subtotalOf,
      round2_of_isCents hs, round2_of_isCents hd]
    exact round2_margin _ (six_decimals htaxable hpct) htie

/-- C13 (as amended) at an order with a rounded tax: 1 at 1.99, no discount, tax
18 percent: subtotal 1.99, exact tax 0.3582, stored tax 0.36, total 2.35. -/
theorem createOrder_stored_invariant_witness :
    (createOrder penDb noFault 7 penBody = (penDb1, Resp.created 1 (235 / 100)) ∧
      penBody.items = some penItems ∧
      mkLines (selectItems penDb (ids penItems)) penItems = some penLines ∧
      IsCents ((penLines.map Line.line_total).sum) ∧
      IsCents (max 0 (penBody.discount_amount.getD 0)) ∧
      IsCents (penBody.tax_percent.getD 0) ∧
      ¬ HalfCent (max 0 ((penLines.map Line.line_total).sum
        - max 0 (penBody.discount_amount.getD 0)) * penBody.tax_percent.getD 0 / 100)) ∧
    (∃ row, penDb1.orders = penDb.orders ++ [row] ∧ row.order_id = 1 ∧
      row.subtotal = (penLines.map Line.line_total).sum ∧
      row.discount_amount = max 0 (penBody.discount_amount.getD 0) ∧
      row.total_amount
        = round2 (max 0 (row.subtotal - row.discount_amount) + row.tax_amount) ∧
      row.tax_amount
        = round2 (max 0 (row.subtotal - row.discount_amount)
            * penBody.tax_percent.getD 0 / 100) ∧
      |row.tax_amount - max 0 (row.subtotal - row.discount_amount)
          * penBody.tax_percent.getD 0 / 100| ≤ 1 / 200 - 1 / 1000000) ∧
    penDb1.orders.map (fun o => (o.subtotal, o.discount_amount, o.tax_amount, o.total_amount))
      = [(199 / 100, 0, 36 / 100, 235 / 100)] :=
  ⟨⟨by decide!, rfl, by decide!, ⟨199, by decide!⟩, ⟨0, by decide!⟩, ⟨1800, by decide!⟩,
    pen_tax_no_tie⟩,
   createOrder_stored_invariant penDb noFault 7 penBody penDb1 1 (235 / 100) penItems penLines
     (by decide!) rfl (by decide!) ⟨199, by decide!⟩ ⟨0, by decide!⟩ ⟨1800, by decide!⟩
     pen_tax_no_tie,
   by decide!⟩

/-- C13, the claim as stated fails: 0.375 of an item at 1.29 with 28 percent tax
has subtotal 0.48375; the handler computes the tax from it,
`round2 0.13545 = 0.14`, and stores the subtotal as 0.48, from which the
invariant gives `round2 (0.48 * 0.28) = round2 0.1344 = 0.13`. -/
theorem createOrder_stored_invariant_counterexample :
    createOrder gstDb noFault 7 gstBody
      = ({ gstDb with orders := [gstOrder],
                      order_items := [{ order_id := 1, item_id := 1,
                                        item_name_snapshot := "Salt", qty := 3 / 8,
                                        unit_price := 129 / 100,
                                        line_total := 387 / 800 }] },
         Resp.created 1 (62 / 100)) ∧
    gstOrder.tax_amount = 14 / 100 ∧
    round2 (max 0 (gstOrder.subtotal - gstOrder.discount_amount)
      * gstBody.tax_percent.getD 0 / 100) = 13 / 100 := by
  decide!

/-- C14 (as amended). Line pricing: a successfully created order persists one
line per request line, in order; each line carries the request's item id, the
catalog name of that item, the request's explicit unit price when one is given
(also an explicit 0) and the catalog cost otherwise, and
`line_total = unit_price * qty`; the order's stored subtotal is the sum of the
line totals rounded to two decimals, hence that sum itself when it is a whole
number of cents. -/
theorem createOrder_line_pricing (db : Db) (fault : Nat → Bool) (userId : Nat)
    (body : OrderBody) (db' : Db) (oid : Nat) (total : ℚ)
    (h : createOrder db fault userId body = (db', Resp.created oid total)) :
    ∃ items rows row, body.items = some items ∧
      db'.order_items = db.order_items ++ rows ∧
      db'.orders = db.orders ++ [row] ∧ row.order_id = oid ∧
      List.Forall₂ (PricedFrom db oid) items rows ∧
      row.subtotal = round2 ((rows.map OrderItem.line_total).sum) ∧
      (IsCents ((rows.map OrderItem.line_total).sum) →
        row.subtotal = (rows.map OrderItem.line_total).sum) := by
  obtain ⟨items, lines, hi, _, ho, hl, hf⟩ :=
    createOrder_lines db fault userId body db' oid total h
  have hsum : ((lineRows oid lines).map OrderItem.line_total).sum = subtotalOf lines := by
    simp [lineRows, subtotalOf, List.map_map, Function.comp_def]
  refine ⟨items, lineRows oid lines, orderRow oid userId body lines, hi, hl, ho, rfl, hf,
    ?_, ?_⟩
  · rw [hsum]
    rfl
  · intro hc
    rw [hsum] at hc ⊢
    exact round2_of_isCents hc

theorem createOrder_line_pricing_witness :
    createOrder shopDb noFault 7 shopBody = (shopDb1, Resp.created 1 126) ∧
    ∃ items rows row, shopBody.items = some items ∧
      shopDb1.order_items = shopDb.order_items ++ rows ∧
      shopDb1.orders = shopDb.orders ++ [row] ∧ row.order_id = 1 ∧
      List.Forall₂ (PricedFrom shopDb 1) items rows ∧
      row.subtotal = round2 ((rows.map OrderItem.line_total).sum) ∧
      (IsCents ((rows.map OrderItem.line_total).sum) →
        row.subtotal = (rows.map OrderItem.line_total).sum) :=
  ⟨by decide!,
   createOrder_line_pricing shopDb noFault 7 shopBody shopDb1 1 126 (by decide!)⟩

/-- C14, the claim as stated fails: for 0.375 of an item at 10.50 the persisted
line has `line_total = 3.9375`, and the persisted order has subtotal 3.94, not
the sum of the line totals. -/
theorem createOrder_line_pricing_counterexample :
    (createOrder weighDb noFault 7 weighBody).2 = Resp.created 1 (414 / 100) ∧
    (createOrder weighDb noFault 7 weighBody).1.order_items.map OrderItem.line_total
      = [63 / 16] ∧
    (createOrder weighDb noFault 7 weighBody).1.orders.map Order.subtotal = [394 / 100] ∧
    ((createOrder weighDb noFault 7 weighBody).1.order_items.map OrderItem.line_total).sum
      = 39375 / 10000 := by
  decide!

/-- C15 (as amended). Monetary fields: for every order persisted by create
order the stored discount_amount is `≥ 0`; the stored subtotal is `≥ 0` when
every line has qty `≥ 0` and unit price `≥ 0`; the stored tax_amount and
total_amount are `≥ 0` when the tax percent is `≥ 0`. -/
theorem createOrder_nonneg (db : Db) (fault : Nat → Bool) (userId : Nat)
    (body : OrderBody) (db' : Db) (oid : Nat) (total : ℚ)
    (items : List LineReq) (lines : List Line)
    (h : createOrder db fault userId body = (db', Resp.created oid total))
    (hitems : body.items = some items)
    (hlines : mkLines (selectItems db (ids items)) items = some lines) :
    ∃ row, db'.orders = db.orders ++ [row] ∧ row.order_id = oid ∧
      0 ≤ row.discount_amount ∧
      ((∀ l ∈ lines, 0 ≤ l.qty ∧ 0 ≤ l.unit_price) → 0 ≤ row.subtotal) ∧
      (0 ≤ body.tax_percent.getD 0 → 0 ≤ row.tax_amount ∧ 0 ≤ row.total_amount) := by
  obtain ⟨items', lines', hi, _, _, _, hl, _, _, hdb⟩ :=
    createOrder_created db fault userId body db' oid total h
  rw [hitems] at hi
  obtain rfl : items = items' := Option.some.inj hi
  rw [hlines] at hl
  obtain rfl : lines = lines' := Option.some.inj hl
  refine ⟨orderRow oid userId body lines, by rw [hdb], rfl, ?_, ?_, ?_⟩
  · exact round2_nonneg (le_max_left _ _)
  · intro hpos
    apply round2_nonneg
    rw [subtotalOf_eq _ _ _ hlines]
    apply List.sum_nonneg
    intro x hx
    obtain ⟨l, hl', rfl⟩ := List.mem_map.mp hx
    exact mul_nonneg (hpos l hl').2 (hpos l hl').1
  · intro htax
    have ht : 0 ≤ taxableOf (subtotalOf lines) (discountOf body) := le_max_left _ _
    have hx : 0 ≤ taxAmountOf (taxableOf (subtotalOf lines) (discountOf body)) body := by
      apply round2_nonneg
      exact div_nonneg (mul_nonneg ht htax) (by norm_num)
    exact ⟨hx, round2_nonneg (add_nonneg ht hx)⟩

theorem createOrder_nonneg_witness :
    createOrder shopDb noFault 7 shopBody = (shopDb1, Resp.created 1 126) ∧
    shopBody.items = some shopItems ∧
    mkLines (selectItems shopDb (ids shopItems)) shopItems = some shopLines ∧
    ∃ row, shopDb1.orders = shopDb.orders ++ [row] ∧ row.order_id = 1 ∧
      0 ≤ row.discount_amount ∧
      ((∀ l ∈ shopLines, 0 ≤ l.qty ∧ 0 ≤ l.unit_price) → 0 ≤ row.subtotal) ∧
      (0 ≤ shopBody.tax_percent.getD 0 → 0 ≤ row.tax_amount ∧ 0 ≤ row.total_amount) :=
  ⟨by decide!, rfl, by decide!,
   createOrder_nonneg shopDb noFault 7 shopBody shopDb1 1 126 shopItems shopLines
     (by decide!) rfl (by decide!)⟩

/-- C15, the claim as stated fails: a line with qty -1 is accepted and stores
the subtotal -50; a tax of -200 percent is accepted and stores the tax amount
-240 and the total -120. -/
theorem createOrder_nonneg_counterexample :
    (createOrder shopDb noFault 7 negQtyBody).2 = Resp.created 1 0 ∧
    (createOrder shopDb noFault 7 negQtyBody).1.orders.map Order.subtotal = [-50] ∧
    (createOrder shopDb noFault 7 negTaxBody).2 = Resp.created 1 (-120) ∧
    (createOrder shopDb noFault 7 negTaxBody).1.orders.map Order.tax_amount = [-240] ∧
    (createOrder shopDb noFault 7 negTaxBody).1.orders.map Order.total_amount = [-120] := by
  decide!

/-- C16 (as amended). Line quantity: every order line persisted by create order
has the qty of its request line, and qty 0 when the request line gives none; so
a persisted line has `qty > 0` exactly when its request line gave a qty `> 0`
(a missing, zero or negative qty is persisted as 0, 0 or that negative
value). -/
theorem createOrder_line_qty (db : Db) (fault : Nat → Bool) (userId : Nat)
    (body : OrderBody) (db' : Db) (oid : Nat) (total : ℚ)
    (h : createOrder db fault userId body = (db', Resp.created oid total)) :
    ∃ items rows, body.items = some items ∧
      db'.order_items = db.order_items ++ rows ∧
      rows.map OrderItem.qty = items.map (fun i => i.qty.getD 0) ∧
      List.Forall₂ (fun i l => l.order_id = oid ∧
        (0 < l.qty ↔ ∃ q, i.qty = some q ∧ 0 < q)) items rows := by
  obtain ⟨items, lines, hi, _, _, hl, hf⟩ :=
    createOrder_lines db fault userId body db' oid total h
  refine ⟨items, lineRows oid lines, hi, hl, ?_, ?_⟩
  · have key : ∀ (is : List LineReq) (rows : List OrderItem),
        List.Forall₂ (PricedFrom db oid) is rows →
        rows.map OrderItem.qty = is.map (fun i => i.qty.getD 0) := by
      intro is rows hfr
      induction hfr with
      | nil => rfl
      | cons hil _ ih =>
        obtain ⟨_, _, _, _, _, _, _, hq, _⟩ := hil
        simp only [List.map_cons, hq, ih]
    exact key items _ hf
  · refine List.Forall₂.imp ?_ hf
    intro i l hil
    obtain ⟨_, _, _, ho, _, _, _, hq, _⟩ := hil
    refine ⟨ho, ?_⟩
    rw [hq]
    cases hqi : i.qty with
    | none => simp
    | some q => simp

theorem createOrder_line_qty_witness :
    createOrder shopDb noFault 7 shopBody = (shopDb1, Resp.created 1 126) ∧
    ∃ items rows, shopBody.items = some items ∧
      shopDb1.order_items = shopDb.order_items ++ rows ∧
      rows.map OrderItem.qty = items.map (fun i => i.qty.getD 0) ∧
      List.Forall₂ (fun i l => l.order_id = 1 ∧
        (0 < l.qty ↔ ∃ q, i.qty = some q ∧ 0 < q)) items rows :=
  ⟨by decide!,
   createOrder_line_qty shopDb noFault 7 shopBody shopDb1 1 126 (by decide!)⟩

/-- C16, the claim as stated fails: a request with a line without qty and a
line with qty -2 is accepted and persists lines with qty 0 and qty -2. -/
theorem createOrder_line_qty_counterexample :
    (createOrder shopDb noFault 7 noQtyBody).2 = Resp.created 1 0 ∧
    (createOrder shopDb noFault 7 noQtyBody).1.order_items.map OrderItem.qty = [0, -2] := by
  decide!

/-- C17. Re-cancellation is a no-op success: on an order whose status is
already CANCELLED (order ids being the key of `orders`), cancel order answers
with the confirmation and leaves the whole database (status, lines, payments,
invoices, stock) unchanged; and for any database, cancelling an order twice
gives the same response and the same database as cancelling it once. -/
theorem cancelOrder_recancel (db : Db) (id : Nat) (ord : Order)
    (hkey : (db.orders.map Order.order_id).Nodup)
    (hfind : findOrder db id = some ord) (hst : ord.status = Status.CANCELLED) :
    cancelOrder db noFault id = (db, Resp.cancelled) ∧
    ∀ db₀ : Db, cancelOrder (cancelOrder db₀ noFault id).1 noFault id
      = ((cancelOrder db₀ noFault id).1, (cancelOrder db₀ noFault id).2) := by
  refine ⟨?_, ?_⟩
  · rw [cancelOrder_found db id ord hfind]
    have huniq := find_unique db.orders id ord hkey hfind
    have hself : setStatus db.orders id Status.CANCELLED = db.orders := by
      apply setStatus_eq_self
      intro o ho hid
      rw [huniq o ho hid]
      exact hst
    simp [hself, hst]
  · intro db₀
    cases hf : findOrder db₀ id with
    | none =>
      rw [cancelOrder_missing db₀ id hf]
      exact cancelOrder_missing db₀ id hf
    | some o =>
      rw [cancelOrder_found db₀ id o hf]
      have hf1 : findOrder
          { db₀ with orders := setStatus db₀.orders id Status.CANCELLED,
                     items := if o.status = Status.PAID then shiftStock db₀ id 1
                       else db₀.items } id
          = some { o with status := Status.CANCELLED } :=
        findOrder_setStatus db₀ id Status.CANCELLED o hf
      rw [cancelOrder_found _ id _ hf1]
      simp [setStatus_idem]

theorem cancelOrder_recancel_witness :
    (mixedDb.orders.map Order.order_id).Nodup ∧
    findOrder mixedDb 2 = some mixedCancelled ∧
    mixedCancelled.status = Status.CANCELLED ∧
    cancelOrder mixedDb noFault 2 = (mixedDb, Resp.cancelled) ∧
    ∀ db₀ : Db, cancelOrder (cancelOrder db₀ noFault 2).1 noFault 2
      = ((cancelOrder db₀ noFault 2).1, (cancelOrder db₀ noFault 2).2) :=
  ⟨by decide, by decide!, rfl,
   cancelOrder_recancel mixedDb 2 mixedCancelled (by decide) (by decide!) rfl⟩

/-- C18. Invoice is issued exactly when requested on settlement: a successful
add payment on a DRAFT order that has no invoice yet answers with
`invoice_number = INV-<ymd>-<id>` and adds the invoice row for the order when
`generate_invoice` is set and `due ≤ 0`; otherwise the response carries no
invoice number and the invoice table is unchanged. -/
theorem payOrder_invoice_iff (db : Db) (ymd : String) (id : Nat) (body : PayBody)
    (ord : Order) (amount : ℚ)
    (hfind : findOrder db id = some ord) (hst : ord.status = Status.DRAFT)
    (hm : body.method ≠ "") (ha : body.amount = some amount)
    (hnoinv : ∀ v ∈ db.invoices, v.order_id ≠ id) :
    ((body.generate_invoice = true
        ∧ round2 (ord.total_amount - (paidTotal db id + amount)) ≤ 0) →
      (∃ msg, (payOrder db noFault ymd id body).2
        = Resp.paid msg (paidTotal db id + amount)
            (round2 (ord.total_amount - (paidTotal db id + amount)))
            (some (invNo ymd id))) ∧
      (payOrder db noFault ymd id body).1.invoices
        = db.invoices ++ [{ order_id := id, invoice_number := invNo ymd id }]) ∧
    (¬ (body.generate_invoice = true
        ∧ round2 (ord.total_amount - (paidTotal db id + amount)) ≤ 0) →
      (∃ msg, (payOrder db noFault ymd id body).2
        = Resp.paid msg (paidTotal db id + amount)
            (round2 (ord.total_amount - (paidTotal db id + amount))) none) ∧
      (payOrder db noFault ymd id body).1.invoices = db.invoices) := by
  have hrun := payOrder_draft db ymd id body ord amount hfind hst hm ha
  have hins : insertIgnoreInvoice db.invoices id (invNo ymd id)
      = db.invoices ++ [{ order_id := id, invoice_number := invNo ymd id }] := by
    have hany : db.invoices.any (fun v => v.order_id = id) = false := by
      rw [List.any_eq_false]
      intro v hv
      simpa using hnoinv v hv
    simp [insertIgnoreInvoice, hany]
  refine ⟨?_, ?_⟩
  · rintro ⟨hg, hle⟩
    rw [hrun, if_neg (not_lt.mpr hle)]
    simp only [hg, if_true, hins]
    exact ⟨⟨_, rfl⟩, trivial⟩
  · intro hn
    rw [hrun]
    by_cases hd : 0 < round2 (ord.total_amount - (paidTotal db id + amount))
    · rw [if_pos hd]
      exact ⟨⟨_, rfl⟩, rfl⟩
    · rw [if_neg hd]
      have hg : ¬ body.generate_invoice = true := fun hg => hn ⟨hg, not_lt.mp hd⟩
      simp only [hg, if_false]
      exact ⟨⟨_, rfl⟩, rfl⟩

theorem payOrder_invoice_iff_witness :
    findOrder shopDb1 1 = some shopOrder ∧ shopOrder.status = Status.DRAFT ∧
    ({ cash 126 with generate_invoice := true } : PayBody).method ≠ "" ∧
    ({ cash 126 with generate_invoice := true } : PayBody).amount = some 126 ∧
    (∀ v ∈ shopDb1.invoices, v.order_id ≠ 1) ∧
    (({ cash 126 with generate_invoice := true } : PayBody).generate_invoice = true
        ∧ round2 (shopOrder.total_amount - (paidTotal shopDb1 1 + 126)) ≤ 0) ∧
    ((({ cash 126 with generate_invoice := true } : PayBody).generate_invoice = true
        ∧ round2 (shopOrder.total_amount - (paidTotal shopDb1 1 + 126)) ≤ 0) →
      (∃ msg, (payOrder shopDb1 noFault "20240101" 1
          { cash 126 with generate_invoice := true }).2
        = Resp.paid msg (paidTotal shopDb1 1 + 126)
            (round2 (shopOrder.total_amount - (paidTotal shopDb1 1 + 126)))
            (some (invNo "20240101" 1))) ∧
      (payOrder shopDb1 noFault "20240101" 1
          { cash 126 with generate_invoice := true }).1.invoices
        = shopDb1.invoices ++ [{ order_id := 1, invoice_number := invNo "20240101" 1 }]) ∧
    (¬ (({ cash 126 with generate_invoice := true } : PayBody).generate_invoice = true
        ∧ round2 (shopOrder.total_amount - (paidTotal shopDb1 1 + 126)) ≤ 0) →
      (∃ msg, (payOrder shopDb1 noFault "20240101" 1
          { cash 126 with generate_invoice := true }).2
        = Resp.paid msg (paidTotal shopDb1 1 + 126)
            (round2 (shopOrder.total_amount - (paidTotal shopDb1 1 + 126))) none) ∧
      (payOrder shopDb1 noFault "20240101" 1
          { cash 126 with generate_invoice := true }).1.invoices = shopDb1.invoices) :=
  ⟨by decide!, rfl, by decide, rfl, by decide!, by decide!,
   payOrder_invoice_iff shopDb1 "20240101" 1 { cash 126 with generate_invoice := true }
     shopOrder 126 (by decide!) rfl (by decide) rfl (by decide!)⟩

/-- C19. Invoice uniqueness: in every database reached from an initial one (a
catalog without orders, payments or invoices) by any sequence of create order,
add payment and cancel order calls, failing or not, every order id has at most
one invoice row, and an order id with an invoice row belongs to an existing
order whose status is PAID or CANCELLED, never DRAFT. -/
theorem invoice_uniqueness (db0 : Db) (calls : List Call) (db : Db)
    (h0 : Fresh db0) (hdb : db ∈ run db0 calls) (id : Nat) :
    (db.invoices.filter (fun v => v.order_id = id)).length ≤ 1 ∧
    ((∃ v ∈ db.invoices, v.order_id = id) →
      (statusOf db id = some Status.PAID ∨ statusOf db id = some Status.CANCELLED) ∧
      statusOf db id ≠ some Status.DRAFT) := by
  have hinv := run_invariant InvoiceInv invoiceInv_exec calls db0 (invoiceInv_fresh db0 h0)
    db hdb id
  refine ⟨hinv.1, ?_⟩
  intro hv
  have hs := hinv.2 hv
  refine ⟨hs, ?_⟩
  rcases hs with hs | hs <;> simp [hs]

theorem invoice_uniqueness_witness :
    Fresh shopDb ∧ shopDbInv ∈ run shopDb invoiceCalls ∧
    (shopDbInv.invoices.filter (fun v => v.order_id = 1)).length ≤ 1 ∧
    ((∃ v ∈ shopDbInv.invoices, v.order_id = 1) →
      (statusOf shopDbInv 1 = some Status.PAID ∨ statusOf shopDbInv 1 = some Status.CANCELLED) ∧
      statusOf shopDbInv 1 ≠ some Status.DRAFT) :=
  ⟨⟨rfl, rfl, rfl, rfl⟩, by decide!,
   invoice_uniqueness shopDb invoiceCalls shopDbInv ⟨rfl, rfl, rfl, rfl⟩ (by decide!) 1⟩

/-- C20 (as amended). Invoice issuance happens once, at settlement: when the
payment that settles a DRAFT order (one without an invoice) asks for the
invoice, the response carries `INV-<ymd>-<id>` and the order then has exactly
that one invoice row; every later add payment on the order, whatever its date,
body and storage faults, changes nothing and returns no invoice number, and it
is answered 400 "Order already PAID." when it is well formed and the lookup
succeeds. -/
theorem invoice_request_after_settlement (db : Db) (ymd : String) (id : Nat)
    (body : PayBody) (ord : Order) (amount : ℚ)
    (hfind : findOrder db id = some ord) (hst : ord.status = Status.DRAFT)
    (hm : body.method ≠ "") (ha : body.amount = some amount)
    (hgen : body.generate_invoice = true)
    (hle : round2 (ord.total_amount - (paidTotal db id + amount)) ≤ 0)
    (hnoinv : ∀ v ∈ db.invoices, v.order_id ≠ id) :
    (payOrder db noFault ymd id body).2
      = Resp.paid "Paid in full." (paidTotal db id + amount)
          (round2 (ord.total_amount - (paidTotal db id + amount))) (some (invNo ymd id)) ∧
    (payOrder db noFault ymd id body).1.invoices.filter (fun v => v.order_id = id)
      = [{ order_id := id, invoice_number := invNo ymd id }] ∧
    ∀ (fault : Nat → Bool) (ymd2 : String) (body2 : PayBody),
      (payOrder (payOrder db noFault ymd id body).1 fault ymd2 id body2).1
        = (payOrder db noFault ymd id body).1 ∧
      (∀ m p d n, (payOrder (payOrder db noFault ymd id body).1 fault ymd2 id body2).2
        ≠ Resp.paid m p d n) ∧
      (body2.method ≠ "" → body2.amount ≠ none → fault 0 = false → fault 1 = false →
        (payOrder (payOrder db noFault ymd id body).1 fault ymd2 id body2).2
          = Resp.error 400 "Order already PAID.") := by
  have hrun := payOrder_draft db ymd id body ord amount hfind hst hm ha
  rw [if_neg (not_lt.mpr hle)] at hrun
  simp only [hgen, if_true] at hrun
  have hins : insertIgnoreInvoice db.invoices id (invNo ymd id)
      = db.invoices ++ [{ order_id := id, invoice_number := invNo ymd id }] := by
    have hany : db.invoices.any (fun v => v.order_id = id) = false := by
      rw [List.any_eq_false]
      intro v hv
      simpa using hnoinv v hv
    simp [insertIgnoreInvoice, hany]
  have hnone : db.invoices.filter (fun v => v.order_id = id) = [] := by
    rw [List.filter_eq_nil_iff]
    intro v hv
    simpa using hnoinv v hv
  have hf1 : findOrder (payOrder db noFault ymd id body).1 id
      = some { ord with status := Status.PAID } := by
    rw [hrun]
    exact findOrder_setStatus db id Status.PAID ord hfind
  refine ⟨?_, ?_, ?_⟩
  · rw [hrun]
    simp [payMessage, not_lt.mpr hle]
  · rw [hrun]
    simp [hins, List.filter_append, hnone]
  · intro fault ymd2 body2
    obtain ⟨st, msg, he⟩ := payOrder_not_draft (payOrder db noFault ymd id body).1 fault ymd2 id
      body2 _ hf1 (by simp)
    refine ⟨by rw [he], ?_, ?_⟩
    · intro m p d n
      rw [he]
      simp
    · intro hm2 ha2 h0 h1
      cases ha2' : body2.amount with
      | none => exact absurd ha2' ha2
      | some a2 =>
        rw [payOrder_paid _ fault ymd2 id body2 _ a2 hf1 rfl hm2 ha2' h0 h1]

theorem invoice_request_after_settlement_witness :
    findOrder shopDb1 1 = some shopOrder ∧ shopOrder.status = Status.DRAFT ∧
    (cashInvoice 126).method ≠ "" ∧ (cashInvoice 126).amount = some 126 ∧
    (cashInvoice 126).generate_invoice = true ∧
    round2 (shopOrder.total_amount - (paidTotal shopDb1 1 + 126)) ≤ 0 ∧
    (∀ v ∈ shopDb1.invoices, v.order_id ≠ 1) ∧
    (payOrder shopDb1 noFault "20240101" 1 (cashInvoice 126)).2
      = Resp.paid "Paid in full." (paidTotal shopDb1 1 + 126)
          (round2 (shopOrder.total_amount - (paidTotal shopDb1 1 + 126)))
          (some (invNo "20240101" 1)) ∧
    (payOrder shopDb1 noFault "20240101" 1 (cashInvoice 126)).1.invoices.filter
        (fun v => v.order_id = 1)
      = [{ order_id := 1, invoice_number := invNo "20240101" 1 }] ∧
    ∀ (fault : Nat → Bool) (ymd2 : String) (body2 : PayBody),
      (payOrder (payOrder shopDb1 noFault "20240101" 1 (cashInvoice 126)).1 fault ymd2 1
          body2).1
        = (payOrder shopDb1 noFault "20240101" 1 (cashInvoice 126)).1 ∧
      (∀ m p d n, (payOrder (payOrder shopDb1 noFault "20240101" 1 (cashInvoice 126)).1
          fault ymd2 1 body2).2 ≠ Resp.paid m p d n) ∧
      (body2.method ≠ "" → body2.amount ≠ none → fault 0 = false → fault 1 = false →
        (payOrder (payOrder shopDb1 noFault "20240101" 1 (cashInvoice 126)).1 fault ymd2 1
            body2).2
          = Resp.error 400 "Order already PAID.") :=
  ⟨by decide!, rfl, by decide, rfl, rfl, by decide!, by decide!,
   invoice_request_after_settlement shopDb1 "20240101" 1 (cashInvoice 126) shopOrder 126
     (by decide!) rfl (by decide) rfl rfl (by decide!) (by decide!)⟩

/-- C20, the claim as stated fails: the worked example's order is settled on
2024-01-01 by a payment that asks for the invoice and gets `INV-20240101-1`; a
second invoice request for the now PAID order, on the same day or the next, is
answered 400 "Order already PAID." and returns no invoice number. -/
theorem invoice_request_after_settlement_counterexample :
    (payOrder shopDb1 noFault "20240101" 1 (cashInvoice 126)).2
      = Resp.paid "Paid in full." 126 0 (some "INV-20240101-1") ∧
    statusOf (payOrder shopDb1 noFault "20240101" 1 (cashInvoice 126)).1 1
      = some Status.PAID ∧
    payOrder (payOrder shopDb1 noFault "20240101" 1 (cashInvoice 126)).1 noFault
        "20240101" 1 (cashInvoice 126)
      = ((payOrder shopDb1 noFault "20240101" 1 (cashInvoice 126)).1,
         Resp.error 400 "Order already PAID.") ∧
    payOrder (payOrder shopDb1 noFault "20240101" 1 (cashInvoice 126)).1 noFault
        "20240102" 1 (cashInvoice 0)
      = ((payOrder shopDb1 noFault "20240101" 1 (cashInvoice 126)).1,
         Resp.error 400 "Order already PAID.") := by
  decide!

/-- C21: for every order id and every issue date with a four-digit year, the
invoice number in the answer of add payment is "INV-", the eight digits
`YYYYMMDD` of the date, "-" and the order id; it depends on the date and the
order id only, and `makeInvoiceLike` of the billing page gives the same string
for the same date and order id. -/
theorem invoice_number_format (db : Db) (fault : Nat → Bool) (y m d : Nat) (time : List Char)
    (id : Nat) (body : PayBody) (msg : String) (paid due : ℚ) (no : String)
    (hy : y ≤ 9999)
    (h : (payOrder db fault (ymdOf (toISOString y m d time)) id body).2
      = Resp.paid msg paid due (some no)) :
    no = "INV-" ++ String.mk (yyyymmdd y m d) ++ "-" ++ toString id ∧
    (yyyymmdd y m d).length = 8 ∧
    (∀ c ∈ yyyymmdd y m d, c.isDigit = true) ∧
    no = makeInvoiceLike (toISOString y m d time) id := by
  have hno := payOrder_invoice_number db fault _ id body msg paid due no h
  refine ⟨?_, rfl, ?_, ?_⟩
  · rw [hno, invNo, ymdOf_toISOString y m d time hy]
  · intro c hc
    simp only [yyyymmdd, pad4, pad2, List.cons_append, List.nil_append, List.mem_cons,
      List.mem_singleton, List.not_mem_nil, or_false] at hc
    rcases hc with rfl | rfl | rfl | rfl | rfl | rfl | rfl | rfl <;> exact (digit_props _).2
  · rw [hno]
    rfl

/-- C21 at the worked example: order 1 is paid in full on 2024-03-09 with an
invoice request. -/
theorem invoice_number_format_witness :
    (2024 ≤ 9999 ∧
      (payOrder shopDb1 noFault (ymdOf (toISOString 2024 3 9 quarterPastTen)) 1
        (cashInvoice 126)).2 = Resp.paid "Paid in full." 126 0 (some "INV-20240309-1")) ∧
    "INV-20240309-1" = "INV-" ++ String.mk (yyyymmdd 2024 3 9) ++ "-" ++ toString 1 ∧
    "INV-20240309-1" = makeInvoiceLike (toISOString 2024 3 9 quarterPastTen) 1 :=
  ⟨⟨by decide, by decide!⟩,
   (invoice_number_format shopDb1 noFault 2024 3 9 quarterPastTen 1 (cashInvoice 126)
     "Paid in full." 126 0 "INV-20240309-1" (by decide) (by decide!)).1,
   (invoice_number_format shopDb1 noFault 2024 3 9 quarterPastTen 1 (cashInvoice 126)
     "Paid in full." 126 0 "INV-20240309-1" (by decide) (by decide!)).2.2.2⟩

/-- C22, as stated, fails: from a catalog with one unit of an item in stock and
no orders, an order for two units is created and paid in full, and the stock of
the item is -1. (A settled order for minus one unit that is cancelled after
another sale also leaves -1.) -/
theorem stock_nonneg_counterexample :
    ¬ (∀ (db0 : Db) (calls : List Call), Fresh db0 → NonNegStock db0 →
        ∀ db ∈ run db0 calls, NonNegStock db) ∧
    (run tightDb tightCalls).map stockList = [[1], [1], [-1]] ∧
    (run tightDb returnCalls).map stockList = [[1], [1], [2], [2], [0], [-1]] := by
  have h1 : (run tightDb tightCalls).map stockList = [[1], [1], [-1]] := by decide!
  refine ⟨?_, h1, by decide!⟩
  intro h
  have hfresh : Fresh tightDb := ⟨rfl, rfl, rfl, rfl⟩
  have hnn : NonNegStock tightDb := by
    unfold NonNegStock
    decide!
  have hmem : exec (exec tightDb (Call.create noFault 7 (unitsBody 2)))
      (Call.pay noFault "20240101" 1 (cash 100)) ∈ run tightDb tightCalls := by
    simp [run, tightCalls]
  have hitems : (exec (exec tightDb (Call.create noFault 7 (unitsBody 2)))
      (Call.pay noFault "20240101" 1 (cash 100))).items
      = [{ item_id := 1, name := "A", cost := 50, quantity := -1 }] := by decide!
  have hneg := h tightDb tightCalls hfresh hnn _ hmem
    { item_id := 1, name := "A", cost := 50, quantity := -1 }
    (by rw [hitems]; exact List.mem_singleton.mpr rfl)
  exact absurd hneg (by decide!)

/-- C22, amended: from a state with every stock at least zero, through any
sequence of create order, add payment and cancel order in which every payment
is made on an order with at most the stock on hand of each item on its lines,
and every cancellation on an order with no negative line quantity, every stock
is at least zero in every state. -/
theorem stock_nonneg_when_covered (db0 : Db) (calls : List Call)
    (h0 : NonNegStock db0) (hc : CoveredRun db0 calls) :
    ∀ db ∈ run db0 calls, NonNegStock db := by
  induction calls generalizing db0 with
  | nil =>
    intro db hdb
    simp only [run, List.mem_singleton] at hdb
    exact hdb ▸ h0
  | cons c cs ih =>
    intro db hdb
    simp only [run, List.mem_cons] at hdb
    rcases hdb with rfl | hdb
    · exact h0
    · refine ih (exec db0 c) ?_ hc.2 db hdb
      have hcov := hc.1
      cases c with
      | create f u b =>
        simp only [exec]
        rcases createOrder_shape db0 f u b with h | ⟨lines, h⟩
        · rw [h]
          exact h0
        · rw [h]
          exact h0
      | pay f y i b =>
        simp only [exec]
        simp only [Covered] at hcov
        rcases payOrder_exact db0 f y i b with h | ⟨ord, amount, _, _, _, _, h | h⟩
        · rw [h]
          exact h0
        · rw [h.2]
          exact h0
        · rw [h.2]
          intro r hr
          simp only [shiftStock, List.mem_map] at hr
          obtain ⟨r0, hr0, rfl⟩ := hr
          have := hcov r0 hr0
          simp only
          linarith
      | cancel f i =>
        simp only [exec]
        simp only [Covered] at hcov
        rcases cancelOrder_exact db0 f i with h | ⟨ord, _, h⟩
        · rw [h]
          exact h0
        · rw [h]
          by_cases hp : ord.status = Status.PAID
          · intro r hr
            simp only [hp, if_true, shiftStock, List.mem_map] at hr
            obtain ⟨r0, hr0, rfl⟩ := hr
            have := hcov r0 hr0
            have := h0 r0 hr0
            simp only
            linarith
          · intro r hr
            simp only [hp, if_false] at hr
            exact h0 r hr

/-- C22, amended, at the worked example: with 10 and 5 units in stock, the order
for 2 and 1 units is created and paid in full; the stock ends at 8 and 4. -/
theorem stock_nonneg_when_covered_witness :
    (NonNegStock shopDb ∧
      CoveredRun shopDb [Call.create noFault 7 shopBody,
        Call.pay noFault "20240101" 1 (cash 126)]) ∧
    ∀ db ∈ run shopDb [Call.create noFault 7 shopBody,
        Call.pay noFault "20240101" 1 (cash 126)], NonNegStock db :=
  ⟨⟨by unfold NonNegStock; decide!, trivial, by simp only [Covered]; decide!, trivial⟩,
   stock_nonneg_when_covered shopDb _ (by unfold NonNegStock; decide!)
     ⟨trivial, by simp only [Covered]; decide!, trivial⟩⟩

/-- C23: the gate lets a verified caller through exactly when the rank of the
caller's role is at least the rank of the required role or the role name is a
property name inherited from `Object.prototype`. So a caller whose role is named
"constructor" (rank 0 in the claim) passes the Admin gate of cancel order and
cancels a PAID order, while a Viewer is answered 403 and nothing changes. -/
theorem authenticateRole_inherited_role :
    authenticateRole "Admin" (Caller.verified (some "constructor")) = none ∧
    specRank "constructor" = 0 ∧
    gatedCancel (Caller.verified (some "constructor")) mixedDb noFault 1
      = cancelOrder mixedDb noFault 1 ∧
    statusOf (gatedCancel (Caller.verified (some "constructor")) mixedDb noFault 1).1 1
      = some Status.CANCELLED ∧
    gatedCancel (Caller.verified (some "Viewer")) mixedDb noFault 1
      = (mixedDb, Resp.error 403 "Access Denied: Viewer cannot perform this action.") ∧
    (∀ route roleName, authenticateRole (requiredRole route) (Caller.verified roleName) = none ↔
      (specRank (requiredRole route) ≤ specRank (roleKey roleName)
        ∨ roleKey roleName ∈ inheritedKeys)) := by
  refine ⟨by decide, by decide, by decide!, by decide!, by decide!, ?_⟩
  intro route roleName
  have hreq : orZero (roleMapGet (requiredRole route))
      = RoleVal.rank (specRank (requiredRole route)) := by
    cases route <;> decide
  simp only [authenticateRole, hreq]
  generalize roleKey roleName = k
  by_cases h1 : k = "Admin"
  · subst h1
    cases route <;> decide
  by_cases h2 : k = "Grocery Keeper"
  · subst h2
    cases route <;> decide
  by_cases h3 : k = "Viewer"
  · subst h3
    cases route <;> decide
  by_cases h4 : k ∈ inheritedKeys
  · simp [roleMapGet, h1, h2, h3, h4, orZero, jsLess]
  · have hz : specRank k = 0 := by simp [specRank, h1, h2, h3]
    have hpos : 0 < specRank (requiredRole route) := by
      cases route <;> decide
    simp only [roleMapGet, h1, h2, h3, h4, if_false, orZero, jsLess, hz, or_false]
    simp only [decide_eq_true_eq, hpos, if_true]
    constructor
    · intro h
      simp at h
    · intro h
      omega

/-- C24: if a storage step that create order, add payment or cancel order
issues fails, the operation answers with a 500 error and the database (orders,
order lines, payments, invoices and item stock) is exactly the one before the
call. In particular, when a full payment fails at the stock update of line
`k + 1` (storage step `6 + k`), after the payment row, the PAID status and the
first `k` stock updates, the answer is "Finalize failed" and nothing has
changed. -/
theorem storage_failure_atomic (db : Db) (fault : Nat → Bool) (ymd : String)
    (userId id : Nat) (obody : OrderBody) (pbody : PayBody) :
    ((∃ k, k < createSteps db obody ∧ fault k = true) →
      ∃ msg, createOrder db fault userId obody = (db, Resp.error 500 msg)) ∧
    ((∃ k, k < paySteps db id pbody ∧ fault k = true) →
      ∃ msg, payOrder db fault ymd id pbody = (db, Resp.error 500 msg)) ∧
    ((∃ k, k < cancelSteps db id ∧ fault k = true) →
      ∃ msg, cancelOrder db fault id = (db, Resp.error 500 msg)) ∧
    (∀ ord amount k, findOrder db id = some ord → ord.status = Status.DRAFT →
      pbody.method ≠ "" → pbody.amount = some amount →
      round2 (ord.total_amount - (paidTotal db id + amount)) ≤ 0 →
      k < (orderLines db id).length →
      (∀ j, j < 6 + k → fault j = false) → fault (6 + k) = true →
      payOrder db fault ymd id pbody = (db, Resp.error 500 "Finalize failed")) := by
  refine ⟨?_, ?_, ?_, ?_⟩
  · rintro ⟨k, hk, hf⟩
    rcases createOrder_fault_spec db fault userId obody with h | ⟨hall, _⟩
    · exact h
    · rw [hall k hk] at hf
      exact absurd hf (by decide)
  · rintro ⟨k, hk, hf⟩
    rcases payOrder_fault_spec db fault ymd id pbody with h | ⟨hall, _⟩
    · exact h
    · rw [hall k hk] at hf
      exact absurd hf (by decide)
  · rintro ⟨k, hk, hf⟩
    rcases cancelOrder_fault_spec db fault id with h | ⟨hall, _⟩
    · exact h
    · rw [hall k hk] at hf
      exact absurd hf (by decide)
  · intro ord amount k hfind hst hm ha hdue hk hpre hf
    rw [payOrder_eq db fault ymd id pbody ord amount hm ha (hpre 0 (by omega))
      (hpre 1 (by omega)) hfind hst (hpre 2 (by omega)) (hpre 3 (by omega))]
    have hstep : step fault
        (orderLines { db with payments := db.payments ++ [paymentRow id pbody amount] } id)
        (4 + 2) db.items = none := by
      apply step_fails fault _ (4 + 2) k db.items hk
      · intro j hj
        exact hpre (4 + 2 + j) (by omega)
      · rwa [show 4 + 2 + k = 6 + k by omega]
    have hfin : finalizeIfPaid { db with payments := db.payments ++ [paymentRow id pbody amount] }
        fault 4 id (round2 (ord.total_amount - (paidTotal db id + amount))) = none := by
      simp only [finalizeIfPaid, gt_iff_lt, not_lt.mpr hdue, if_false, hpre 4 (by omega),
        hpre (4 + 1) (by omega), Bool.false_eq_true, hstep]
    rw [hfin]

/-- C24 at the worked example: the order of two lines is paid in full and the
stock update of its second line fails. -/
theorem storage_failure_atomic_witness :
    (7 < paySteps shopDb1 1 (cash 126) ∧ secondUpdateFails 7 = true) ∧
    (∃ msg, payOrder shopDb1 secondUpdateFails "20240101" 1 (cash 126)
      = (shopDb1, Resp.error 500 msg)) ∧
    payOrder shopDb1 secondUpdateFails "20240101" 1 (cash 126)
      = (shopDb1, Resp.error 500 "Finalize failed") :=
  ⟨⟨by decide!, rfl⟩,
   (storage_failure_atomic shopDb1 secondUpdateFails "20240101" 7 1 shopBody (cash 126)).2.1
     ⟨7, by decide!, rfl⟩,
   (storage_failure_atomic shopDb1 secondUpdateFails "20240101" 7 1 shopBody (cash 126)).2.2.2
     shopOrder 126 1 (by decide!) rfl (by decide) rfl (by decide!) (by decide!)
     (by intro j hj; interval_cases j <;> rfl) rfl⟩

/-- C25: add payment and cancel order leave the order lines as they are and
change no column of an order row but `status`; a payment that answers with an
error leaves the payments as they are, a payment that succeeds appends exactly
one row (the order, the method, the amount and the `txn_ref`, an empty `txn_ref`
stored as null), every payment answers one of the two ways, and cancel order
leaves the payments as they are. -/
theorem lines_payments_immutable (db : Db) (fault : Nat → Bool) (ymd : String) (id : Nat)
    (body : PayBody) :
    ((payOrder db fault ymd id body).1.order_items = db.order_items ∧
      List.Forall₂ SameButStatus db.orders (payOrder db fault ymd id body).1.orders ∧
      (∀ c msg, (payOrder db fault ymd id body).2 = Resp.error c msg →
        (payOrder db fault ymd id body).1.payments = db.payments) ∧
      (∀ m p d n, (payOrder db fault ymd id body).2 = Resp.paid m p d n →
        ∃ amount, body.amount = some amount ∧
          (payOrder db fault ymd id body).1.payments = db.payments ++
            [{ order_id := id, method := body.method, amount := amount,
               txn_ref := body.txn_ref.filter (fun t => t ≠ "") }]) ∧
      ((∃ c msg, (payOrder db fault ymd id body).2 = Resp.error c msg) ∨
        ∃ m p d n, (payOrder db fault ymd id body).2 = Resp.paid m p d n)) ∧
    ((cancelOrder db fault id).1.order_items = db.order_items ∧
      List.Forall₂ SameButStatus db.orders (cancelOrder db fault id).1.orders ∧
      (cancelOrder db fault id).1.payments = db.payments) := by
  constructor
  · rcases payOrder_full db fault ymd id body with ⟨c, msg, h⟩ | ⟨ord, amount, hfind, hst, hm, ha, h⟩
    · rw [h]
      refine ⟨rfl, sameButStatus_refl _, fun _ _ _ => rfl, ?_, Or.inl ⟨c, msg, rfl⟩⟩
      intro m p d n hr
      simp at hr
    · rw [h, payOrder_draft db ymd id body ord amount hfind hst hm ha]
      by_cases hd : 0 < round2 (ord.total_amount - (paidTotal db id + amount))
      · rw [if_pos hd]
        refine ⟨rfl, sameButStatus_refl _, ?_, ?_, Or.inr ⟨_, _, _, _, rfl⟩⟩
        · intro c msg hr
          simp at hr
        · intro m p d n _
          exact ⟨amount, ha, rfl⟩
      · rw [if_neg hd]
        refine ⟨rfl, sameButStatus_setStatus _ _ _, ?_, ?_, Or.inr ⟨_, _, _, _, rfl⟩⟩
        · intro c msg hr
          simp at hr
        · intro m p d n _
          exact ⟨amount, ha, rfl⟩
  · rcases cancelOrder_full db fault id with ⟨c, msg, h⟩ | ⟨ord, hfind, h⟩
    · rw [h]
      exact ⟨rfl, sameButStatus_refl _, rfl⟩
    · rw [h, cancelOrder_found db id ord hfind]
      exact ⟨rfl, sameButStatus_setStatus _ _ _, rfl⟩

/-- C25 at the worked example: the full payment of 126.00 answers "Paid in
full." and appends the one payment row. -/
theorem lines_payments_immutable_witness :
    (payOrder shopDb1 noFault "20240101" 1 (cash 126)).2 = Resp.paid "Paid in full." 126 0 none ∧
    ∃ amount, (cash 126).amount = some amount ∧
      (payOrder shopDb1 noFault "20240101" 1 (cash 126)).1.payments = shopDb1.payments ++
        [{ order_id := 1, method := (cash 126).method, amount := amount,
           txn_ref := (cash 126).txn_ref.filter (fun t => t ≠ "") }] :=
  ⟨by decide!,
   (lines_payments_immutable shopDb1 noFault "20240101" 1 (cash 126)).1.2.2.2.1
     "Paid in full." 126 0 none (by decide!)⟩

/-- C27: in every state reachable from an initial database (a stock table and no
orders) through any sequence of create order, add payment and cancel order
calls, failing ones included, every stock row is the initial row with its
quantity lowered by the total quantity of its item on the lines of orders whose
status is PAID; DRAFT and CANCELLED orders contribute nothing. -/
theorem stock_accounting (db0 : Db) (calls : List Call) (h0 : Fresh db0) :
    ∀ db ∈ run db0 calls,
      db.items = db0.items.map
        (fun r => { r with quantity := r.quantity - paidQty db r.item_id }) := by
  intro db hdb
  exact (run_invariant (StockInv db0) (fun d c hd => stockInv_exec db0 d c hd) calls db0
    (stockInv_fresh db0 h0) db hdb).1

/-- C27 at the worked example: after the order for 2 of A and 1 of B is created
and paid in full, the stock is 10 - 2 and 5 - 1. -/
theorem stock_accounting_witness :
    Fresh shopDb ∧
    shopDb2 ∈ run shopDb [Call.create noFault 7 shopBody,
      Call.pay noFault "20240101" 1 (cash 126)] ∧
    paidQty shopDb2 1 = 2 ∧ paidQty shopDb2 2 = 1 ∧
    shopDb2.items = shopDb.items.map
      (fun r => { r with quantity := r.quantity - paidQty shopDb2 r.item_id }) :=
  ⟨⟨rfl, rfl, rfl, rfl⟩, by simp [run, exec, shopDb2, shopDb1], by decide!, by decide!,
   stock_accounting shopDb [Call.create noFault 7 shopBody,
      Call.pay noFault "20240101" 1 (cash 126)] ⟨rfl, rfl, rfl, rfl⟩ shopDb2
     (by simp [run, exec, shopDb2, shopDb1])⟩

/-- C28, the code at the failing input: the cart holds item 1 of the catalog
`weighDb` in two pack variants (1 at 6.00 and 1 at 11.00, no discount, no tax);
the page shows the total 17.00, `checkout` sends the two lines, and the server
answers 400 "Some items not found." and stores nothing, so no total is
returned and nothing can be paid. -/
theorem checkout_repeated_item :
    (recalcTotals variantCart 0 0).total = 17 ∧
    checkoutPayload variantCart 0 0 "" = variantBody ∧
    (∀ l ∈ variantCart, 1 ≤ l.qty ∧ 0 ≤ l.unit_price ∧ ∃ r ∈ weighDb.items, r.item_id = l.item_id) ∧
    createOrder weighDb noFault 7 (checkoutPayload variantCart 0 0 "")
      = (weighDb, Resp.error 400 "Some items not found.") := by
  decide!

/-- C29: an add payment or a cancel order on order `x`, succeeding or failing,
leaves the row (so the status), the lines, the payments and the invoice of every
other order `j` as they are, and leaves the stock row of every item that is on
no line of `x` as it is; create order leaves every existing order row and its
lines, every payment, every invoice and every stock row as they are. -/
theorem operations_local (db : Db) (fault : Nat → Bool) (ymd : String) (userId x : Nat)
    (body : PayBody) (obody : OrderBody) :
    ((∀ j, j ≠ x →
        findOrder (payOrder db fault ymd x body).1 j = findOrder db j ∧
        orderLines (payOrder db fault ymd x body).1 j = orderLines db j ∧
        (payOrder db fault ymd x body).1.payments.filter (fun p => p.order_id = j)
          = db.payments.filter (fun p => p.order_id = j) ∧
        (payOrder db fault ymd x body).1.invoices.filter (fun v => v.order_id = j)
          = db.invoices.filter (fun v => v.order_id = j)) ∧
      (∀ i, (∀ l ∈ orderLines db x, l.item_id ≠ i) →
        (payOrder db fault ymd x body).1.items.filter (fun r => r.item_id = i)
          = db.items.filter (fun r => r.item_id = i))) ∧
    ((∀ j, j ≠ x →
        findOrder (cancelOrder db fault x).1 j = findOrder db j ∧
        orderLines (cancelOrder db fault x).1 j = orderLines db j ∧
        (cancelOrder db fault x).1.payments.filter (fun p => p.order_id = j)
          = db.payments.filter (fun p => p.order_id = j) ∧
        (cancelOrder db fault x).1.invoices.filter (fun v => v.order_id = j)
          = db.invoices.filter (fun v => v.order_id = j)) ∧
      (∀ i, (∀ l ∈ orderLines db x, l.item_id ≠ i) →
        (cancelOrder db fault x).1.items.filter (fun r => r.item_id = i)
          = db.items.filter (fun r => r.item_id = i))) ∧
    ((∀ j o, findOrder db j = some o →
        findOrder (createOrder db fault userId obody).1 j = some o ∧
        orderLines (createOrder db fault userId obody).1 j = orderLines db j) ∧
      (createOrder db fault userId obody).1.payments = db.payments ∧
      (createOrder db fault userId obody).1.invoices = db.invoices ∧
      (createOrder db fault userId obody).1.items = db.items) := by
  refine ⟨?_, ?_, ?_⟩
  · rcases payOrder_exact db fault ymd x body with h | ⟨ord, amount, _, _, _, _, h | h⟩
    · rw [h]
      exact ⟨fun j _ => ⟨rfl, rfl, rfl, rfl⟩, fun i _ => rfl⟩
    · rw [h.2]
      refine ⟨fun j hj => ⟨rfl, rfl, ?_, rfl⟩, fun i _ => rfl⟩
      have hx : ¬ x = j := fun e => hj e.symm
      simp [List.filter_append, List.filter_cons, paymentRow, hx]
    · rw [h.2]
      refine ⟨fun j hj => ⟨?_, rfl, ?_, ?_⟩, fun i hi => ?_⟩
      · exact find_setStatus_ne db.orders x j Status.PAID hj
      · have hx : ¬ x = j := fun e => hj e.symm
        simp [List.filter_append, List.filter_cons, paymentRow, hx]
      · by_cases hg : body.generate_invoice = true
        · rw [if_pos hg]
          exact insertIgnoreInvoice_filter db.invoices x j _ hj
        · rw [if_neg hg]
      · exact shiftStock_filter db x i (-1) hi
  · rcases cancelOrder_exact db fault x with h | ⟨ord, _, h⟩
    · rw [h]
      exact ⟨fun j _ => ⟨rfl, rfl, rfl, rfl⟩, fun i _ => rfl⟩
    · rw [h]
      refine ⟨fun j hj => ⟨?_, rfl, rfl, rfl⟩, fun i hi => ?_⟩
      · exact find_setStatus_ne db.orders x j Status.CANCELLED hj
      · by_cases hp : ord.status = Status.PAID
        · rw [if_pos hp]
          exact shiftStock_filter db x i 1 hi
        · rw [if_neg hp]
  · rcases createOrder_shape db fault userId obody with h | ⟨lines, h⟩
    · rw [h]
      exact ⟨fun j o ho => ⟨ho, rfl⟩, rfl, rfl, rfl⟩
    · rw [h]
      refine ⟨fun j o ho => ⟨?_, ?_⟩, rfl, rfl, rfl⟩
      · unfold findOrder at ho ⊢
        rw [List.find?_append, ho]
        rfl
      · have hlt := lt_nextOrderId db o (findOrder_mem db j o ho).1
        have hj : ¬ nextOrderId db = j := by
          have := (findOrder_mem db j o ho).2
          omega
        simp only [orderLines, List.filter_append]
        have : (lineRows (nextOrderId db) lines).filter (fun l => l.order_id = j) = [] := by
          rw [List.filter_eq_nil_iff]
          intro l hl
          simp only [lineRows, List.mem_map] at hl
          obtain ⟨_, _, rfl⟩ := hl
          simpa using hj
        rw [this, List.append_nil]

/-- C29 at the worked example: paying order 1 leaves the stock row of item 3,
which is on none of its lines, as it is. -/
theorem operations_local_witness :
    (∀ l ∈ orderLines shopDb1 1, l.item_id ≠ 3) ∧
    (payOrder shopDb1 noFault "20240101" 1 (cash 126)).1.items.filter (fun r => r.item_id = 3)
      = shopDb1.items.filter (fun r => r.item_id = 3) :=
  ⟨by decide!,
   (operations_local shopDb1 noFault "20240101" 7 1 (cash 126) shopBody).1.2 3 (by decide!)⟩

/-- C30: for every text `s`, `escapeHtml s` has none of the characters `<`,
`>`, double quote and apostrophe; every `&` in it starts one of the entities
`&amp;`, `&lt;`, `&gt;`, `&quot;`, `&#39;`; replacing the five entities back by
their characters recovers `s`, so `escapeHtml` is injective; and `escapeHtml s`
is `s` when `s` has none of the five special characters. -/
theorem escapeHtml_neutralises (s : List Char) :
    (∀ x ∈ escapeHtml s, x ≠ '<' ∧ x ≠ '>' ∧ x ≠ quot ∧ x ≠ apos) ∧
    (∀ pre post, escapeHtml s = pre ++ '&' :: post →
      ∃ e ∈ entities, ∃ post', '&' :: post = e ++ post') ∧
    unescapeHtml (escapeHtml s) = s ∧
    (∀ t, escapeHtml s = escapeHtml t → s = t) ∧
    ((∀ x ∈ s, x ≠ '&' ∧ x ≠ '<' ∧ x ≠ '>' ∧ x ≠ quot ∧ x ≠ apos) → escapeHtml s = s) := by
  have hinv : ∀ u, unescapeHtml (escapeHtml u) = u :=
    fun u => unescapeAux_escapeHtml u _ (Nat.le_refl _)
  refine ⟨escapeHtml_chars s, escapeHtml_amp s, hinv s, ?_, ?_⟩
  · intro t h
    rw [← hinv s, ← hinv t, h]
  · intro h
    rw [escapeHtml_eq_flatMap]
    have : s.flatMap escapeChar = s.flatMap (fun x => [x]) := by
      apply List.flatMap_congr
      intro x hx
      obtain ⟨h1, h2, h3, h4, h5⟩ := h x hx
      simp [escapeChar, h1, h2, h3, h4, h5]
    rw [this]
    simp

/-- C30 on a product name: the escaped text, the text read back, and a plain
name left as it is. -/
theorem escapeHtml_neutralises_witness :
    escapeHtml "<b>Tom & Jerry</b>".toList
      = "&lt;b&gt;Tom &amp; Jerry&lt;/b&gt;".toList ∧
    unescapeHtml (escapeHtml "<b>Tom & Jerry</b>".toList) = "<b>Tom & Jerry</b>".toList ∧
    (∀ x ∈ "Rice 5kg".toList, x ≠ '&' ∧ x ≠ '<' ∧ x ≠ '>' ∧ x ≠ quot ∧ x ≠ apos) ∧
    escapeHtml "Rice 5kg".toList = "Rice 5kg".toList :=
  ⟨by decide, (escapeHtml_neutralises "<b>Tom & Jerry</b>".toList).2.2.1, by decide,
   (escapeHtml_neutralises "Rice 5kg".toList).2.2.2.2 (by decide)⟩

end Billing
